import Mathlib

/-!
# The visual / source / prop baking core of `src/visuals.c`

A shallow embedding of the data-binding core: sources, props, binding sets, the
buffer and texture allocation policies and the update pass.

Conventions of the embedding.

* `uint32_t` and `VkDeviceSize` values are natural numbers; every arithmetic
  operation that can wrap in the C code is followed by an explicit reduction
  modulo `2 ^ 32` or `2 ^ 64`.
* A pointer into `visual->sources` is the index of the source in that table;
  `NULL` is `none`.  A Vulkan handle is a natural number, `0` being
  `VK_NULL_HANDLE`.
* A failed `ASSERT`, a dereferenced `NULL`, an access past a fixed-capacity
  table and a loop that never exits end the computation with a `VklError`.
* Every call to an external service (allocator, upload, descriptor update) is
  appended to the log `calls` of the context, tagged with the index of the
  source it was issued for.
-/

namespace Visky

/-! ## Enumerations -/

/-- Object status (`obj.status`).  A zero-initialised object has status `NONE`. -/
inductive VklObjectStatus
  | NONE
  | INIT
  | CREATED
  | NEED_UPDATE
  | INVALID
  deriving DecidableEq, Repr

/-- Pipeline types. -/
inductive VklPipelineType
  | GRAPHICS
  | COMPUTE
  deriving DecidableEq, Repr

/-- Source types.  The constructors are the enumerators named in `visuals.c`;
`OTHER code` stands for any other enumerator of the header. -/
inductive VklSourceType
  | NONE
  | MVP
  | VIEWPORT
  | PARAM
  | VERTEX
  | INDEX
  | IMAGE
  | VOLUME
  | COLOR_TEXTURE
  | FONT_ATLAS
  | OTHER (code : Nat)
  deriving DecidableEq, Repr

/-- Modelled from the spec: the declaration of the enumeration of source kinds is in
a header that is not among the sources.  The kinds are the seven of the data model
(vertex, index, uniform, storage, texture 1D/2D/3D); `NONE` is the value that the
default branch of `_get_source_kind` returns (the enumerator `VKL_SOURCE_TYPE_NONE`
read as a kind), which is none of the seven. -/
inductive VklSourceKind
  | NONE
  | VERTEX
  | INDEX
  | UNIFORM
  | STORAGE
  | TEXTURE_1D
  | TEXTURE_2D
  | TEXTURE_3D
  deriving DecidableEq, Repr

/-- Modelled from the spec: the numeric order of the source kinds, used by the tests
`source_kind < VKL_SOURCE_TEXTURE_1D`.  The non-texture kinds come before the
texture kinds ("a struct-layout array for non-texture kinds, a 3-D array for
texture kinds"). -/
def VklSourceKind.toNat : VklSourceKind → Nat
  | .NONE => 0
  | .VERTEX => 1
  | .INDEX => 2
  | .UNIFORM => 3
  | .STORAGE => 4
  | .TEXTURE_1D => 5
  | .TEXTURE_2D => 6
  | .TEXTURE_3D => 7

/-- Origin of a source: who is responsible for its physical resource. -/
inductive VklSourceOrigin
  | NONE
  | LIB
  | USER
  | NOBAKE
  deriving DecidableEq, Repr

/-- Element data types.  The constructors are the enumerators named in
`visuals.c`; `OTHER code` stands for any other enumerator of the header. -/
inductive VklDataType
  | NONE
  | CHAR
  | CVEC3
  | CVEC4
  | SHORT
  | SVEC3
  | SVEC4
  | USHORT
  | USVEC3
  | USVEC4
  | OTHER (code : Nat)
  deriving DecidableEq, Repr

/-- Pixel formats used by `_get_texture_format`. -/
inductive VkFormat
  | UNDEFINED
  | R8_UNORM
  | R8G8B8_UNORM
  | R8G8B8A8_UNORM
  | R16_SNORM
  | R16G16B16_SNORM
  | R16G16B16A16_SNORM
  | R16_UNORM
  | R16G16B16_UNORM
  | R16G16B16A16_UNORM
  deriving DecidableEq, Repr

/-- Default buffers of the context.  `ZERO` is the literal `0` returned by the
default branch of `_get_buffer_idx`. -/
inductive VklDefaultBuffer
  | ZERO
  | VERTEX
  | INDEX
  | UNIFORM
  | UNIFORM_MAPPABLE
  | STORAGE
  deriving DecidableEq, Repr

/-- How a prop with fewer items is expanded into a source with more items. -/
inductive VklArrayCopyType
  | NONE
  | REPEAT
  | SINGLE
  deriving DecidableEq, Repr

/-- Failures that end a computation. -/
inductive VklError
  | assertion
  | null_pointer
  | out_of_bounds
  | no_termination
  | out_of_range
  | size_mismatch
  deriving DecidableEq, Repr

deriving instance DecidableEq for Except

/-- Prop types: only compared for equality. -/
abbrev VklPropType := Nat

/-- Modelled from the spec: the flag bit of an "immediate" uniform source.  The
constant is declared in a header that is not among the sources; only the fact that
it is a single bit is used. -/
def VKL_SOURCE_FLAG_IMMEDIATE : Nat := 1

/-! ## Source kinds (lines 11-75, 110-141) -/

/-- Lines 11-15. -/
def _source_needs_binding (source_kind : VklSourceKind) : Bool :=
  source_kind = .UNIFORM || source_kind = .STORAGE

/-- Lines 29-58. -/
def _get_source_kind (type : VklSourceType) : VklSourceKind :=
  match type with
  | .MVP => .UNIFORM
  | .VIEWPORT => .UNIFORM
  | .PARAM => .UNIFORM
  | .VERTEX => .VERTEX
  | .INDEX => .INDEX
  | .IMAGE => .TEXTURE_2D
  | .COLOR_TEXTURE => .TEXTURE_2D
  | .FONT_ATLAS => .TEXTURE_2D
  | .VOLUME => .TEXTURE_3D
  | _ => .NONE

/-- Lines 62-67. -/
def _source_is_texture (source_kind : VklSourceKind) : Bool :=
  source_kind = .TEXTURE_1D || source_kind = .TEXTURE_2D || source_kind = .TEXTURE_3D

/-- Lines 71-75. -/
def _source_is_buffer (source_kind : VklSourceKind) : Bool :=
  source_kind = .UNIFORM || source_kind = .STORAGE ||
    source_kind = .VERTEX || source_kind = .INDEX

/-- Lines 133-141. -/
def _get_texture_ndims (source_kind : VklSourceKind) : Nat :=
  let ndims := 1
  let ndims := if source_kind = .TEXTURE_2D then 2 else ndims
  let ndims := if source_kind = .TEXTURE_3D then 3 else ndims
  ndims

/-! ## Data model -/

/-- A set of buffer regions: the buffer handle (`0` is `VK_NULL_HANDLE`), the
number of physical copies and the byte size of each copy. -/
structure VklBufferRegions where
  buffer : Nat
  count : Nat
  size : Nat
  deriving DecidableEq, Repr

/-- The image behind a texture. -/
structure VklImages where
  width : Nat
  height : Nat
  depth : Nat
  format : VkFormat
  deriving DecidableEq, Repr

/-- A texture; `image` and `sampler` are pointers (`none` is `NULL`). -/
structure VklTexture where
  obj_status : VklObjectStatus
  ndims : Nat
  image : Option VklImages
  sampler : Option Nat
  deriving DecidableEq, Repr

/-- The physical handle `u` of a source.  The C union overlays `br` and `tex`;
the embedding keeps the two members side by side (a zero-initialised union reads
as the null region and the null texture).  A write of one member therefore leaves
the other member as it was in the embedding, while it overlays it in C: a property
that fixes the handle of a source after a write fixes the member that is written. -/
structure VklSourceUnion where
  br : VklBufferRegions
  tex : Option VklTexture
  deriving DecidableEq, Repr

/-- Modelled from the spec: the typed array (the array module is not among the
sources).  `data` is the byte storage, `none` being the `NULL` pointer of an array
that never held an item. -/
structure VklArray where
  obj_status : VklObjectStatus
  dtype : VklDataType
  item_size : Nat
  item_count : Nat
  ndims : Nat
  shape : Nat × Nat × Nat
  data : Option (List Nat)
  deriving DecidableEq, Repr

/-- A source.  `other_count` is the length of `other_idxs`. -/
structure VklSource where
  obj_status : VklObjectStatus
  source_type : VklSourceType
  source_kind : VklSourceKind
  pipeline : VklPipelineType
  pipeline_idx : Nat
  slot_idx : Nat
  flags : Nat
  other_idxs : List Nat
  arr : VklArray
  origin : VklSourceOrigin
  u : VklSourceUnion
  deriving DecidableEq, Repr

/-- A prop.  `source` is the pointer to the owning source. -/
structure VklProp where
  prop_type : VklPropType
  prop_idx : Nat
  dtype : VklDataType
  source : Option Nat
  arr_orig : VklArray
  field_idx : Nat
  offset : Nat
  copy_type : VklArrayCopyType
  reps : Nat
  default_value : Option (List Nat)
  deriving DecidableEq, Repr

/-- Modelled from the spec: a Binding Set (the descriptor service is not among the
sources): its status and what is attached at each slot, the most recent
attachment of a slot first. -/
structure VklBindings where
  obj_status : VklObjectStatus
  br : List (Nat × VklBufferRegions)
  textures : List (Nat × VklTexture)
  deriving DecidableEq, Repr

/-- A call to an external service.  The first argument of the allocation and
upload calls is the index of the source the call is issued for. -/
inductive VklCall
  | ctx_buffers (source : Nat) (buffer_idx : VklDefaultBuffer) (buf_count : Nat) (size : Nat)
  | ctx_texture (source : Nat) (ndims : Nat) (shape : Nat × Nat × Nat) (format : VkFormat)
  | texture_resize (source : Nat) (shape : Nat × Nat × Nat)
  | upload_buffers (source : Nat) (br : VklBufferRegions) (offset : Nat) (size : Nat)
      (data : Option (List Nat))
  | upload_buffers_immediate (source : Nat) (br : VklBufferRegions) (offset : Nat)
      (size : Nat) (data : Option (List Nat))
  | upload_texture (source : Nat) (size : Nat) (data : Option (List Nat))
  | bindings_update (pipeline : VklPipelineType) (idx : Nat)
  deriving DecidableEq, Repr

/-- The context of the GPU: the log of the calls made to the external services. -/
structure VklContext where
  calls : List VklCall
  deriving DecidableEq, Repr

/-- The canvas: the number of swapchain images and the context of its GPU. -/
structure VklCanvas where
  img_count : Nat
  context : VklContext
  deriving DecidableEq, Repr

/-- A visual.  `source_count` and `prop_count` are the lengths of `sources` and
`props`; `bindings` and `bindings_comp` are the fixed-capacity tables of the
graphics and compute Binding Sets. -/
structure VklVisual where
  obj_status : VklObjectStatus
  canvas : VklCanvas
  sources : List VklSource
  props : List VklProp
  graphics_count : Nat
  compute_count : Nat
  bindings : List VklBindings
  bindings_comp : List VklBindings
  deriving DecidableEq, Repr

/-- A pointer to a Binding Set of a visual. -/
inductive VklBindingsRef
  | graphics (idx : Nat)
  | compute (idx : Nat)
  deriving DecidableEq, Repr

/-- The allocation calls issued for the source `i`. -/
def VklCall.allocFor (i : Nat) : VklCall → Bool
  | .ctx_buffers j _ _ _ => j = i
  | .ctx_texture j _ _ _ => j = i
  | .texture_resize j _ => j = i
  | _ => false

/-- The upload calls issued for the source `i`. -/
def VklCall.uploadFor (i : Nat) : VklCall → Bool
  | .upload_buffers j _ _ _ _ => j = i
  | .upload_buffers_immediate j _ _ _ _ => j = i
  | .upload_texture j _ _ => j = i
  | _ => false

/-- The number of bytes of a buffer upload issued for the source `i`. -/
def VklCall.uploadSize (i : Nat) : VklCall → Option Nat
  | .upload_buffers j _ _ size _ => if j = i then some size else none
  | .upload_buffers_immediate j _ _ size _ => if j = i then some size else none
  | _ => none

/-! ## External services -/

/-- Modelled from the spec: the allocator service "allocate a buffer region of N
physical copies x size bytes tagged by usage class".  The region returned has the
requested count and size and the (non-null) handle of the default buffer. -/
def vkl_ctx_buffers (ctx : VklContext) (source : Nat) (buffer_idx : VklDefaultBuffer)
    (buf_count : Nat) (size : Nat) : VklBufferRegions × VklContext :=
  ({ buffer := 1 + (match buffer_idx with
        | .ZERO => 0 | .VERTEX => 1 | .INDEX => 2 | .UNIFORM => 3
        | .UNIFORM_MAPPABLE => 4 | .STORAGE => 5),
     count := buf_count, size := size },
   { ctx with calls := ctx.calls ++ [.ctx_buffers source buffer_idx buf_count size] })

/-- Modelled from the spec: the allocator service "allocate an N-dimensional
texture of given shape+format". -/
def vkl_ctx_texture (ctx : VklContext) (source : Nat) (ndims : Nat)
    (shape : Nat × Nat × Nat) (format : VkFormat) : VklTexture × VklContext :=
  ({ obj_status := .CREATED, ndims := ndims,
     image := some { width := shape.1, height := shape.2.1, depth := shape.2.2,
                     format := format },
     sampler := some 1 },
   { ctx with calls := ctx.calls ++ [.ctx_texture source ndims shape format] })

/-- Modelled from the spec: the allocator service "resize an N-dimensional texture":
the image takes the given shape. -/
def vkl_texture_resize (ctx : VklContext) (source : Nat) (tex : VklTexture)
    (shape : Nat × Nat × Nat) : VklTexture × VklContext :=
  ({ tex with image := tex.image.map fun img =>
        { img with width := shape.1, height := shape.2.1, depth := shape.2.2 } },
   { ctx with calls := ctx.calls ++ [.texture_resize source shape] })

/-- Modelled from the spec: the upload service "upload raw bytes into a buffer
region". -/
def vkl_upload_buffers (ctx : VklContext) (source : Nat) (br : VklBufferRegions)
    (offset : Nat) (size : Nat) (data : Option (List Nat)) : VklContext :=
  { ctx with calls := ctx.calls ++ [.upload_buffers source br offset size data] }

/-- Modelled from the spec: the frame-immediate variant of the upload service. -/
def vkl_upload_buffers_immediate (ctx : VklContext) (source : Nat) (br : VklBufferRegions)
    (offset : Nat) (size : Nat) (data : Option (List Nat)) : VklContext :=
  { ctx with calls := ctx.calls ++ [.upload_buffers_immediate source br offset size data] }

/-- Modelled from the spec: the upload service "upload raw bytes into a texture". -/
def vkl_upload_texture (ctx : VklContext) (source : Nat) (size : Nat)
    (data : Option (List Nat)) : VklContext :=
  { ctx with calls := ctx.calls ++ [.upload_texture source size data] }

/-- Modelled from the spec: the descriptor service "attach a buffer region at a
given slot index"; the Binding Set becomes stale. -/
def vkl_bindings_buffer (bindings : VklBindings) (idx : Nat) (br : VklBufferRegions) :
    VklBindings :=
  { bindings with br := (idx, br) :: bindings.br, obj_status := .NEED_UPDATE }

/-- Modelled from the spec: the descriptor service "attach a texture+sampler at a
given slot index"; the Binding Set becomes stale. -/
def vkl_bindings_texture (bindings : VklBindings) (idx : Nat) (tex : VklTexture) :
    VklBindings :=
  { bindings with textures := (idx, tex) :: bindings.textures, obj_status := .NEED_UPDATE }

/-- Modelled from the spec: the descriptor service "push pending binding updates to
the GPU"; the Binding Set is up to date afterwards. -/
def vkl_bindings_update (ctx : VklContext) (pipeline : VklPipelineType) (idx : Nat)
    (bindings : VklBindings) : VklBindings × VklContext :=
  ({ bindings with obj_status := .CREATED },
   { ctx with calls := ctx.calls ++ [.bindings_update pipeline idx] })

/-- Modelled from the spec: `is_obj_created` of the object module: the object has
been created (it may be stale). -/
def is_obj_created (status : VklObjectStatus) : Bool :=
  status = .CREATED || status = .NEED_UPDATE

/-- Modelled from the spec: array creation "create(item_size)" for a struct-layout
array of `item_count` zeroed items. -/
def vkl_array_struct (item_count : Nat) (item_size : Nat) : VklArray :=
  { obj_status := .CREATED, dtype := .OTHER 0, item_size := item_size,
    item_count := item_count, ndims := 1, shape := (item_count, 1, 1),
    data := if item_count = 0 then none else some (List.replicate (item_count * item_size) 0) }

/-- Modelled from the spec: array creation "create(item_size, ndims, dims)" for a
texture-layout array. -/
def vkl_array_3D (ndims : Nat) (width height depth : Nat) (item_size : Nat) : VklArray :=
  { obj_status := .CREATED, dtype := .OTHER 0, item_size := item_size,
    item_count := width * height * depth, ndims := ndims, shape := (width, height, depth),
    data := if width * height * depth = 0 then none
            else some (List.replicate (width * height * depth * item_size) 0) }

/-! ## Utilities on a visual (lines 19-25, 79-129) -/

/-- Lines 19-25. -/
def _uniform_source_is_immediate (source : VklSource) : Bool :=
  if source.source_kind ≠ .UNIFORM then false
  else Nat.land source.flags VKL_SOURCE_FLAG_IMMEDIATE ≠ 0

/-- Lines 79-87: the Binding Set of the pipeline that owns the source. -/
def _get_bindings (source : VklSource) : Option VklBindingsRef :=
  match source.pipeline with
  | .GRAPHICS => some (.graphics source.pipeline_idx)
  | .COMPUTE => some (.compute source.pipeline_idx)

/-- Read through a pointer to a Binding Set. -/
def VklVisual.bindingsAt (visual : VklVisual) : VklBindingsRef → Option VklBindings
  | .graphics idx => visual.bindings[idx]?
  | .compute idx => visual.bindings_comp[idx]?

/-- Write through a pointer to a Binding Set; an index past the table is an error. -/
def VklVisual.modifyBindings (visual : VklVisual) (ref : VklBindingsRef)
    (f : VklBindings → VklBindings) : Except VklError VklVisual :=
  match ref with
  | .graphics idx =>
    match visual.bindings[idx]? with
    | none => .error .out_of_bounds
    | some b => .ok { visual with bindings := visual.bindings.set idx (f b) }
  | .compute idx =>
    match visual.bindings_comp[idx]? with
    | none => .error .out_of_bounds
    | some b => .ok { visual with bindings_comp := visual.bindings_comp.set idx (f b) }

/-- The loop of lines 100-104 and of lines 955-958: apply `f` to the graphics
Binding Set of each index of `other_idxs`, in order. -/
def modifyOtherBindings (f : VklBindings → VklBindings) :
    List Nat → VklVisual → Except VklError VklVisual
  | [], visual => .ok visual
  | idx :: rest, visual =>
    match visual.modifyBindings (.graphics idx) f with
    | .error e => .error e
    | .ok visual1 => modifyOtherBindings f rest visual1

/-- Lines 91-106. -/
def _set_source_bindings (visual : VklVisual) (source : VklSource) :
    Except VklError VklVisual :=
  if _source_needs_binding source.source_kind then
    match _get_bindings source with
    | none => .error .null_pointer
    | some ref =>
      match visual.modifyBindings ref (fun b => vkl_bindings_buffer b source.slot_idx source.u.br) with
      | .error e => .error e
      | .ok visual1 =>
        modifyOtherBindings (fun b => vkl_bindings_buffer b source.slot_idx source.u.br)
          source.other_idxs visual1
  else .ok visual

/-- Lines 110-129. -/
def _get_buffer_idx (source : VklSource) : VklDefaultBuffer :=
  match source.source_kind with
  | .VERTEX => .VERTEX
  | .INDEX => .INDEX
  | .UNIFORM =>
    if Nat.land source.flags VKL_SOURCE_FLAG_IMMEDIATE ≠ 0 then .UNIFORM_MAPPABLE
    else .UNIFORM
  | .STORAGE => .STORAGE
  | _ => .ZERO

/-! ## Baking helpers and visual creation (lines 223-301, 669-698) -/

/-- The loop of `vkl_bake_source` (lines 674-682): `i` is the index of the head of
the remaining sources, `out` the source found so far.  The `ASSERT(out == NULL)` of
line 679 fails on a second match. -/
def vkl_bake_source_loop (source_type : VklSourceType) (pipeline_idx : Nat) :
    List VklSource → Nat → Option Nat → Except VklError (Option Nat)
  | [], _, out => .ok out
  | source :: rest, i, out =>
    if source.source_type = source_type ∧ source.pipeline_idx = pipeline_idx then
      match out with
      | some _ => .error .assertion
      | none => vkl_bake_source_loop source_type pipeline_idx rest (i + 1) (some i)
    else vkl_bake_source_loop source_type pipeline_idx rest (i + 1) out

/-- Lines 669-684. -/
def vkl_bake_source (visual : VklVisual) (source_type : VklSourceType) (pipeline_idx : Nat) :
    Except VklError (Option Nat) :=
  vkl_bake_source_loop source_type pipeline_idx visual.sources 0 none

/-- A zero-initialised Binding Set. -/
def VklBindings.zero : VklBindings :=
  { obj_status := .NONE, br := [], textures := [] }

/-- Lines 223-236.  The capacities of the two tables of Binding Sets are the
constants `VKL_MAX_GRAPHICS_PER_VISUAL` and `VKL_MAX_COMPUTES_PER_VISUAL` of the
header. -/
def vkl_visual (VKL_MAX_GRAPHICS_PER_VISUAL VKL_MAX_COMPUTES_PER_VISUAL : Nat)
    (canvas : VklCanvas) : VklVisual :=
  { obj_status := .CREATED, canvas := canvas, sources := [], props := [],
    graphics_count := 0, compute_count := 0,
    bindings := List.replicate VKL_MAX_GRAPHICS_PER_VISUAL VklBindings.zero,
    bindings_comp := List.replicate VKL_MAX_COMPUTES_PER_VISUAL VklBindings.zero }

/-- Lines 272-299: the source that `vkl_visual_source` builds. -/
def vkl_visual_source_new (source_type : VklSourceType) (pipeline : VklPipelineType)
    (pipeline_idx slot_idx item_size flags : Nat) : VklSource :=
  let source_kind := _get_source_kind source_type
  let arr :=
    if source_kind.toNat < VklSourceKind.TEXTURE_1D.toNat then vkl_array_struct 0 item_size
    else vkl_array_3D (_get_texture_ndims source_kind) 0 0 0 item_size
  let source : VklSource :=
    { obj_status := .INIT, source_type := source_type, source_kind := source_kind,
      pipeline := pipeline, pipeline_idx := pipeline_idx, slot_idx := slot_idx,
      flags := flags, other_idxs := [], arr := arr, origin := .NONE,
      u := { br := { buffer := 0, count := 0, size := 0 }, tex := none } }
  if source_kind = .INDEX then { source with origin := .LIB, obj_status := .NEED_UPDATE }
  else source

/-- Lines 264-301.  `VKL_MAX_VISUAL_SOURCES` is the capacity of the table of
sources. -/
def vkl_visual_source (VKL_MAX_VISUAL_SOURCES : Nat) (visual : VklVisual)
    (source_type : VklSourceType) (pipeline : VklPipelineType)
    (pipeline_idx slot_idx item_size flags : Nat) : Except VklError VklVisual :=
  if ¬ (visual.sources.length < VKL_MAX_VISUAL_SOURCES) then .error .assertion
  else
    match vkl_bake_source visual source_type pipeline_idx with
    | .error e => .error e
    | .ok (some _) => .error .assertion
    | .ok none =>
      .ok { visual with
            sources := visual.sources ++
              [vkl_visual_source_new source_type pipeline pipeline_idx slot_idx item_size flags] }

/-! ## Buffer allocation (lines 803-842) -/

/-- The loop of lines 821-822, `while (size < req) size *= 2;`, in 64-bit unsigned
arithmetic, run for at most `fuel` tests of the condition. -/
def buffer_size_loop (req : Nat) : Nat → Nat → Option Nat
  | 0, _ => none
  | fuel + 1, size =>
    if size < req then buffer_size_loop req fuel ((size * 2) % 2 ^ 64) else some size

/-- Lines 819-824: the size requested for the new region, from the current capacity
and the required size.  After 64 doublings a 64-bit value is zero, so a loop that
has not exited after 65 tests of its condition never exits. -/
def buffer_new_size (capacity req : Nat) : Option Nat :=
  let size := (capacity * 2) % 2 ^ 64
  if 0 < size then buffer_size_loop req 65 size else some req

/-- The required byte size `count * source->arr.item_size` of lines 817-825, a
product of a `uint32_t` and a `VkDeviceSize`. -/
def VklSource.required_size (source : VklSource) : Nat :=
  (source.arr.item_count * source.arr.item_size) % 2 ^ 64

/-- The test of line 817: the source has no buffer yet or its capacity is smaller
than the required size. -/
def VklSource.needs_alloc (source : VklSource) : Prop :=
  source.u.br.buffer = 0 ∨ source.u.br.size < source.required_size

instance (source : VklSource) : Decidable source.needs_alloc := by
  unfold VklSource.needs_alloc
  infer_instance

/-- Lines 834-835: the number of physical copies requested. -/
def buffer_alloc_count (visual : VklVisual) (source : VklSource) : Nat :=
  if _uniform_source_is_immediate source then visual.canvas.img_count else 1

/-- Line 836: the source with its new region, of the given size. -/
def buffer_alloc_source (visual : VklVisual) (i : Nat) (source : VklSource) (size : Nat) :
    VklSource :=
  { source with
    u := { source.u with
           br := (vkl_ctx_buffers visual.canvas.context i (_get_buffer_idx source)
                    (buffer_alloc_count visual source) size).1 } }

/-- Line 836: the visual after the allocation of the region of the source `i`. -/
def buffer_alloc_visual (visual : VklVisual) (i : Nat) (source : VklSource) (size : Nat) :
    VklVisual :=
  { visual with
    canvas := { visual.canvas with
                context := (vkl_ctx_buffers visual.canvas.context i (_get_buffer_idx source)
                              (buffer_alloc_count visual source) size).2 }
    sources := visual.sources.set i (buffer_alloc_source visual i source size) }

/-- Lines 803-842; `i` is the pointer to the source. -/
def vkl_visual_buffer_alloc (visual : VklVisual) (i : Nat) : Except VklError VklVisual :=
  match visual.sources[i]? with
  | none => .error .assertion
  | some source =>
    if ¬ (source.source_kind.toNat < VklSourceKind.TEXTURE_1D.toNat) then .error .assertion
    else if ¬ (0 < source.arr.item_size) then .error .assertion
    else if ¬ (0 < source.arr.item_count) then .error .assertion
    else if source.needs_alloc then
      match buffer_new_size source.u.br.size source.required_size with
      | none => .error .no_termination
      | some size =>
        if ¬ (source.required_size ≤ size) then .error .assertion
        else
          match _set_source_bindings (buffer_alloc_visual visual i source size)
              (buffer_alloc_source visual i source size) with
          | .error e => .error e
          | .ok visual2 =>
            if (buffer_alloc_source visual i source size).u.br.buffer = 0 then .error .assertion
            else .ok visual2
    else if source.u.br.buffer = 0 then .error .assertion
    else .ok visual

/-! ## Texture allocation (lines 145-215, 846-893) -/

/-- The loop of lines 151-160: the data type of the last prop of the source. -/
def _get_texture_format_dtype (i : Nat) : List VklProp → VklDataType → VklDataType
  | [], dtype => dtype
  | prop :: rest, dtype =>
    if prop.source = some i then _get_texture_format_dtype i rest prop.dtype
    else _get_texture_format_dtype i rest dtype

/-- Lines 164-211. -/
def _get_texture_format_of (dtype : VklDataType) : VkFormat :=
  match dtype with
  | .CHAR => .R8_UNORM
  | .CVEC3 => .R8G8B8_UNORM
  | .CVEC4 => .R8G8B8A8_UNORM
  | .SHORT => .R16_SNORM
  | .SVEC3 => .R16G16B16_SNORM
  | .SVEC4 => .R16G16B16A16_SNORM
  | .USHORT => .R16_UNORM
  | .USVEC3 => .R16G16B16_UNORM
  | .USVEC4 => .R16G16B16A16_UNORM
  | _ => .UNDEFINED

/-- Lines 145-215; `i` is the pointer to the source. -/
def _get_texture_format (visual : VklVisual) (i : Nat) : Except VklError VkFormat :=
  match visual.sources[i]? with
  | none => .error .assertion
  | some source =>
    if ¬ _source_is_texture source.source_kind then .error .assertion
    else
      let dtype := _get_texture_format_dtype i visual.props .NONE
      if dtype = .NONE then .error .assertion
      else .ok (_get_texture_format_of dtype)

/-- Lines 888-890: attach the texture to the Binding Set of the owning pipeline. -/
def vkl_visual_texture_bind (visual : VklVisual) (source : VklSource) (tex : VklTexture) :
    Except VklError VklVisual :=
  match _get_bindings source with
  | none => .error .null_pointer
  | some ref => visual.modifyBindings ref (fun b => vkl_bindings_texture b source.slot_idx tex)

/-- Lines 846-893; `i` is the pointer to the source. -/
def vkl_visual_texture_alloc (visual : VklVisual) (i : Nat) : Except VklError VklVisual :=
  match visual.sources[i]? with
  | none => .error .assertion
  | some source =>
    if ¬ _source_is_texture source.source_kind then .error .assertion
    else
      let ndims := _get_texture_ndims source.source_kind
      let shape := source.arr.shape
      if ¬ (0 < shape.1) then .error .assertion
      else if ¬ (0 < shape.2.1) then .error .assertion
      else if ¬ (0 < shape.2.2) then .error .assertion
      else
        match _get_texture_format visual i with
        | .error e => .error e
        | .ok format =>
          if format = .UNDEFINED then .error .assertion
          else
            match source.u.tex with
            | none =>
              let r := vkl_ctx_texture visual.canvas.context i ndims shape format
              let source1 : VklSource := { source with u := { source.u with tex := some r.1 } }
              vkl_visual_texture_bind
                { visual with canvas := { visual.canvas with context := r.2 },
                              sources := visual.sources.set i source1 }
                source1 r.1
            | some tex =>
              match tex.image with
              | none => .error .null_pointer
              | some image =>
                if image.width < shape.1 ∨ image.height < shape.2.1 ∨ image.depth < shape.2.2 then
                  let r := vkl_texture_resize visual.canvas.context i tex shape
                  let source1 : VklSource :=
                    { source with u := { source.u with tex := some r.1 } }
                  vkl_visual_texture_bind
                    { visual with canvas := { visual.canvas with context := r.2 },
                                  sources := visual.sources.set i source1 }
                    source1 r.1
                else .ok visual

/-! ## Data update (lines 901-1050) -/

/-- The three baking stages that precede the upload loop: the transform callback
(lines 912-917), the bake callback (lines 919-929) and `_bake_uniforms` (line 931).
The callbacks are injected by the user and `_bake_uniforms` is defined in a header
that is not among the sources, so the three are parameters of the update. -/
structure VklVisualCallbacks where
  callback_transform : Option (VklVisual → Except VklError VklVisual)
  callback_bake : Option (VklVisual → Except VklError VklVisual)
  _bake_uniforms : VklVisual → Except VklError VklVisual

/-- Lines 912-917 and 919-929: a callback is run when it is not `NULL`. -/
def vkl_visual_update_callback (callback : Option (VklVisual → Except VklError VklVisual))
    (visual : VklVisual) : Except VklError VklVisual :=
  match callback with
  | none => .ok visual
  | some f => f visual

/-- Lines 912-931: the baking stages of `vkl_visual_update`. -/
def vkl_visual_update_bake (cb : VklVisualCallbacks) (visual : VklVisual) :
    Except VklError VklVisual :=
  match vkl_visual_update_callback cb.callback_transform visual with
  | .error e => .error e
  | .ok visual1 =>
    match vkl_visual_update_callback cb.callback_bake visual1 with
    | .error e => .error e
    | .ok visual2 => cb._bake_uniforms visual2

/-- Lines 953-958: the Binding Sets marked invalid when a source is not set. -/
def vkl_visual_update_invalid (visual : VklVisual) (source : VklSource) :
    Except VklError VklVisual :=
  match visual.modifyBindings (.graphics source.pipeline_idx)
      (fun b => { b with obj_status := .INVALID }) with
  | .error e => .error e
  | .ok visual1 =>
    modifyOtherBindings (fun b => { b with obj_status := .INVALID }) source.other_idxs visual1

/-- Lines 1012-1013 and 1038-1039: the source and the visual become `CREATED`. -/
def vkl_visual_update_created (visual : VklVisual) (i : Nat) (source : VklSource)
    (ctx : VklContext) : VklVisual :=
  { visual with obj_status := .CREATED,
                canvas := { visual.canvas with context := ctx },
                sources := visual.sources.set i { source with obj_status := .CREATED } }

/-- Lines 989-1014: the upload of a buffer source. -/
def vkl_visual_update_buffer (visual : VklVisual) (i : Nat) (source : VklSource) :
    Except VklError VklVisual :=
  if ¬ (0 < source.arr.item_count) then .error .assertion
  else if ¬ (0 < source.arr.item_size) then .error .assertion
  else
    match vkl_visual_buffer_alloc visual i with
    | .error e => .error e
    | .ok visual1 =>
      match visual1.sources[i]? with
      | none => .error .null_pointer
      | some source1 =>
        if ¬ (0 < source1.u.br.size) then .error .assertion
        else if source1.u.br.buffer = 0 then .error .assertion
        else if _uniform_source_is_immediate source1 then
          .ok (vkl_visual_update_created visual1 i source1
            (vkl_upload_buffers_immediate visual1.canvas.context i source1.u.br 0
              source1.u.br.size source1.arr.data))
        else
          .ok (vkl_visual_update_created visual1 i source1
            (vkl_upload_buffers visual1.canvas.context i source1.u.br 0
              source1.u.br.size source1.arr.data))

/-- Lines 1017-1040: the upload of a texture source. -/
def vkl_visual_update_texture (visual : VklVisual) (i : Nat) : Except VklError VklVisual :=
  match vkl_visual_texture_alloc visual i with
  | .error e => .error e
  | .ok visual1 =>
    match visual1.sources[i]? with
    | none => .error .null_pointer
    | some source1 =>
      match source1.u.tex with
      | none => .error .assertion
      | some texture =>
        if ¬ is_obj_created texture.obj_status then .error .assertion
        else if ¬ (0 < source1.arr.item_count) then .error .assertion
        else if ¬ (0 < source1.arr.item_size) then .error .assertion
        else if ¬ (1 ≤ source1.arr.ndims) then .error .assertion
        else if ¬ (0 < source1.arr.shape.1) then .error .assertion
        else if ¬ (0 < source1.arr.shape.2.1) then .error .assertion
        else if ¬ (0 < source1.arr.shape.2.2) then .error .assertion
        else
          .ok (vkl_visual_update_created visual1 i source1
            (vkl_upload_texture visual1.canvas.context i
              ((source1.arr.item_count * source1.arr.item_size) % 2 ^ 64) source1.arr.data))

/-- Lines 946-1040: the body of the upload loop for the source at index `i`.  The
flag returned is `true` when the loop is left by the `break` of line 960. -/
def vkl_visual_update_source (visual : VklVisual) (i : Nat) (source : VklSource) :
    Except VklError (VklVisual × Bool) :=
  if source.origin = .NONE then
    match vkl_visual_update_invalid visual source with
    | .error e => .error e
    | .ok visual1 => .ok (visual1, true)
  else if ¬ (source.origin = .LIB ∨ source.origin = .NOBAKE) then .ok (visual, false)
  else if source.obj_status = .INIT then .ok (visual, false)
  else if source.obj_status ≠ .NEED_UPDATE then .ok (visual, false)
  else if _source_is_buffer source.source_kind then
    match vkl_visual_update_buffer visual i source with
    | .error e => .error e
    | .ok visual1 => .ok (visual1, false)
  else if _source_is_texture source.source_kind then
    match vkl_visual_update_texture visual i with
    | .error e => .error e
    | .ok visual1 => .ok (visual1, false)
  else .ok (visual, false)

/-- Lines 944-1041: the upload loop from index `i`, for at most `n` sources. -/
def vkl_visual_update_loop : Nat → Nat → VklVisual → Except VklError VklVisual
  | 0, _, visual => .ok visual
  | n + 1, i, visual =>
    match visual.sources[i]? with
    | none => .ok visual
    | some source =>
      match vkl_visual_update_source visual i source with
      | .error e => .error e
      | .ok (visual1, true) => .ok visual1
      | .ok (visual1, false) => vkl_visual_update_loop n (i + 1) visual1

/-- Lines 944-1041: the resolve-and-upload step, over all the sources in
declaration order. -/
def vkl_visual_update_upload (visual : VklVisual) : Except VklError VklVisual :=
  vkl_visual_update_loop visual.sources.length 0 visual

/-- One of the loops of lines 1044-1049 over a table of Binding Sets: `i` is the
index of the head of the remaining table. -/
def vkl_visual_update_table (pipeline : VklPipelineType) (count : Nat) :
    Nat → List VklBindings → VklContext → List VklBindings × VklContext
  | _, [], ctx => ([], ctx)
  | i, b :: rest, ctx =>
    if i < count ∧ b.obj_status = .NEED_UPDATE then
      let r := vkl_bindings_update ctx pipeline i b
      let r1 := vkl_visual_update_table pipeline count (i + 1) rest r.2
      (r.1 :: r1.1, r1.2)
    else
      let r1 := vkl_visual_update_table pipeline count (i + 1) rest ctx
      (b :: r1.1, r1.2)

/-- Lines 1043-1049: the refresh of the stale Binding Sets. -/
def vkl_visual_update_bindings (visual : VklVisual) : Except VklError VklVisual :=
  if visual.bindings.length < visual.graphics_count then .error .out_of_bounds
  else if visual.bindings_comp.length < visual.compute_count then .error .out_of_bounds
  else
    let g := vkl_visual_update_table .GRAPHICS visual.graphics_count 0 visual.bindings
      visual.canvas.context
    let c := vkl_visual_update_table .COMPUTE visual.compute_count 0 visual.bindings_comp g.2
    .ok { visual with bindings := g.1, bindings_comp := c.1,
                      canvas := { visual.canvas with context := c.2 } }

/-- Lines 901-1050. -/
def vkl_visual_update (cb : VklVisualCallbacks) (visual : VklVisual) :
    Except VklError VklVisual :=
  match vkl_visual_update_bake cb visual with
  | .error e => .error e
  | .ok visual1 =>
    match vkl_visual_update_upload visual1 with
    | .error e => .error e
    | .ok visual2 => vkl_visual_update_bindings visual2

/-! ## Data ingestion (lines 422-514, 688-698) -/

/-- Modelled from the spec: array operation "resize(new_item_count) - preserves
prefix, zero-fills new tail" (the array module is not among the sources). -/
def vkl_array_resize (arr : VklArray) (item_count : Nat) : VklArray :=
  { arr with
    item_count := item_count
    data := some ((List.range (item_count * arr.item_size)).map fun p =>
      (arr.data.getD []).getD p 0) }

/-- Modelled from the spec: array operation "write(first_item, item_count,
data_item_count, data) - copies data into [first_item, first_item+item_count),
wrapping data if data_item_count < item_count, fails with OutOfRange if
first_item+item_count exceeds resized capacity" (the array module is not among the
sources).  `data` is the byte sequence behind the pointer given by the caller. -/
def vkl_array_data (arr : VklArray) (first_item item_count data_item_count : Nat)
    (data : List Nat) : Except VklError VklArray :=
  if arr.item_count < first_item + item_count then .error .out_of_range
  else
    .ok { arr with
          data := some ((List.range (arr.item_count * arr.item_size)).map fun p =>
            if first_item ≤ p / arr.item_size ∧ p / arr.item_size < first_item + item_count then
              data.getD (((p / arr.item_size - first_item) % data_item_count) * arr.item_size
                + p % arr.item_size) 0
            else (arr.data.getD []).getD p 0) }

/-- The loop of `vkl_bake_prop` (lines 691-695): `i` is the index of the head of
the remaining props. -/
def vkl_bake_prop_loop (prop_type : VklPropType) (idx : Nat) : List VklProp → Nat → Option Nat
  | [], _ => none
  | prop :: rest, i =>
    if prop.prop_type = prop_type ∧ prop.prop_idx = idx then some i
    else vkl_bake_prop_loop prop_type idx rest (i + 1)

/-- Lines 688-698. -/
def vkl_bake_prop (visual : VklVisual) (prop_type : VklPropType) (idx : Nat) : Option Nat :=
  vkl_bake_prop_loop prop_type idx visual.props 0

/-- Lines 431-460. -/
def vkl_visual_data_partial (visual : VklVisual) (prop_type : VklPropType) (idx : Nat)
    (first_item item_count data_item_count : Nat) (data : List Nat) :
    Except VklError VklVisual :=
  let count := (first_item + item_count) % 2 ^ 32
  if ¬ (0 < count) then .error .assertion
  else if ¬ (0 < data_item_count) then .error .assertion
  else
    match vkl_bake_prop visual prop_type idx with
    | none => .error .assertion
    | some k =>
      match visual.props[k]? with
      | none => .error .null_pointer
      | some prop =>
        match vkl_array_data (vkl_array_resize prop.arr_orig count) first_item item_count
            data_item_count data with
        | .error e => .error e
        | .ok arr =>
          match prop.source with
          | none => .error .assertion
          | some i =>
            match visual.sources[i]? with
            | none => .error .null_pointer
            | some source =>
              .ok { visual with
                    obj_status := .NEED_UPDATE
                    props := visual.props.set k { prop with arr_orig := arr }
                    sources := visual.sources.set i
                      { source with origin := .LIB, obj_status := .NEED_UPDATE } }

/-- Lines 422-427. -/
def vkl_visual_data (visual : VklVisual) (prop_type : VklPropType) (idx : Nat) (count : Nat)
    (data : List Nat) : Except VklError VklVisual :=
  vkl_visual_data_partial visual prop_type idx 0 count count data

/-- The loops of lines 471-481: the last source that lists `idx` among its other
pipeline indices; `i` is the index of the head of the remaining sources. -/
def _assert_source_exists_shared (idx : Nat) : List VklSource → Nat → Option Nat → Option Nat
  | [], _, out => out
  | source :: rest, i, out =>
    if idx ∈ source.other_idxs then _assert_source_exists_shared idx rest (i + 1) (some i)
    else _assert_source_exists_shared idx rest (i + 1) out

/-- Lines 464-491. -/
def _assert_source_exists (visual : VklVisual) (source_type : VklSourceType) (idx : Nat) :
    Except VklError (Option Nat) :=
  match vkl_bake_source visual source_type idx with
  | .error e => .error e
  | .ok (some i) => .ok (some i)
  | .ok none => .ok (_assert_source_exists_shared idx visual.sources 0 none)

/-- Lines 493-514. -/
def vkl_visual_data_buffer (visual : VklVisual) (source_type : VklSourceType) (idx : Nat)
    (first_item item_count data_item_count : Nat) (data : List Nat) :
    Except VklError VklVisual :=
  let count := (first_item + item_count) % 2 ^ 32
  if ¬ (0 < count) then .error .assertion
  else if ¬ (0 < data_item_count) then .error .assertion
  else
    match _assert_source_exists visual source_type idx with
    | .error e => .error e
    | .ok none => .error .null_pointer
    | .ok (some i) =>
      match visual.sources[i]? with
      | none => .error .null_pointer
      | some source =>
        match vkl_array_data (vkl_array_resize source.arr count) first_item item_count
            data_item_count data with
        | .error e => .error e
        | .ok arr =>
          .ok { visual with
                obj_status := .NEED_UPDATE
                sources := visual.sources.set i
                  { source with arr := arr, origin := .NOBAKE, obj_status := .NEED_UPDATE } }

/-! ## Shared sources, props, textures and external resources (lines 305-340, 518-591) -/

/-- Modelled from the spec: the size in bytes of an element of a data type
(`_get_dtype_size` is defined in the array module, which is not among the sources):
one byte per channel for the byte types, two for the short types.  A data type that
`visuals.c` does not name is represented by `OTHER code`, and the embedding takes its
code to be its size in bytes (`OTHER 12` is a type of twelve bytes, such as three
floats of 32 bits). -/
def _get_dtype_size (dtype : VklDataType) : Nat :=
  match dtype with
  | .NONE => 0
  | .CHAR => 1
  | .CVEC3 => 3
  | .CVEC4 => 4
  | .SHORT => 2
  | .SVEC3 => 6
  | .SVEC4 => 8
  | .USHORT => 2
  | .USVEC3 => 6
  | .USVEC4 => 8
  | .OTHER code => code

/-- A zero-initialised array: the array of a prop that has none. -/
def VklArray.zero : VklArray :=
  { obj_status := .NONE, dtype := .NONE, item_size := 0, item_count := 0, ndims := 0,
    shape := (0, 0, 0), data := none }

/-- Modelled from the spec: array creation "create(item_size)" for a 1-D array of
`item_count` zeroed items of the given data type (the array module is not among the
sources). -/
def vkl_array (item_count : Nat) (dtype : VklDataType) : VklArray :=
  { obj_status := .CREATED, dtype := dtype, item_size := _get_dtype_size dtype,
    item_count := item_count, ndims := 1, shape := (item_count, 1, 1),
    data := if item_count = 0 then none
            else some (List.replicate (item_count * _get_dtype_size dtype) 0) }

/-- Modelled from the spec: array operation "reshape(d0,d1,d2) - changes
dimensionality/shape", with the invariant "item_count == shape[0]*shape[1]*shape[2]"
and existing contents preserved up to the smaller extent, the new tail zero-filled
(the array module is not among the sources). -/
def vkl_array_reshape (arr : VklArray) (width height depth : Nat) : VklArray :=
  { arr with
    shape := (width, height, depth)
    item_count := width * height * depth
    data := some ((List.range (width * height * depth * arr.item_size)).map fun p =>
      (arr.data.getD []).getD p 0) }

/-- Lines 305-312. -/
def vkl_visual_source_share (visual : VklVisual) (source_type : VklSourceType)
    (pipeline_idx other_idx : Nat) : Except VklError VklVisual :=
  match vkl_bake_source visual source_type pipeline_idx with
  | .error e => .error e
  | .ok none => .error .assertion
  | .ok (some i) =>
    match visual.sources[i]? with
    | none => .error .null_pointer
    | some source =>
      .ok { visual with
            sources := visual.sources.set i
              { source with other_idxs := source.other_idxs ++ [other_idx] } }

/-- Lines 323-338: the prop that `vkl_visual_prop` builds, for the owning source at
the index `i`. -/
def vkl_visual_prop_new (prop_type : VklPropType) (prop_idx : Nat) (dtype : VklDataType)
    (i : Nat) (source : VklSource) : VklProp :=
  { prop_type := prop_type, prop_idx := prop_idx, dtype := dtype, source := some i,
    arr_orig :=
      if source.source_kind.toNat < VklSourceKind.TEXTURE_1D.toNat then vkl_array 0 dtype
      else VklArray.zero,
    field_idx := 0, offset := 0, copy_type := .NONE, reps := 0, default_value := none }

/-- Lines 316-340.  `VKL_MAX_VISUAL_PROPS` is the capacity of the table of props. -/
def vkl_visual_prop (VKL_MAX_VISUAL_PROPS : Nat) (visual : VklVisual)
    (prop_type : VklPropType) (prop_idx : Nat) (dtype : VklDataType)
    (source_type : VklSourceType) (pipeline_idx : Nat) : Except VklError VklVisual :=
  if ¬ (visual.props.length < VKL_MAX_VISUAL_PROPS) then .error .assertion
  else
    match vkl_bake_source visual source_type pipeline_idx with
    | .error e => .error e
    | .ok none => .error .assertion
    | .ok (some i) =>
      match visual.sources[i]? with
      | none => .error .null_pointer
      | some source =>
        .ok { visual with
              props := visual.props ++ [vkl_visual_prop_new prop_type prop_idx dtype i source] }

/-- Lines 518-544.  `data` is the byte sequence behind the pointer given by the
caller. -/
def vkl_visual_data_texture (visual : VklVisual) (prop_type : VklPropType) (idx : Nat)
    (width height depth : Nat) (data : List Nat) : Except VklError VklVisual :=
  let count := (width * height * depth) % 2 ^ 32
  if ¬ (0 < count) then .error .assertion
  else
    match vkl_bake_prop visual prop_type idx with
    | none => .error .assertion
    | some k =>
      match visual.props[k]? with
      | none => .error .null_pointer
      | some prop =>
        match prop.source with
        | none => .error .assertion
        | some i =>
          match visual.sources[i]? with
          | none => .error .null_pointer
          | some source =>
            match vkl_array_data (vkl_array_reshape source.arr width height depth) 0 count
                count data with
            | .error e => .error e
            | .ok arr =>
              .ok { visual with
                    obj_status := .NEED_UPDATE
                    sources := visual.sources.set i
                      { source with arr := arr, origin := .NOBAKE,
                                    obj_status := .NEED_UPDATE } }

/-- Lines 562-565: the source bound to the region given by the user. -/
def vkl_visual_buffer_source (source : VklSource) (br : VklBufferRegions) : VklSource :=
  { source with u := { source.u with br := br }, origin := .USER, obj_status := .NEED_UPDATE }

/-- Lines 550-569. -/
def vkl_visual_buffer (visual : VklVisual) (source_type : VklSourceType) (idx : Nat)
    (br : VklBufferRegions) : Except VklError VklVisual :=
  match _assert_source_exists visual source_type idx with
  | .error e => .error e
  | .ok none => .error .assertion
  | .ok (some i) =>
    match visual.sources[i]? with
    | none => .error .null_pointer
    | some source =>
      if ¬ (0 < br.size) then .error .assertion
      else if br.buffer = 0 then .error .assertion
      else
        _set_source_bindings
          { visual with
            obj_status := .NEED_UPDATE
            sources := visual.sources.set i (vkl_visual_buffer_source source br) }
          (vkl_visual_buffer_source source br)

/-- Lines 582-584: the source bound to the texture given by the user. -/
def vkl_visual_texture_source (source : VklSource) (texture : VklTexture) : VklSource :=
  { source with
    u := { source.u with tex := some texture }, origin := .USER, obj_status := .NEED_UPDATE }

/-- Lines 573-591; `texture` is a pointer. -/
def vkl_visual_texture (visual : VklVisual) (source_type : VklSourceType) (idx : Nat)
    (texture : Option VklTexture) : Except VklError VklVisual :=
  match _assert_source_exists visual source_type idx with
  | .error e => .error e
  | .ok none => .error .assertion
  | .ok (some i) =>
    match visual.sources[i]? with
    | none => .error .null_pointer
    | some source =>
      match texture with
      | none => .error .assertion
      | some tex =>
        if tex.image = none then .error .assertion
        else if tex.sampler = none then .error .assertion
        else
          vkl_visual_texture_bind
            { visual with
              obj_status := .NEED_UPDATE
              sources := visual.sources.set i (vkl_visual_texture_source source tex) }
            (vkl_visual_texture_source source tex) tex

/-! ## Sequences of calls on a visual -/

/-- A call of the update or of one of the set-data entry points. -/
inductive VisualCall
  | update
  | data (prop_type : VklPropType) (idx : Nat) (count : Nat) (data : List Nat)
  | data_part (prop_type : VklPropType) (idx : Nat)
      (first_item item_count data_item_count : Nat) (data : List Nat)
  | data_buffer (source_type : VklSourceType) (idx : Nat)
      (first_item item_count data_item_count : Nat) (data : List Nat)

/-- The effect of one call. -/
def VisualCall.run (cb : VklVisualCallbacks) : VisualCall → VklVisual → Except VklError VklVisual
  | .update, visual => vkl_visual_update cb visual
  | .data prop_type idx count bytes, visual => vkl_visual_data visual prop_type idx count bytes
  | .data_part prop_type idx first_item item_count data_item_count bytes, visual =>
    vkl_visual_data_partial visual prop_type idx first_item item_count data_item_count bytes
  | .data_buffer source_type idx first_item item_count data_item_count bytes, visual =>
    vkl_visual_data_buffer visual source_type idx first_item item_count data_item_count bytes

/-- The effect of a sequence of calls, the first call first. -/
def runCalls (cb : VklVisualCallbacks) : List VisualCall → VklVisual → Except VklError VklVisual
  | [], visual => .ok visual
  | call :: rest, visual =>
    match call.run cb visual with
    | .error e => .error e
    | .ok visual1 => runCalls cb rest visual1

/-! ## Vocabulary of the properties -/

/-- The calls made to the external services between the state `visual` and the
later state `visual1`. -/
def newCalls (visual visual1 : VklVisual) : List VklCall :=
  visual1.canvas.context.calls.drop visual.canvas.context.calls.length

/-- The two states differ at most by their Binding Sets. -/
def sameButBindings (visual visual1 : VklVisual) : Prop :=
  visual1.obj_status = visual.obj_status ∧ visual1.canvas = visual.canvas ∧
  visual1.sources = visual.sources ∧ visual1.props = visual.props ∧
  visual1.graphics_count = visual.graphics_count ∧
  visual1.compute_count = visual.compute_count

/-- The calls in `cs` are neither allocations nor uploads for a source other than
the source `i`. -/
def callsOnlyFor (i : Nat) (cs : List VklCall) : Prop :=
  ∀ c ∈ cs, ∀ j, j ≠ i → c.allocFor j = false ∧ c.uploadFor j = false

/-- Between the two states, the sources other than the source `i` are unchanged, the
table of sources keeps its length, and the log of calls has only grown, by calls that
are neither allocations nor uploads for another source. -/
def touchesOnly (i : Nat) (visual visual1 : VklVisual) : Prop :=
  visual1.sources.length = visual.sources.length ∧
  (∀ j, j ≠ i → visual1.sources[j]? = visual.sources[j]?) ∧
  ∃ cs, visual1.canvas.context.calls = visual.canvas.context.calls ++ cs ∧ callsOnlyFor i cs

/-- None of the calls in `cs` is an allocation or an upload for the source `j`. -/
def noCallsFor (j : Nat) (cs : List VklCall) : Prop :=
  ∀ c ∈ cs, c.allocFor j = false ∧ c.uploadFor j = false

/-- Between the two states the source `j` is unchanged and the log of calls has only
grown, by calls that are neither allocations nor uploads for the source `j`. -/
def untouched (j : Nat) (visual visual1 : VklVisual) : Prop :=
  visual1.sources[j]? = visual.sources[j]? ∧
  ∃ cs, visual1.canvas.context.calls = visual.canvas.context.calls ++ cs ∧ noCallsFor j cs

/-- No transform callback, no bake callback, and a uniform baking that finds the
arrays of the sources already baked. -/
def noCallbacks : VklVisualCallbacks :=
  { callback_transform := none, callback_bake := none, _bake_uniforms := fun visual => .ok visual }

/-- The source has the identity `(source_type, pipeline_idx)`. -/
def hasIdentity (source_type : VklSourceType) (pipeline_idx : Nat) (source : VklSource) : Prop :=
  source.source_type = source_type ∧ source.pipeline_idx = pipeline_idx

/-- No two sources of the visual share their identity `(source_type, pipeline_idx)`. -/
def uniqueIdentities (visual : VklVisual) : Prop :=
  visual.sources.Pairwise fun a b =>
    ¬ (a.source_type = b.source_type ∧ a.pipeline_idx = b.pipeline_idx)

/-- The arguments of a call of `vkl_visual_source`. -/
structure SourceDecl where
  source_type : VklSourceType
  pipeline : VklPipelineType
  pipeline_idx : Nat
  slot_idx : Nat
  item_size : Nat
  flags : Nat

/-- A sequence of calls of `vkl_visual_source`, the first call first. -/
def declareSources (VKL_MAX_VISUAL_SOURCES : Nat) :
    List SourceDecl → VklVisual → Except VklError VklVisual
  | [], visual => .ok visual
  | d :: rest, visual =>
    match vkl_visual_source VKL_MAX_VISUAL_SOURCES visual d.source_type d.pipeline
        d.pipeline_idx d.slot_idx d.item_size d.flags with
    | .error e => .error e
    | .ok visual1 => declareSources VKL_MAX_VISUAL_SOURCES rest visual1

/-- A source without a buffer has a region of size zero. -/
def VklSource.handleOk (source : VklSource) : Prop :=
  source.u.br.buffer = 0 → source.u.br.size = 0

/-- Every source of the visual without a buffer has a region of size zero. -/
def handlesOk (visual : VklVisual) : Prop :=
  ∀ s ∈ visual.sources, s.handleOk

/-- The baking stages work on arrays only: they leave the physical handle of every
source and the log of the calls to the external services as they are. -/
def bakeKeepsHandles (cb : VklVisualCallbacks) : Prop :=
  ∀ visual visual1, vkl_visual_update_bake cb visual = .ok visual1 →
    visual1.sources.map (fun s => s.u) = visual.sources.map (fun s => s.u) ∧
    visual1.canvas.context.calls = visual.canvas.context.calls

/-- Between the two states the capacity of the region of the source `j` has not
decreased, the source still has a buffer if its region is not empty, the log of calls
has only grown, and if it has grown by a buffer upload for the source `j` then the
capacity is at least the required size of the array of the source. -/
def capacityStep (j : Nat) (visual visual1 : VklVisual) : Prop :=
  ∀ s, visual.sources[j]? = some s → s.handleOk →
    ∃ s1 cs, visual1.sources[j]? = some s1 ∧
      visual1.canvas.context.calls = visual.canvas.context.calls ++ cs ∧
      s.u.br.size ≤ s1.u.br.size ∧ s1.handleOk ∧
      ((∃ c ∈ cs, (c.uploadSize j).isSome) → s1.required_size ≤ s1.u.br.size)

/-! ## Example states -/

/-- A vertex source managed by the library, waiting for an upload: 25 items of one
byte, and a region of 10 bytes allocated earlier. -/
def exampleVertexSource : VklSource :=
  { obj_status := .NEED_UPDATE, source_type := .VERTEX, source_kind := .VERTEX,
    pipeline := .GRAPHICS, pipeline_idx := 0, slot_idx := 0, flags := 0, other_idxs := [],
    arr := vkl_array_struct 25 1, origin := .LIB,
    u := { br := { buffer := 2, count := 1, size := 10 }, tex := none } }

/-- A visual with one graphics pipeline and the source `exampleVertexSource`. -/
def exampleVertexVisual : VklVisual :=
  { vkl_visual 1 1 { img_count := 3, context := { calls := [] } } with
    sources := [exampleVertexSource], graphics_count := 1 }

/-- A uniform source bound by the user to a region of 16 bytes, flagged for an
update, with an empty array. -/
def exampleUserSource : VklSource :=
  { obj_status := .NEED_UPDATE, source_type := .VIEWPORT, source_kind := .UNIFORM,
    pipeline := .GRAPHICS, pipeline_idx := 0, slot_idx := 1, flags := 0, other_idxs := [],
    arr := vkl_array_struct 0 16, origin := .USER,
    u := { br := { buffer := 4, count := 1, size := 16 }, tex := none } }

/-- An index source managed by the library and already uploaded: 6 items of 4 bytes
in a region of 24 bytes. -/
def exampleIndexSource : VklSource :=
  { obj_status := .CREATED, source_type := .INDEX, source_kind := .INDEX,
    pipeline := .GRAPHICS, pipeline_idx := 0, slot_idx := 0, flags := 0, other_idxs := [],
    arr := vkl_array_struct 6 4, origin := .LIB,
    u := { br := { buffer := 3, count := 1, size := 24 }, tex := none } }

/-- A uniform source that was declared and never set. -/
def exampleUnsetSource : VklSource :=
  vkl_visual_source_new .MVP .GRAPHICS 0 0 64 0

/-- A uniform source managed by the library, waiting for its first upload, declared
after the source that was never set. -/
def exampleLateSource : VklSource :=
  { obj_status := .NEED_UPDATE, source_type := .PARAM, source_kind := .UNIFORM,
    pipeline := .GRAPHICS, pipeline_idx := 0, slot_idx := 2, flags := 0, other_idxs := [],
    arr := vkl_array_struct 1 8, origin := .LIB,
    u := { br := { buffer := 0, count := 0, size := 0 }, tex := none } }

/-- A visual with one graphics pipeline and the five example sources. -/
def exampleSceneVisual : VklVisual :=
  { vkl_visual 1 1 { img_count := 3, context := { calls := [] } } with
    sources := [exampleVertexSource, exampleUserSource, exampleIndexSource,
                exampleUnsetSource, exampleLateSource]
    graphics_count := 1 }

/-- The state of `exampleSceneVisual` after an update: the vertex source has a region
of 40 bytes and is uploaded, and the Binding Set of the pipeline is invalid. -/
def exampleSceneUpdated : VklVisual :=
  { exampleSceneVisual with
    obj_status := .CREATED
    canvas :=
      { img_count := 3
        context :=
          { calls :=
              [.ctx_buffers 0 .VERTEX 1 40,
               .upload_buffers 0 { buffer := 2, count := 1, size := 40 } 0 40
                 (some (List.replicate 25 0))] } }
    sources :=
      [{ exampleVertexSource with
         obj_status := .CREATED
         u := { br := { buffer := 2, count := 1, size := 40 }, tex := none } },
       exampleUserSource, exampleIndexSource, exampleUnsetSource, exampleLateSource]
    bindings := [{ VklBindings.zero with obj_status := .INVALID }] }

/-- A uniform source of the compute pipeline 0, as `vkl_visual_source` declares it:
it was never set. -/
def exampleComputeSource : VklSource :=
  vkl_visual_source_new .PARAM .COMPUTE 0 0 16 0

/-- A visual with one graphics pipeline, one compute pipeline and the source
`exampleComputeSource`. -/
def exampleComputeVisual : VklVisual :=
  { vkl_visual 1 1 { img_count := 3, context := { calls := [] } } with
    sources := [exampleComputeSource], graphics_count := 1, compute_count := 1 }

/-- The data given by the caller in the example of a growing vertex source: `n`
bytes of value 7. -/
def exampleBytes (n : Nat) : List Nat := List.replicate n 7

/-- The canvas of the examples. -/
def exampleCanvas : VklCanvas := { img_count := 3, context := { calls := [] } }

/-- A new visual in which a vertex source of one byte per item has been declared. -/
def exampleGrowingDeclared : VklVisual :=
  { vkl_visual 1 1 exampleCanvas with
    sources := [vkl_visual_source_new .VERTEX .GRAPHICS 0 0 1 0] }

/-- 10 items are set and uploaded, then 25 items are set. -/
def exampleGrowingCalls : List VisualCall :=
  [.data_buffer .VERTEX 0 0 10 10 (exampleBytes 10), .update,
   .data_buffer .VERTEX 0 0 25 25 (exampleBytes 25)]

/-- The vertex source of the example once it holds 25 items, with the given status
and the given capacity of its region. -/
def exampleGrowingSource (status : VklObjectStatus) (size : Nat) : VklSource :=
  { vkl_visual_source_new .VERTEX .GRAPHICS 0 0 1 0 with
    obj_status := status
    origin := .NOBAKE
    arr := { vkl_array_struct 0 1 with item_count := 25, data := some (exampleBytes 25) }
    u := { br := { buffer := 2, count := 1, size := size }, tex := none } }

/-- The state reached from `exampleGrowingDeclared` by `exampleGrowingCalls`: the
region has 10 bytes and the array 25 items. -/
def exampleGrowingBefore : VklVisual :=
  { exampleGrowingDeclared with
    obj_status := .NEED_UPDATE
    canvas :=
      { img_count := 3
        context :=
          { calls :=
              [.ctx_buffers 0 .VERTEX 1 10,
               .upload_buffers 0 { buffer := 2, count := 1, size := 10 } 0 10
                 (some (exampleBytes 10))] } }
    sources := [exampleGrowingSource .NEED_UPDATE 10] }

/-- The state reached from `exampleGrowingBefore` by an update: the region has 40
bytes. -/
def exampleGrowingAfter : VklVisual :=
  { exampleGrowingBefore with
    obj_status := .CREATED
    canvas :=
      { img_count := 3
        context :=
          { calls :=
              [.ctx_buffers 0 .VERTEX 1 10,
               .upload_buffers 0 { buffer := 2, count := 1, size := 10 } 0 10
                 (some (exampleBytes 10)),
               .ctx_buffers 0 .VERTEX 1 40,
               .upload_buffers 0 { buffer := 2, count := 1, size := 40 } 0 40
                 (some (exampleBytes 25))] } }
    sources := [exampleGrowingSource .CREATED 40] }

/-! ## Vocabulary of the props and of the data calls -/

/-- The identities `(prop_type, prop_idx)` of the props of the visual, in the order of
their declaration. -/
def propIdentities (visual : VklVisual) : List (VklPropType × Nat) :=
  visual.props.map fun p => (p.prop_type, p.prop_idx)

/-- The arguments of a call of `vkl_visual_prop`. -/
structure PropDecl where
  prop_type : VklPropType
  prop_idx : Nat
  dtype : VklDataType
  source_type : VklSourceType
  pipeline_idx : Nat

/-- A sequence of calls of `vkl_visual_prop`, the first call first. -/
def declareProps (VKL_MAX_VISUAL_PROPS : Nat) :
    List PropDecl → VklVisual → Except VklError VklVisual
  | [], visual => .ok visual
  | d :: rest, visual =>
    match vkl_visual_prop VKL_MAX_VISUAL_PROPS visual d.prop_type d.prop_idx d.dtype
        d.source_type d.pipeline_idx with
    | .error e => .error e
    | .ok visual1 => declareProps VKL_MAX_VISUAL_PROPS rest visual1

/-- The byte at the position `p` of the storage of the array (zero past its end). -/
def VklArray.byteAt (arr : VklArray) (p : Nat) : Nat :=
  (arr.data.getD []).getD p 0

/-- The arguments of a partial write: the first item, the number of items, the number
of items of the data and the data. -/
structure DataWrite where
  first_item : Nat
  item_count : Nat
  data_item_count : Nat
  data : List Nat
  deriving DecidableEq, Repr

/-- The end `first_item + item_count` of the range of a write. -/
def DataWrite.stop (w : DataWrite) : Nat := w.first_item + w.item_count

/-- The write covers the item `j`. -/
def DataWrite.covers (w : DataWrite) (j : Nat) : Prop :=
  w.first_item ≤ j ∧ j < w.stop

/-- The byte `b` of the data that the write gives to the item `j`, for items of
`item_size` bytes. -/
def DataWrite.byteFor (w : DataWrite) (item_size j b : Nat) : Nat :=
  w.data.getD (((j - w.first_item) % w.data_item_count) * item_size + b) 0

/-- Lines 444-448: what `vkl_visual_data_partial` does to the array of the prop. -/
def applyWrite (arr : VklArray) (w : DataWrite) : Except VklError VklArray :=
  vkl_array_data (vkl_array_resize arr ((w.first_item + w.item_count) % 2 ^ 32))
    w.first_item w.item_count w.data_item_count w.data

/-- A sequence of writes on an array, the first write first. -/
def applyWrites : List DataWrite → VklArray → Except VklError VklArray
  | [], arr => .ok arr
  | w :: rest, arr =>
    match applyWrite arr w with
    | .error e => .error e
    | .ok arr1 => applyWrites rest arr1

/-- A sequence of calls of `vkl_visual_data_partial` on one prop, the first call
first. -/
def runWrites (prop_type : VklPropType) (idx : Nat) :
    List DataWrite → VklVisual → Except VklError VklVisual
  | [], visual => .ok visual
  | w :: rest, visual =>
    match vkl_visual_data_partial visual prop_type idx w.first_item w.item_count
        w.data_item_count w.data with
    | .error e => .error e
    | .ok visual1 => runWrites prop_type idx rest visual1

/-- The example visual with its vertex source and a prop of one byte per item
declared on it. -/
def examplePropVisual : VklVisual :=
  { exampleGrowingDeclared with
    props := [vkl_visual_prop_new 2 0 .CHAR 0 (vkl_visual_source_new .VERTEX .GRAPHICS 0 0 1 0)] }

/-- The source at the index `i` is the one that `_assert_source_exists` designates for
`(source_type, idx)`: a source with this identity or, when no source of the visual has
it, the last source that lists `idx` among its other pipeline indices. -/
def isTargetSource (visual : VklVisual) (source_type : VklSourceType) (idx i : Nat)
    (source : VklSource) : Prop :=
  visual.sources[i]? = some source ∧
  (hasIdentity source_type idx source ∨
    ((∀ t ∈ visual.sources, ¬ hasIdentity source_type idx t) ∧ idx ∈ source.other_idxs ∧
      ∀ j t, i < j → visual.sources[j]? = some t → idx ∉ t.other_idxs))

/-- The example visual once its vertex source, declared for the pipeline 0, has been
shared with the pipeline 1. -/
def exampleSharedVisual : VklVisual :=
  { exampleGrowingDeclared with
    sources := [{ vkl_visual_source_new .VERTEX .GRAPHICS 0 0 1 0 with other_idxs := [1] }] }

/-- A region of 16 bytes of a buffer of the user. -/
def exampleRegion : VklBufferRegions := { buffer := 7, count := 1, size := 16 }

/-- Between the two states the source at the index `i` has become `source1`, which has
the origin `origin` and the status NEED_UPDATE, the visual has the status NEED_UPDATE,
and the sources at the other indices are unchanged. -/
def originSet (visual visual1 : VklVisual) (i : Nat) (origin : VklSourceOrigin)
    (source1 : VklSource) : Prop :=
  visual1.sources[i]? = some source1 ∧ source1.origin = origin ∧
  source1.obj_status = .NEED_UPDATE ∧ visual1.obj_status = .NEED_UPDATE ∧
  ∀ j, j ≠ i → visual1.sources[j]? = visual.sources[j]?

/-- A new visual with an image source of four bytes per item and a prop of four bytes
declared on it. -/
def exampleTextureVisual : VklVisual :=
  { vkl_visual 1 1 exampleCanvas with
    sources := [vkl_visual_source_new .IMAGE .GRAPHICS 0 0 4 0]
    props := [vkl_visual_prop_new 5 0 .CVEC4 0 (vkl_visual_source_new .IMAGE .GRAPHICS 0 0 4 0)] }

/-- The regions attached to the Binding Set behind the pointer, the last attached
first. -/
def VklVisual.regionsAt (visual : VklVisual) (ref : VklBindingsRef) :
    Option (List (Nat × VklBufferRegions)) :=
  (visual.bindingsAt ref).map fun b => b.br

/-- The region attached at the slot `slot` of the Binding Set behind the pointer: the
one that was attached last. -/
def attachedAt (visual : VklVisual) (ref : VklBindingsRef) (slot : Nat) :
    Option VklBufferRegions :=
  (visual.regionsAt ref).bind fun l => l.lookup slot

/-- The source is one that `_set_source_bindings` attaches at the slot `slot` of the
Binding Set behind the pointer: a uniform or storage source of this slot, owned by the
pipeline of the Binding Set or shared with it. -/
def VklSource.bindsAt (source : VklSource) (ref : VklBindingsRef) (slot : Nat) : Prop :=
  _source_needs_binding source.source_kind = true ∧ source.slot_idx = slot ∧
  (_get_bindings source = some ref ∨ ∃ idx ∈ source.other_idxs, ref = .graphics idx)

/-- Where a source is bound: its kind, its pipeline, its slot and the pipelines it is
shared with. -/
def VklSource.place (source : VklSource) :
    VklSourceKind × VklPipelineType × Nat × Nat × List Nat :=
  (source.source_kind, source.pipeline, source.pipeline_idx, source.slot_idx,
    source.other_idxs)

/-- The baking stages work on arrays only: they leave the Binding Sets and the log of
the calls as they are and, for every source, the place where it is bound, its origin
and its physical handle. -/
def bakeKeepsBindings (cb : VklVisualCallbacks) : Prop :=
  ∀ visual visual1, vkl_visual_update_bake cb visual = .ok visual1 →
    visual1.bindings = visual.bindings ∧ visual1.bindings_comp = visual.bindings_comp ∧
    visual1.canvas.context.calls = visual.canvas.context.calls ∧
    visual1.sources.map (fun s => (s.place, s.origin, s.u))
      = visual.sources.map (fun s => (s.place, s.origin, s.u))

instance (source : VklSource) (ref : VklBindingsRef) (slot : Nat) :
    Decidable (source.bindsAt ref slot) := by
  unfold VklSource.bindsAt
  infer_instance

/-- A uniform source of the graphics pipeline 0, at the slot 2, shared with the
pipeline 1, managed by the library and waiting for its first upload: one item of 8
bytes and no region yet. -/
def exampleSharedUniform : VklSource :=
  { obj_status := .NEED_UPDATE, source_type := .PARAM, source_kind := .UNIFORM,
    pipeline := .GRAPHICS, pipeline_idx := 0, slot_idx := 2, flags := 0, other_idxs := [1],
    arr := vkl_array_struct 1 8, origin := .LIB,
    u := { br := { buffer := 0, count := 0, size := 0 }, tex := none } }

/-- A visual with two graphics pipelines and the source `exampleSharedUniform`. -/
def exampleSharedUniformVisual : VklVisual :=
  { vkl_visual 2 1 exampleCanvas with sources := [exampleSharedUniform], graphics_count := 2 }

/-- The images of the textures of the sources of the visual. -/
def textureImages (visual : VklVisual) : List (Option VklImages) :=
  visual.sources.map fun s => s.u.tex.bind fun tex => tex.image

/-- The example visual with its image source once 2 by 2 items of four bytes have
been given to it by `vkl_visual_data_texture`. -/
def exampleTextureFed : VklVisual :=
  match vkl_visual_data_texture exampleTextureVisual 5 0 2 2 1 (exampleBytes 16) with
  | .ok visual => visual
  | .error _ => exampleTextureVisual

/-- A new visual with an image source of twelve bytes per item, fed by a prop whose
data type (three floats of 32 bits) is not one of the byte and short types, and a
vertex source of one byte per item declared after it. -/
def exampleFloatTextureVisual : VklVisual :=
  { vkl_visual 1 1 exampleCanvas with
    sources := [vkl_visual_source_new .IMAGE .GRAPHICS 0 0 12 0,
                vkl_visual_source_new .VERTEX .GRAPHICS 0 0 1 0]
    props := [vkl_visual_prop_new 5 0 (.OTHER 12) 0
                (vkl_visual_source_new .IMAGE .GRAPHICS 0 0 12 0)] }

/-- The example visual with its image source, on which a second prop, of one byte per
item, has been declared after the prop of four bytes. -/
def exampleTwoPropsVisual : VklVisual :=
  { exampleTextureVisual with
    props := [vkl_visual_prop_new 5 0 .CVEC4 0 (vkl_visual_source_new .IMAGE .GRAPHICS 0 0 4 0),
              vkl_visual_prop_new 6 0 .CHAR 0 (vkl_visual_source_new .IMAGE .GRAPHICS 0 0 4 0)] }

/-- The data types that the table of `_get_texture_format` maps to a format. -/
def textureDtypes : List VklDataType :=
  [.CHAR, .CVEC3, .CVEC4, .SHORT, .SVEC3, .SVEC4, .USHORT, .USVEC3, .USVEC4]

/-- The pass of the update loop on the source uploads it: the source is managed by
the library (origin LIB or NOBAKE), it is flagged NEED_UPDATE, and it is of a buffer
kind or of a texture kind (lines 966-986, 989, 1017). -/
def VklSource.uploads (source : VklSource) : Prop :=
  (source.origin = .LIB ∨ source.origin = .NOBAKE) ∧ source.obj_status = .NEED_UPDATE ∧
  (_source_is_buffer source.source_kind = true ∨ _source_is_texture source.source_kind = true)

instance (source : VklSource) : Decidable source.uploads := by
  unfold VklSource.uploads
  infer_instance

/-- A visual with a vertex source and a viewport uniform, both declared and not set. -/
def exampleTwoSourcesVisual : VklVisual :=
  { vkl_visual 1 1 exampleCanvas with
    sources := [vkl_visual_source_new .VERTEX .GRAPHICS 0 0 1 0,
                vkl_visual_source_new .VIEWPORT .GRAPHICS 0 1 16 0]
    graphics_count := 1 }

/-- The status that the upload loop leaves to a source that is set: CREATED when it
uploads the source, the status the source had otherwise. -/
def VklSource.statusAfterUpdate (source : VklSource) : VklObjectStatus :=
  if source.uploads then .CREATED else source.obj_status

/-- The visual `exampleTwoSourcesVisual` once its vertex source has received two
items and its viewport uniform has received one item and has then been bound to a
region of the user. -/
def exampleStaleVisual : VklVisual :=
  match (do
    let visual1 ← vkl_visual_data_buffer exampleTwoSourcesVisual .VERTEX 0 0 2 2 [7, 7]
    let visual2 ← vkl_visual_data_buffer visual1 .VIEWPORT 0 0 1 1 (exampleBytes 16)
    vkl_visual_buffer visual2 .VIEWPORT 0 exampleRegion : Except VklError VklVisual) with
  | .ok visual => visual
  | .error _ => exampleTwoSourcesVisual

/-! ## Baking (lines 344-367, 713-799) -/

/-- Lines 344-351; `default_value` is a pointer. -/
def vkl_visual_prop_default (visual : VklVisual) (prop_type : VklPropType) (prop_idx : Nat)
    (default_value : Option (List Nat)) : Except VklError VklVisual :=
  match vkl_bake_prop visual prop_type prop_idx with
  | none => .error .assertion
  | some k =>
    match visual.props[k]? with
    | none => .error .null_pointer
    | some prop =>
      .ok { visual with
            props := visual.props.set k { prop with default_value := default_value } }

/-- Lines 355-367. -/
def vkl_visual_prop_copy (visual : VklVisual) (prop_type : VklPropType) (prop_idx : Nat)
    (field_idx offset : Nat) (copy_type : VklArrayCopyType) (reps : Nat) :
    Except VklError VklVisual :=
  match vkl_bake_prop visual prop_type prop_idx with
  | none => .error .assertion
  | some k =>
    match visual.props[k]? with
    | none => .error .null_pointer
    | some prop =>
      .ok { visual with
            props := visual.props.set k
              { prop with field_idx := field_idx, offset := offset, copy_type := copy_type,
                          reps := reps } }

/-- Modelled from the spec: the macro `MAX` of the common header (not among the
sources), the larger of its two arguments, as in "vertex count from the longest-bound
prop". -/
def MAX (a b : Nat) : Nat := if a > b then a else b

/-- The loop of lines 721-730: `item_count` is the maximum found so far, and the
product is a product of 32-bit unsigned integers. -/
def vkl_bake_max_prop_size_loop (i : Nat) : List VklProp → Nat → Nat
  | [], item_count => item_count
  | prop :: rest, item_count =>
    if prop.source = some i then
      vkl_bake_max_prop_size_loop i rest
        (MAX item_count ((prop.arr_orig.item_count * MAX 1 prop.reps) % 2 ^ 32))
    else vkl_bake_max_prop_size_loop i rest item_count

/-- Lines 713-732; `i` is the pointer to the source. -/
def vkl_bake_max_prop_size (visual : VklVisual) (i : Nat) : Nat :=
  vkl_bake_max_prop_size_loop i visual.props 0

/-- Modelled from the spec: the row of the data that the column copy gives to the row
`j` of the destination, "under the given copy policy (element-wise 1:1, cyclic repeat,
or per-element `reps`-fold duplication)"; with the cyclic repeat, "exactly
`src_count * r` touched destination rows, cyclically wrapping `src_count` source
rows", and the other rows are left as they are (the array module is not among the
sources). -/
def vkl_array_column_row (copy_type : VklArrayCopyType) (reps data_item_count j : Nat) :
    Option Nat :=
  match copy_type with
  | .NONE => some j
  | .REPEAT => if j < data_item_count * reps then some (j % data_item_count) else none
  | .SINGLE => some (j / reps)

/-- Modelled from the spec: the cases in which the column copy "fails with
`SizeMismatch`": "1:1 requires exact match", "cyclic repeat tolerates any ratio", and
the duplication has to tile the destination rows. -/
def vkl_array_column_mismatch (copy_type : VklArrayCopyType) (reps item_count
    data_item_count : Nat) : Bool :=
  match copy_type with
  | .NONE => data_item_count ≠ item_count
  | .REPEAT => false
  | .SINGLE => data_item_count * reps ≠ item_count

/-- Modelled from the spec: array operation "column-copy(dst, dst_offset, col_size,
src_count, src_data, copy_type, reps) - writes a strided column into every item of
dst, expanding src_count source rows into dst.item_count destination rows under the
given copy policy", with the arguments of the call of line 759: the column
`[offset, offset + col_size)` of the items `[first_item, first_item + item_count)`
receives the rows of `data`, which are `col_size` bytes each (the array module is not
among the sources). -/
def vkl_array_column (arr : VklArray) (offset col_size first_item item_count
    data_item_count : Nat) (data : List Nat) (copy_type : VklArrayCopyType) (reps : Nat) :
    Except VklError VklArray :=
  if vkl_array_column_mismatch copy_type reps item_count data_item_count then
    .error .size_mismatch
  else
    .ok { arr with
          data := some ((List.range (arr.item_count * arr.item_size)).map fun p =>
            if first_item ≤ p / arr.item_size ∧ p / arr.item_size < first_item + item_count ∧
                offset ≤ p % arr.item_size ∧ p % arr.item_size < offset + col_size then
              match vkl_array_column_row copy_type reps data_item_count
                  (p / arr.item_size - first_item) with
              | some row => data.getD (row * col_size + (p % arr.item_size - offset)) 0
              | none => (arr.data.getD []).getD p 0
            else (arr.data.getD []).getD p 0) }

/-- Lines 736-762; `k` is the pointer to the prop. -/
def vkl_bake_prop_copy (visual : VklVisual) (k : Nat) : Except VklError VklVisual :=
  match visual.props[k]? with
  | none => .error .assertion
  | some prop =>
    match prop.source with
    | none => .error .assertion
    | some i =>
      if ¬ (0 < _get_dtype_size prop.dtype) then .error .assertion
      else
        match prop.arr_orig.data with
        | none => .ok visual
        | some data =>
          match visual.sources[i]? with
          | none => .error .null_pointer
          | some source =>
            if source.arr.data = none then .error .assertion
            else if ¬ (prop.arr_orig.item_count ≤ source.arr.item_count) then .error .assertion
            else
              match vkl_array_column source.arr prop.offset (_get_dtype_size prop.dtype) 0
                  source.arr.item_count prop.arr_orig.item_count data prop.copy_type
                  prop.reps with
              | .error e => .error e
              | .ok arr =>
                .ok { visual with sources := visual.sources.set i { source with arr := arr } }

/-- Lines 766-782; `i` is the pointer to the source. -/
def vkl_bake_source_alloc (visual : VklVisual) (i : Nat) (count : Nat) :
    Except VklError VklVisual :=
  match visual.sources[i]? with
  | none => .error .assertion
  | some source =>
    if ¬ is_obj_created source.arr.obj_status then .error .assertion
    else
      .ok { visual with
            sources := visual.sources.set i
              { source with arr := vkl_array_resize source.arr count } }

/-- The loop of lines 793-798 from the prop of index `k`, for at most `n` props. -/
def vkl_bake_source_fill_loop (i : Nat) : Nat → Nat → VklVisual → Except VklError VklVisual
  | 0, _, visual => .ok visual
  | n + 1, k, visual =>
    match visual.props[k]? with
    | none => .ok visual
    | some prop =>
      if prop.source = some i then
        match vkl_bake_prop_copy visual k with
        | .error e => .error e
        | .ok visual1 => vkl_bake_source_fill_loop i n (k + 1) visual1
      else vkl_bake_source_fill_loop i n (k + 1) visual

/-- Lines 786-799; `i` is the pointer to the source. -/
def vkl_bake_source_fill (visual : VklVisual) (i : Nat) : Except VklError VklVisual :=
  vkl_bake_source_fill_loop i visual.props.length 0 visual

/-- The product `item_count * MAX(1, reps)` of line 728 for a prop, as a natural
number. -/
def VklProp.bakedCount (prop : VklProp) : Nat :=
  prop.arr_orig.item_count * MAX 1 prop.reps

/-- A vertex source of two bytes per item with two props of one byte, at the byte
offsets 0 and 1; the first prop has a default value and has never been set, the second
has received 3 items; the array of the source has been resized to 3 items. -/
def exampleDefaultVisual : VklVisual :=
  match (do
    let visual ← vkl_visual_source 8 (vkl_visual 1 1 exampleCanvas) .VERTEX .GRAPHICS 0 0 2 0
    let visual ← vkl_visual_prop 8 visual 2 0 .CHAR .VERTEX 0
    let visual ← vkl_visual_prop 8 visual 3 0 .CHAR .VERTEX 0
    let visual ← vkl_visual_prop_copy visual 3 0 1 1 .NONE 0
    let visual ← vkl_visual_prop_default visual 2 0 (some [9])
    let visual ← vkl_visual_data visual 3 0 3 [5, 6, 7]
    vkl_bake_source_alloc visual 0 3 : Except VklError VklVisual) with
  | .ok visual => visual
  | .error _ => vkl_visual 1 1 exampleCanvas

/-- The prop is copied one to one: `reps` is 1, or it is 0 with the copy type NONE
that a prop has when it is declared. -/
def VklProp.oneToOne (prop : VklProp) : Prop :=
  prop.reps = 1 ∨ (prop.copy_type = .NONE ∧ prop.reps = 0)

instance (prop : VklProp) : Decidable prop.oneToOne := by
  unfold VklProp.oneToOne
  infer_instance

/-- The prop is a column of a source of `S` bytes per item, fed with `N` items: its
array holds `N` items, it is copied one to one, and its bytes
`[offset, offset + size)` lie inside the item. -/
def VklProp.isColumn (prop : VklProp) (N S : Nat) : Prop :=
  prop.arr_orig.item_count = N ∧ prop.arr_orig.data ≠ none ∧ prop.oneToOne ∧
  0 < _get_dtype_size prop.dtype ∧ prop.offset + _get_dtype_size prop.dtype ≤ S

instance (prop : VklProp) (N S : Nat) : Decidable (prop.isColumn N S) := by
  unfold VklProp.isColumn
  infer_instance

/-- The byte ranges of the two props in the item do not overlap. -/
def columnsDisjoint (p q : VklProp) : Prop :=
  p.offset + _get_dtype_size p.dtype ≤ q.offset ∨
  q.offset + _get_dtype_size q.dtype ≤ p.offset

instance (p q : VklProp) : Decidable (columnsDisjoint p q) := by
  unfold columnsDisjoint
  infer_instance

/-- The column of the prop in the array of the source holds the data of the prop:
for every item `j < N` the bytes `[offset, offset + size)` of the item `j` of the
array are the element `j` of the data of the prop. -/
def columnHolds (arr : VklArray) (prop : VklProp) (N : Nat) : Prop :=
  ∀ j b, j < N → b < _get_dtype_size prop.dtype →
    arr.byteAt (j * arr.item_size + prop.offset + b)
      = prop.arr_orig.byteAt (j * _get_dtype_size prop.dtype + b)

/-- A vertex source of 28 bytes per item with a position prop of 12 bytes at the byte
offset 0 and a color prop of 4 bytes at the byte offset 12, both copied one to one
(`reps = 1`); each prop has received 6 items with `vkl_visual_data`: the positions are
the bytes 0, 1, ..., 71 and the colors the bytes 100, 101, ..., 123. -/
def exampleScatterVisual : VklVisual :=
  match (do
    let visual ← vkl_visual_source 8 (vkl_visual 1 1 exampleCanvas) .VERTEX .GRAPHICS 0 0 28 0
    let visual ← vkl_visual_prop 8 visual 1 0 (.OTHER 12) .VERTEX 0
    let visual ← vkl_visual_prop 8 visual 2 0 .CVEC4 .VERTEX 0
    let visual ← vkl_visual_prop_copy visual 1 0 0 0 .SINGLE 1
    let visual ← vkl_visual_prop_copy visual 2 0 1 12 .SINGLE 1
    let visual ← vkl_visual_data visual 1 0 6 (List.range 72)
    vkl_visual_data visual 2 0 6 ((List.range 24).map fun b => b + 100) :
      Except VklError VklVisual) with
  | .ok visual => visual
  | .error _ => vkl_visual 1 1 exampleCanvas

/-- A vertex source of two bytes per item with two props of one byte at the byte
offsets 0 and 1; the first is copied with every element duplicated (`SINGLE`,
`reps = 2`), the second with a cyclic repeat (`REPEAT`, `reps = 2`); each prop has
received 2 items with `vkl_visual_data`. -/
def exampleRepsVisual : VklVisual :=
  match (do
    let visual ← vkl_visual_source 8 (vkl_visual 1 1 exampleCanvas) .VERTEX .GRAPHICS 0 0 2 0
    let visual ← vkl_visual_prop 8 visual 1 0 .CHAR .VERTEX 0
    let visual ← vkl_visual_prop 8 visual 2 0 .CHAR .VERTEX 0
    let visual ← vkl_visual_prop_copy visual 1 0 0 0 .SINGLE 2
    let visual ← vkl_visual_prop_copy visual 2 0 1 1 .REPEAT 2
    let visual ← vkl_visual_data visual 1 0 2 [5, 6]
    vkl_visual_data visual 2 0 2 [7, 8] : Except VklError VklVisual) with
  | .ok visual => visual
  | .error _ => vkl_visual 1 1 exampleCanvas

/-- A uniform source that is never set, declared before a vertex source of one byte
per item whose prop has received 2 items with `vkl_visual_data`. -/
def exampleUnsetFirstVisual : VklVisual :=
  match (do
    let visual ← vkl_visual_source 8 (vkl_visual 1 1 exampleCanvas) .MVP .GRAPHICS 0 0 4 0
    let visual ← vkl_visual_source 8 visual .VERTEX .GRAPHICS 0 0 1 0
    let visual ← vkl_visual_prop 8 visual 1 0 .CHAR .VERTEX 0
    vkl_visual_data visual 1 0 2 [5, 6] : Except VklError VklVisual) with
  | .ok visual => visual
  | .error _ => vkl_visual 1 1 exampleCanvas

/-- The vertex source of `exampleScatterVisual`: 28 bytes per item, managed by the
library and flagged NEED_UPDATE since its props have received data. -/
def exampleScatterSource : VklSource :=
  { vkl_visual_source_new .VERTEX .GRAPHICS 0 0 28 0 with
    origin := .LIB, obj_status := .NEED_UPDATE }

/-! ## Uniform baking (line 931) -/

/-- Modelled from the spec: the baking of one source, as the bake stage does it: it
"determines final item counts per Source (e.g. vertex count from the longest-bound
prop), resizes Source arrays accordingly (`alloc`), and for every Prop copies its
array into its owning Source's array at the Prop's configured offset (`fill`)"; the
three steps are the functions `vkl_bake_max_prop_size`, `vkl_bake_source_alloc` and
`vkl_bake_source_fill` of lines 713-799; `i` is the pointer to the source. -/
def _bake_uniforms_source (visual : VklVisual) (i : Nat) : Except VklError VklVisual :=
  match vkl_bake_source_alloc visual i (vkl_bake_max_prop_size visual i) with
  | .error e => .error e
  | .ok visual1 => vkl_bake_source_fill visual1 i

/-- Modelled from the spec: the loop of `_bake_uniforms` over the sources, from the
source `i`, for at most `n` sources. -/
def _bake_uniforms_loop : Nat → Nat → VklVisual → Except VklError VklVisual
  | 0, _, visual => .ok visual
  | n + 1, i, visual =>
    match visual.sources[i]? with
    | none => .ok visual
    | some source =>
      if source.source_kind = .UNIFORM ∧ source.origin = .LIB then
        match _bake_uniforms_source visual i with
        | .error e => .error e
        | .ok visual1 => _bake_uniforms_loop n (i + 1) visual1
      else _bake_uniforms_loop n (i + 1) visual

/-- Modelled from the spec: `_bake_uniforms`, called at line 931 and defined in a
header that is not among the sources: "uniform-kind sources are special-cased and
always baked regardless of the bake callback, since they are typically small (MVP
matrices, viewport rectangles) and cheap to recompute every update".  The sources
baked are those that the library manages (origin LIB): the origin tells "who is
responsible for a Source's physical resource and upload (library-managed, user-managed,
or directly-written-without-baking)".  The baking does not look at the status of the
source: it is run again at every update. -/
def _bake_uniforms (visual : VklVisual) : Except VklError VklVisual :=
  _bake_uniforms_loop visual.sources.length 0 visual

/-- Claim C10: `_get_source_kind` is the fixed table: MVP, VIEWPORT and PARAM map to
UNIFORM; VERTEX to VERTEX; INDEX to INDEX; IMAGE, COLOR_TEXTURE and FONT_ATLAS to
TEXTURE_2D; VOLUME to TEXTURE_3D; every other source type maps to a value that is
neither a buffer kind nor a texture kind. -/
theorem get_source_kind_table :
    _get_source_kind .MVP = .UNIFORM ∧ _get_source_kind .VIEWPORT = .UNIFORM ∧
    _get_source_kind .PARAM = .UNIFORM ∧ _get_source_kind .VERTEX = .VERTEX ∧
    _get_source_kind .INDEX = .INDEX ∧ _get_source_kind .IMAGE = .TEXTURE_2D ∧
    _get_source_kind .COLOR_TEXTURE = .TEXTURE_2D ∧
    _get_source_kind .FONT_ATLAS = .TEXTURE_2D ∧ _get_source_kind .VOLUME = .TEXTURE_3D ∧
    ∀ type : VklSourceType,
      type ∉ [.MVP, .VIEWPORT, .PARAM, .VERTEX, .INDEX, .IMAGE, .COLOR_TEXTURE,
              .FONT_ATLAS, .VOLUME] →
      _get_source_kind type = .NONE ∧
      _source_is_buffer (_get_source_kind type) = false ∧
      _source_is_texture (_get_source_kind type) = false := by
  refine ⟨rfl, rfl, rfl, rfl, rfl, rfl, rfl, rfl, rfl, ?_⟩
  intro type h
  cases type <;> simp_all [_get_source_kind, _source_is_buffer, _source_is_texture]

/-! ## Frame lemmas for the Binding Sets -/

theorem sameButBindings_refl (visual : VklVisual) : sameButBindings visual visual :=
  ⟨rfl, rfl, rfl, rfl, rfl, rfl⟩

theorem sameButBindings_trans {a b c : VklVisual} (h1 : sameButBindings a b)
    (h2 : sameButBindings b c) : sameButBindings a c := by
  obtain ⟨h11, h12, h13, h14, h15, h16⟩ := h1
  obtain ⟨h21, h22, h23, h24, h25, h26⟩ := h2
  exact ⟨h21.trans h11, h22.trans h12, h23.trans h13, h24.trans h14, h25.trans h15,
    h26.trans h16⟩

theorem modifyBindings_frame {visual visual1 : VklVisual} {ref : VklBindingsRef}
    {f : VklBindings → VklBindings} (h : visual.modifyBindings ref f = .ok visual1) :
    sameButBindings visual visual1 := by
  unfold VklVisual.modifyBindings at h
  cases ref with
  | graphics idx =>
    simp only at h
    split at h
    · cases h
    · cases h
      exact ⟨rfl, rfl, rfl, rfl, rfl, rfl⟩
  | compute idx =>
    simp only at h
    split at h
    · cases h
    · cases h
      exact ⟨rfl, rfl, rfl, rfl, rfl, rfl⟩

theorem modifyOtherBindings_frame (f : VklBindings → VklBindings) (idxs : List Nat) :
    ∀ {visual visual1 : VklVisual}, modifyOtherBindings f idxs visual = .ok visual1 →
      sameButBindings visual visual1 := by
  induction idxs with
  | nil =>
    intro visual visual1 h
    simp only [modifyOtherBindings] at h
    cases h
    exact sameButBindings_refl _
  | cons idx rest ih =>
    intro visual visual1 h
    simp only [modifyOtherBindings] at h
    split at h
    · cases h
    · rename_i v2 h2
      exact sameButBindings_trans (modifyBindings_frame h2) (ih h)

theorem set_source_bindings_frame {visual visual1 : VklVisual} {source : VklSource}
    (h : _set_source_bindings visual source = .ok visual1) :
    sameButBindings visual visual1 := by
  unfold _set_source_bindings at h
  split at h
  · split at h
    · cases h
    · split at h
      · cases h
      · rename_i v2 h2
        exact sameButBindings_trans (modifyBindings_frame h2) (modifyOtherBindings_frame _ _ h)
  · cases h
    exact sameButBindings_refl _

/-! ## The doubling loop -/

theorem buffer_size_loop_spec (req : Nat) (hreq : req < 2 ^ 63) :
    ∀ (fuel size : Nat), 0 < size → req ≤ size * 2 ^ fuel →
      ∃ k, buffer_size_loop req (fuel + 1) size = some (size * 2 ^ k) ∧
        req ≤ size * 2 ^ k ∧ ∀ j, req ≤ size * 2 ^ j → k ≤ j := by
  intro fuel
  induction fuel with
  | zero =>
    intro size _ hle
    refine ⟨0, ?_, by simpa using hle, fun j _ => Nat.zero_le j⟩
    have : ¬ size < req := by simpa using hle
    simp [buffer_size_loop, this]
  | succ n ih =>
    intro size hpos hle
    by_cases hlt : size < req
    · have hmod : (size * 2) % 2 ^ 64 = size * 2 := Nat.mod_eq_of_lt (by omega)
      obtain ⟨k, hk, hk1, hk2⟩ := ih (size * 2) (by omega)
        (by rw [pow_succ] at hle; calc req ≤ size * (2 ^ n * 2) := hle
              _ = size * 2 * 2 ^ n := by ring)
      refine ⟨k + 1, ?_, ?_, ?_⟩
      · rw [buffer_size_loop, if_pos hlt, hmod, hk]
        congr 1
        ring
      · calc req ≤ size * 2 * 2 ^ k := hk1
          _ = size * 2 ^ (k + 1) := by ring
      · intro j hj
        cases j with
        | zero => simp at hj; omega
        | succ j =>
          have : k ≤ j := hk2 j (by
            calc req ≤ size * 2 ^ (j + 1) := hj
              _ = size * 2 * 2 ^ j := by ring)
          omega
    · refine ⟨0, ?_, by simpa using Nat.le_of_not_lt hlt, fun j _ => Nat.zero_le j⟩
      rw [buffer_size_loop, if_neg hlt]
      simp

theorem buffer_size_loop_mono (req : Nat) :
    ∀ (n size r : Nat), buffer_size_loop req n size = some r →
      buffer_size_loop req (n + 1) size = some r := by
  intro n
  induction n with
  | zero => intro size r h; simp [buffer_size_loop] at h
  | succ n ih =>
    intro size r h
    rw [buffer_size_loop] at h ⊢
    split
    · rename_i hlt
      rw [if_pos hlt] at h
      exact ih _ _ h
    · rename_i hlt
      rw [if_neg hlt] at h
      exact h

theorem buffer_size_loop_zero (req : Nat) (h : 0 < req) :
    ∀ n, buffer_size_loop req n 0 = none := by
  intro n
  induction n with
  | zero => rfl
  | succ n ih =>
    rw [buffer_size_loop, if_pos h]
    simpa using ih

theorem buffer_size_loop_never (req : Nat) :
    ∀ (k size : Nat), size < 2 ^ 64 → 2 ^ 64 ∣ size * 2 ^ k →
      buffer_size_loop req (k + 1) size = none → ∀ n, buffer_size_loop req n size = none := by
  intro k
  induction k with
  | zero =>
    intro size hlt hdvd h n
    have h0 : size = 0 := Nat.eq_zero_of_dvd_of_lt (by simpa using hdvd) hlt
    subst h0
    have hreq : 0 < req := by
      by_contra hc
      simp [buffer_size_loop, hc] at h
    exact buffer_size_loop_zero req hreq n
  | succ k ih =>
    intro size hlt hdvd h n
    rw [buffer_size_loop] at h
    have hsz : size < req := by
      by_contra hc
      rw [if_neg hc] at h
      cases h
    rw [if_pos hsz] at h
    have hdvd1 : 2 ^ 64 ∣ (size * 2) % 2 ^ 64 * 2 ^ k := by
      apply Nat.dvd_of_mod_eq_zero
      rw [Nat.mod_mul_mod]
      have : size * 2 * 2 ^ k = size * 2 ^ (k + 1) := by ring
      rw [this]
      exact Nat.mod_eq_zero_of_dvd hdvd
    have hall := ih ((size * 2) % 2 ^ 64) (Nat.mod_lt _ (by positivity)) hdvd1 h
    cases n with
    | zero => rfl
    | succ n =>
      rw [buffer_size_loop, if_pos hsz]
      exact hall n

/-- The bound of 65 tests in `buffer_new_size` loses nothing: more tests give the same
result, and a loop that has not exited after 65 tests never exits. -/
theorem buffer_size_loop_fuel (req size : Nat) (hs : size < 2 ^ 64) :
    (∀ n, 65 ≤ n → buffer_size_loop req n size = buffer_size_loop req 65 size) ∧
    (buffer_size_loop req 65 size = none → ∀ n, buffer_size_loop req n size = none) := by
  have hnever : buffer_size_loop req 65 size = none →
      ∀ n, buffer_size_loop req n size = none :=
    buffer_size_loop_never req 64 size hs (Nat.dvd_mul_left _ _)
  refine ⟨?_, hnever⟩
  intro n hn
  cases h : buffer_size_loop req 65 size with
  | none => exact hnever h n
  | some r =>
    obtain ⟨d, rfl⟩ : ∃ d, n = 65 + d := ⟨n - 65, by omega⟩
    clear hn
    induction d with
    | zero => exact h
    | succ d ihd => exact buffer_size_loop_mono req _ _ _ ihd

theorem buffer_new_size_zero (req : Nat) : buffer_new_size 0 req = some req := by
  simp [buffer_new_size]

theorem buffer_new_size_spec (capacity req : Nat) (hpos : 0 < capacity)
    (hlt : capacity < req) (hreq : req < 2 ^ 63) :
    ∃ k, 1 ≤ k ∧ buffer_new_size capacity req = some (capacity * 2 ^ k) ∧
      req ≤ capacity * 2 ^ k ∧ ∀ j, 1 ≤ j → req ≤ capacity * 2 ^ j → k ≤ j := by
  have hmod : (capacity * 2) % 2 ^ 64 = capacity * 2 := Nat.mod_eq_of_lt (by omega)
  obtain ⟨k, hk, hk1, hk2⟩ := buffer_size_loop_spec req hreq 64 (capacity * 2) (by omega)
    (by
      have : (1 : Nat) ≤ capacity * 2 := by omega
      calc req ≤ 2 ^ 64 := by omega
        _ = 1 * 2 ^ 64 := by ring
        _ ≤ capacity * 2 * 2 ^ 64 := Nat.mul_le_mul_right _ this)
  refine ⟨k + 1, by omega, ?_, ?_, ?_⟩
  · unfold buffer_new_size
    simp only [hmod]
    rw [if_pos (by omega), hk]
    congr 1
    ring
  · calc req ≤ capacity * 2 * 2 ^ k := hk1
      _ = capacity * 2 ^ (k + 1) := by ring
  · intro j hj1 hj
    cases j with
    | zero => omega
    | succ j =>
      have : k ≤ j := hk2 j (by
        calc req ≤ capacity * 2 ^ (j + 1) := hj
          _ = capacity * 2 * 2 ^ j := by ring)
      omega

/-! ## What `vkl_visual_buffer_alloc` does -/

/-- The preconditions asserted by lines 810-814 hold whenever the call returns. -/
theorem buffer_alloc_pre {visual visual1 : VklVisual} {i : Nat} {source : VklSource}
    (hs : visual.sources[i]? = some source)
    (h : vkl_visual_buffer_alloc visual i = .ok visual1) :
    source.source_kind.toNat < VklSourceKind.TEXTURE_1D.toNat ∧
      0 < source.arr.item_size ∧ 0 < source.arr.item_count := by
  unfold vkl_visual_buffer_alloc at h
  simp only [hs] at h
  refine ⟨?_, ?_, ?_⟩ <;> by_contra hc <;> simp [hc] at h

/-- When the test of line 817 fails, nothing changes. -/
theorem buffer_alloc_keep {visual visual1 : VklVisual} {i : Nat} {source : VklSource}
    (hs : visual.sources[i]? = some source)
    (h : vkl_visual_buffer_alloc visual i = .ok visual1)
    (hn : ¬ source.needs_alloc) : visual1 = visual := by
  obtain ⟨h1, h2, h3⟩ := buffer_alloc_pre hs h
  unfold vkl_visual_buffer_alloc at h
  simp only [hs, h1, h2, h3, not_true_eq_false, if_false, if_neg hn] at h
  split at h
  · cases h
  · cases h
    rfl

/-- When the test of line 817 succeeds, one region is requested, of the size
computed by lines 819-824, and it becomes the region of the source. -/
theorem buffer_alloc_grow {visual visual1 : VklVisual} {i : Nat} {source : VklSource}
    (hs : visual.sources[i]? = some source)
    (h : vkl_visual_buffer_alloc visual i = .ok visual1)
    (hn : source.needs_alloc) :
    ∃ size, buffer_new_size source.u.br.size source.required_size = some size ∧
      source.required_size ≤ size ∧
      visual1.sources = visual.sources.set i (buffer_alloc_source visual i source size) ∧
      visual1.canvas.context.calls = visual.canvas.context.calls ++
        [.ctx_buffers i (_get_buffer_idx source) (buffer_alloc_count visual source) size] ∧
      visual1.canvas.img_count = visual.canvas.img_count ∧
      visual1.obj_status = visual.obj_status ∧ visual1.props = visual.props ∧
      visual1.graphics_count = visual.graphics_count ∧
      visual1.compute_count = visual.compute_count := by
  obtain ⟨h1, h2, h3⟩ := buffer_alloc_pre hs h
  unfold vkl_visual_buffer_alloc at h
  simp only [hs, h1, h2, h3, not_true_eq_false, if_false, if_pos hn] at h
  split at h
  · cases h
  · rename_i size hsize
    split at h
    · cases h
    · rename_i hle
      split at h
      · cases h
      · rename_i visual2 hb
        split at h
        · cases h
        · cases h
          obtain ⟨e1, e2, e3, e4, e5, e6⟩ := set_source_bindings_frame hb
          refine ⟨size, hsize, by simpa using hle, ?_, ?_, ?_, e1, e4, e5, e6⟩
          · rw [e3]; rfl
          · rw [e2]; rfl
          · rw [e2]; rfl

theorem getElem?_lt {i : Nat} {l : List VklSource} {s : VklSource} (h : l[i]? = some s) :
    i < l.length := by
  rcases List.getElem?_eq_some_iff.mp h with ⟨hi, _⟩
  exact hi

theorem newCalls_append (visual visual1 : VklVisual) (cs : List VklCall)
    (h : visual1.canvas.context.calls = visual.canvas.context.calls ++ cs) :
    newCalls visual visual1 = cs := by
  simp [newCalls, h]

theorem newCalls_self (visual : VklVisual) : newCalls visual visual = [] := by
  simp [newCalls]

theorem required_size_eq (source : VklSource)
    (h : source.arr.item_count * source.arr.item_size < 2 ^ 64) :
    source.required_size = source.arr.item_count * source.arr.item_size :=
  Nat.mod_eq_of_lt h

/-! ## Buffer growth -/

/-- Claim C1: in `vkl_visual_buffer_alloc`, for a source whose region has capacity
`C` and whose required byte size is `R = item_count * item_size` with `C < R < 2^63`,
the size computed by lines 819-824 is `C * 2^k` for the least `k >= 1` with
`C * 2^k >= R` when `C > 0`, and is `R` when `C = 0`; whenever the call returns, this
size is the one passed to the allocator in the single allocation call issued, and the
capacity of the new region of the source; and the call does return, for a source of
a buffer kind, as soon as the Binding Sets of line 839 can be written. -/
theorem buffer_alloc_doubling (visual : VklVisual) (i : Nat) (source : VklSource)
    (hs : visual.sources[i]? = some source)
    (hlt : source.u.br.size < source.arr.item_count * source.arr.item_size)
    (hreq : source.arr.item_count * source.arr.item_size < 2 ^ 63) :
    ∃ size,
      buffer_new_size source.u.br.size (source.arr.item_count * source.arr.item_size)
        = some size ∧
      (source.u.br.size = 0 → size = source.arr.item_count * source.arr.item_size) ∧
      (0 < source.u.br.size →
        ∃ k, 1 ≤ k ∧ size = source.u.br.size * 2 ^ k ∧
          source.arr.item_count * source.arr.item_size ≤ source.u.br.size * 2 ^ k ∧
          ∀ j, 1 ≤ j →
            source.arr.item_count * source.arr.item_size ≤ source.u.br.size * 2 ^ j → k ≤ j) ∧
      (∀ visual1, vkl_visual_buffer_alloc visual i = .ok visual1 →
        newCalls visual visual1 =
          [.ctx_buffers i (_get_buffer_idx source) (buffer_alloc_count visual source) size] ∧
        (visual1.sources[i]?).map (fun s => s.u.br.size) = some size) ∧
      (∀ visual1, source.source_kind.toNat < VklSourceKind.TEXTURE_1D.toNat →
        _set_source_bindings (buffer_alloc_visual visual i source size)
          (buffer_alloc_source visual i source size) = .ok visual1 →
        vkl_visual_buffer_alloc visual i = .ok visual1) := by
  have hfit : source.arr.item_count * source.arr.item_size < 2 ^ 64 := by omega
  have hR := required_size_eq source hfit
  have hnum : ∃ size,
      buffer_new_size source.u.br.size (source.arr.item_count * source.arr.item_size)
        = some size ∧
      (source.u.br.size = 0 → size = source.arr.item_count * source.arr.item_size) ∧
      (0 < source.u.br.size →
        ∃ k, 1 ≤ k ∧ size = source.u.br.size * 2 ^ k ∧
          source.arr.item_count * source.arr.item_size ≤ source.u.br.size * 2 ^ k ∧
          ∀ j, 1 ≤ j →
            source.arr.item_count * source.arr.item_size ≤ source.u.br.size * 2 ^ j →
              k ≤ j) := by
    rcases Nat.eq_zero_or_pos source.u.br.size with h0 | hpos
    · refine ⟨_, by rw [h0]; exact buffer_new_size_zero _, fun _ => rfl, fun hp => ?_⟩
      omega
    · obtain ⟨k, hk1, hk, hk2, hk3⟩ := buffer_new_size_spec _ _ hpos hlt hreq
      exact ⟨_, hk, fun h0 => by omega, fun _ => ⟨k, hk1, rfl, hk2, hk3⟩⟩
  obtain ⟨size, hsize, hz, hp⟩ := hnum
  have hn : source.needs_alloc := Or.inr (by rw [hR]; exact hlt)
  refine ⟨size, hsize, hz, hp, ?_, ?_⟩
  · intro visual1 h
    obtain ⟨size1, hs1, _, hsrc, hcalls, _⟩ := buffer_alloc_grow hs h hn
    rw [hR, hsize] at hs1
    cases hs1
    refine ⟨newCalls_append _ _ _ hcalls, ?_⟩
    have hi : i < visual.sources.length := getElem?_lt hs
    rw [hsrc]
    simp [hi, buffer_alloc_source, vkl_ctx_buffers]
  · intro visual1 hkind hbind
    have hle : source.required_size ≤ size := by
      rw [hR]
      rcases Nat.eq_zero_or_pos source.u.br.size with h0 | hpos
      · rw [hz h0]
      · obtain ⟨k, _, hk, hk2, _⟩ := hp hpos
        rw [hk]
        exact hk2
    have hpos : 0 < source.arr.item_count * source.arr.item_size := by omega
    have hcount : 0 < source.arr.item_count := Nat.pos_of_mul_pos_right hpos
    have hitem : 0 < source.arr.item_size := Nat.pos_of_mul_pos_left hpos
    have hbuf : (buffer_alloc_source visual i source size).u.br.buffer ≠ 0 := by
      simp [buffer_alloc_source, vkl_ctx_buffers]
    unfold vkl_visual_buffer_alloc
    simp only [hs, hkind, hitem, hcount, not_true_eq_false, if_false, if_pos hn]
    rw [hR, hsize]
    simp only
    rw [← hR, if_neg (not_not.mpr hle), hbind]
    simp only
    rw [if_neg hbuf]

/-- Witness of `buffer_alloc_doubling`: a capacity of 10 bytes and 25 required bytes
give a request of 40 bytes. -/
theorem buffer_alloc_doubling_witness :
    exampleVertexVisual.sources[0]? = some exampleVertexSource ∧
    buffer_new_size 10 25 = some 40 ∧
    ∃ size,
      buffer_new_size exampleVertexSource.u.br.size
        (exampleVertexSource.arr.item_count * exampleVertexSource.arr.item_size) = some size ∧
      (exampleVertexSource.u.br.size = 0 →
        size = exampleVertexSource.arr.item_count * exampleVertexSource.arr.item_size) ∧
      (0 < exampleVertexSource.u.br.size →
        ∃ k, 1 ≤ k ∧ size = exampleVertexSource.u.br.size * 2 ^ k ∧
          exampleVertexSource.arr.item_count * exampleVertexSource.arr.item_size
            ≤ exampleVertexSource.u.br.size * 2 ^ k ∧
          ∀ j, 1 ≤ j →
            exampleVertexSource.arr.item_count * exampleVertexSource.arr.item_size
              ≤ exampleVertexSource.u.br.size * 2 ^ j → k ≤ j) ∧
      (∀ visual1, vkl_visual_buffer_alloc exampleVertexVisual 0 = .ok visual1 →
        newCalls exampleVertexVisual visual1 =
          [.ctx_buffers 0 (_get_buffer_idx exampleVertexSource)
            (buffer_alloc_count exampleVertexVisual exampleVertexSource) size] ∧
        (visual1.sources[0]?).map (fun s => s.u.br.size) = some size) ∧
      (∀ visual1,
        exampleVertexSource.source_kind.toNat < VklSourceKind.TEXTURE_1D.toNat →
        _set_source_bindings (buffer_alloc_visual exampleVertexVisual 0 exampleVertexSource size)
          (buffer_alloc_source exampleVertexVisual 0 exampleVertexSource size) = .ok visual1 →
        vkl_visual_buffer_alloc exampleVertexVisual 0 = .ok visual1) :=
  ⟨by decide, by decide,
    buffer_alloc_doubling exampleVertexVisual 0 exampleVertexSource (by decide) (by decide)
      (by decide)⟩

/-- Claim C3: whenever `vkl_visual_buffer_alloc` returns, it has issued an allocation
call for the source if and only if the source had no buffer or a capacity smaller than
`item_count * item_size` (the 64-bit product of line 817, which is the exact product
whenever that fits 64 bits); in that case the region of the source is the region
returned by the allocator; in every other case the visual, hence the region of the
source, every Binding Set and the log of calls, is unchanged. -/
theorem buffer_alloc_iff (visual visual1 : VklVisual) (i : Nat) (source : VklSource)
    (hs : visual.sources[i]? = some source)
    (h : vkl_visual_buffer_alloc visual i = .ok visual1) :
    ((∃ c ∈ newCalls visual visual1, c.allocFor i = true) ↔
      (source.u.br.buffer = 0 ∨ source.u.br.size < source.required_size)) ∧
    ((source.u.br.buffer = 0 ∨ source.u.br.size < source.required_size) →
      ∃ size, visual1.sources[i]? = some (buffer_alloc_source visual i source size) ∧
        newCalls visual visual1 =
          [.ctx_buffers i (_get_buffer_idx source) (buffer_alloc_count visual source) size]) ∧
    (¬ (source.u.br.buffer = 0 ∨ source.u.br.size < source.required_size) →
      visual1 = visual ∧ newCalls visual visual1 = []) ∧
    (source.arr.item_count * source.arr.item_size < 2 ^ 64 →
      source.required_size = source.arr.item_count * source.arr.item_size) := by
  have hi : i < visual.sources.length := by
    rcases List.getElem?_eq_some_iff.mp hs with ⟨hi, _⟩
    exact hi
  have hgrow : (source.u.br.buffer = 0 ∨ source.u.br.size < source.required_size) →
      ∃ size, visual1.sources[i]? = some (buffer_alloc_source visual i source size) ∧
        newCalls visual visual1 =
          [.ctx_buffers i (_get_buffer_idx source) (buffer_alloc_count visual source) size] := by
    intro hn
    obtain ⟨size, _, _, hsrc, hcalls, _⟩ := buffer_alloc_grow hs h hn
    exact ⟨size, by rw [hsrc]; simp [hi], newCalls_append _ _ _ hcalls⟩
  have hkeep : ¬ (source.u.br.buffer = 0 ∨ source.u.br.size < source.required_size) →
      visual1 = visual ∧ newCalls visual visual1 = [] := by
    intro hn
    have := buffer_alloc_keep hs h hn
    subst this
    exact ⟨rfl, newCalls_self _⟩
  refine ⟨⟨?_, ?_⟩, hgrow, hkeep, required_size_eq source⟩
  · rintro ⟨c, hc, _⟩
    by_contra hn
    rw [(hkeep hn).2] at hc
    simp at hc
  · intro hn
    obtain ⟨size, _, hc⟩ := hgrow hn
    exact ⟨.ctx_buffers i (_get_buffer_idx source) (buffer_alloc_count visual source) size,
      by rw [hc]; simp, by simp [VklCall.allocFor]⟩

/-- Witness of `buffer_alloc_iff`: the example source, whose 10 bytes do not hold 25
items, gets a region of 40 bytes. -/
theorem buffer_alloc_iff_witness :
    exampleVertexVisual.sources[0]? = some exampleVertexSource ∧
    vkl_visual_buffer_alloc exampleVertexVisual 0 =
      .ok (buffer_alloc_visual exampleVertexVisual 0 exampleVertexSource 40) ∧
    ((∃ c ∈ newCalls exampleVertexVisual
          (buffer_alloc_visual exampleVertexVisual 0 exampleVertexSource 40),
        c.allocFor 0 = true) ↔
      (exampleVertexSource.u.br.buffer = 0 ∨
        exampleVertexSource.u.br.size < exampleVertexSource.required_size)) :=
  ⟨by decide, by decide,
    (buffer_alloc_iff exampleVertexVisual _ 0 exampleVertexSource (by decide) (by decide)).1⟩

/-! ## One pass of the upload loop touches one source -/

theorem callsOnlyFor_nil (i : Nat) : callsOnlyFor i [] := by
  intro c hc
  simp at hc

theorem callsOnlyFor_append {i : Nat} {cs ds : List VklCall} (h1 : callsOnlyFor i cs)
    (h2 : callsOnlyFor i ds) : callsOnlyFor i (cs ++ ds) := by
  intro c hc
  rcases List.mem_append.mp hc with h | h
  · exact h1 c h
  · exact h2 c h

theorem touchesOnly_refl (i : Nat) (visual : VklVisual) : touchesOnly i visual visual :=
  ⟨rfl, fun _ _ => rfl, [], by simp, callsOnlyFor_nil i⟩

theorem touchesOnly_trans {i : Nat} {a b c : VklVisual} (h1 : touchesOnly i a b)
    (h2 : touchesOnly i b c) : touchesOnly i a c := by
  obtain ⟨l1, s1, cs, hc1, t1⟩ := h1
  obtain ⟨l2, s2, ds, hc2, t2⟩ := h2
  refine ⟨l2.trans l1, fun j hj => (s2 j hj).trans (s1 j hj), cs ++ ds, ?_,
    callsOnlyFor_append t1 t2⟩
  rw [hc2, hc1, List.append_assoc]

theorem touchesOnly_of_sameButBindings {i : Nat} {visual visual1 : VklVisual}
    (h : sameButBindings visual visual1) : touchesOnly i visual visual1 := by
  obtain ⟨_, e2, e3, _⟩ := h
  exact ⟨by rw [e3], fun _ _ => by rw [e3], [], by rw [e2]; simp, callsOnlyFor_nil i⟩

theorem touchesOnly_set {i : Nat} {visual visual1 : VklVisual} {source : VklSource}
    {cs : List VklCall} (hs : visual1.sources = visual.sources.set i source)
    (hc : visual1.canvas.context.calls = visual.canvas.context.calls ++ cs)
    (ht : callsOnlyFor i cs) : touchesOnly i visual visual1 := by
  refine ⟨by rw [hs]; simp, fun j hj => ?_, cs, hc, ht⟩
  rw [hs, List.getElem?_set_ne (Ne.symm hj)]

theorem newCalls_of_touchesOnly {i : Nat} {visual visual1 : VklVisual}
    (h : touchesOnly i visual visual1) : callsOnlyFor i (newCalls visual visual1) := by
  obtain ⟨_, _, cs, hc, ht⟩ := h
  rw [newCalls_append _ _ _ hc]
  exact ht

theorem buffer_alloc_touches {visual visual1 : VklVisual} {i : Nat} {source : VklSource}
    (hs : visual.sources[i]? = some source)
    (h : vkl_visual_buffer_alloc visual i = .ok visual1) : touchesOnly i visual visual1 := by
  by_cases hn : source.needs_alloc
  · obtain ⟨size, _, _, hsrc, hcalls, _⟩ := buffer_alloc_grow hs h hn
    refine touchesOnly_set hsrc hcalls ?_
    intro c hc j hj
    simp only [List.mem_singleton] at hc
    subst hc
    simp [VklCall.allocFor, VklCall.uploadFor, Ne.symm hj]
  · rw [buffer_alloc_keep hs h hn]
    exact touchesOnly_refl _ _

theorem texture_bind_touches {a visual visual1 : VklVisual} {i : Nat} {source : VklSource}
    {tex : VklTexture} (ha : touchesOnly i a visual)
    (h : vkl_visual_texture_bind visual source tex = .ok visual1) :
    touchesOnly i a visual1 := by
  unfold vkl_visual_texture_bind at h
  split at h
  · cases h
  · exact touchesOnly_trans ha (touchesOnly_of_sameButBindings (modifyBindings_frame h))

theorem texture_alloc_touches {visual visual1 : VklVisual} {i : Nat}
    (h : vkl_visual_texture_alloc visual i = .ok visual1) : touchesOnly i visual visual1 := by
  unfold vkl_visual_texture_alloc at h
  split at h
  · cases h
  · rename_i source hs
    simp only at h
    repeat' split at h
    all_goals first
      | (cases h; done)
      | (cases h; exact touchesOnly_refl _ _)
      | (refine texture_bind_touches (touchesOnly_set rfl rfl ?_) h
         intro c hc j hj
         simp only [List.mem_singleton] at hc
         subst hc
         simp [VklCall.allocFor, VklCall.uploadFor, Ne.symm hj])

/-! ## Sources that the upload loop leaves alone -/

theorem untouched_refl (j : Nat) (visual : VklVisual) : untouched j visual visual :=
  ⟨rfl, [], by simp, fun c hc => by simp at hc⟩

theorem untouched_trans {j : Nat} {a b c : VklVisual} (h1 : untouched j a b)
    (h2 : untouched j b c) : untouched j a c := by
  obtain ⟨s1, cs, hc1, t1⟩ := h1
  obtain ⟨s2, ds, hc2, t2⟩ := h2
  refine ⟨s2.trans s1, cs ++ ds, by rw [hc2, hc1, List.append_assoc], ?_⟩
  intro c hc
  rcases List.mem_append.mp hc with h | h
  · exact t1 c h
  · exact t2 c h

theorem untouched_of_touchesOnly {i j : Nat} {visual visual1 : VklVisual} (hj : j ≠ i)
    (h : touchesOnly i visual visual1) : untouched j visual visual1 := by
  obtain ⟨_, hs, cs, hc, ht⟩ := h
  exact ⟨hs j hj, cs, hc, fun c hcs => ht c hcs j hj⟩

theorem untouched_of_sameButBindings {j : Nat} {visual visual1 : VklVisual}
    (h : sameButBindings visual visual1) : untouched j visual visual1 := by
  obtain ⟨_, e2, e3, _⟩ := h
  exact ⟨by rw [e3], [], by rw [e2]; simp, fun c hc => by simp at hc⟩

theorem newCalls_of_untouched {j : Nat} {visual visual1 : VklVisual}
    (h : untouched j visual visual1) : noCallsFor j (newCalls visual visual1) := by
  obtain ⟨_, cs, hc, ht⟩ := h
  rw [newCalls_append _ _ _ hc]
  exact ht

theorem update_invalid_frame {visual visual1 : VklVisual} {source : VklSource}
    (h : vkl_visual_update_invalid visual source = .ok visual1) :
    sameButBindings visual visual1 := by
  unfold vkl_visual_update_invalid at h
  split at h
  · cases h
  · rename_i v2 h2
    exact sameButBindings_trans (modifyBindings_frame h2) (modifyOtherBindings_frame _ _ h)

theorem update_created_touches (visual : VklVisual) (i : Nat) (source : VklSource)
    (ctx : VklContext) (c : VklCall)
    (hc : ctx.calls = visual.canvas.context.calls ++ [c])
    (ht : ∀ j, j ≠ i → c.allocFor j = false ∧ c.uploadFor j = false) :
    touchesOnly i visual (vkl_visual_update_created visual i source ctx) := by
  refine @touchesOnly_set i visual _ { source with obj_status := .CREATED } [c] rfl hc ?_
  intro d hd j hj
  simp only [List.mem_singleton] at hd
  subst hd
  exact ht j hj

theorem update_buffer_touches {visual visual1 : VklVisual} {i : Nat} {source : VklSource}
    (hs : visual.sources[i]? = some source)
    (h : vkl_visual_update_buffer visual i source = .ok visual1) :
    touchesOnly i visual visual1 := by
  unfold vkl_visual_update_buffer at h
  repeat' split at h
  all_goals first
    | (cases h; done)
    | (rename_i v2 h2 _ _ _ _ _ _
       cases h
       refine touchesOnly_trans (buffer_alloc_touches hs h2) ?_
       exact update_created_touches _ _ _ _ _ rfl (fun j hj => by
          simp [VklCall.allocFor, VklCall.uploadFor, Ne.symm hj]))

theorem update_texture_touches {visual visual1 : VklVisual} {i : Nat}
    (h : vkl_visual_update_texture visual i = .ok visual1) :
    touchesOnly i visual visual1 := by
  unfold vkl_visual_update_texture at h
  split at h
  · cases h
  · rename_i v2 h2
    have t1 := texture_alloc_touches h2
    repeat' split at h
    all_goals first
      | (cases h; done)
      | (cases h
         refine touchesOnly_trans t1 ?_
         exact update_created_touches _ _ _ _ _ rfl (fun j hj => by
            simp [VklCall.allocFor, VklCall.uploadFor, Ne.symm hj]))

/-- A pass of the loop on the source `i` touches no other source. -/
theorem update_source_touches {visual visual1 : VklVisual} {i : Nat} {source : VklSource}
    {b : Bool} (hs : visual.sources[i]? = some source)
    (h : vkl_visual_update_source visual i source = .ok (visual1, b)) :
    touchesOnly i visual visual1 := by
  unfold vkl_visual_update_source at h
  repeat' split at h
  all_goals first
    | (cases h; done)
    | (cases h; exact touchesOnly_refl _ _)
    | (rename_i v2 h2
       cases h
       first
        | exact touchesOnly_of_sameButBindings (update_invalid_frame h2)
        | exact update_buffer_touches hs h2
        | exact update_texture_touches h2)

/-- A source whose pass is a no-op is left alone by the whole loop. -/
theorem update_loop_skips (j : Nat) (s : VklSource)
    (hskip : ∀ v, vkl_visual_update_source v j s = .ok (v, false)) :
    ∀ (n i : Nat) (visual visual1 : VklVisual),
      vkl_visual_update_loop n i visual = .ok visual1 →
      visual.sources[j]? = some s → untouched j visual visual1 := by
  intro n
  induction n with
  | zero =>
    intro i visual visual1 h _
    simp only [vkl_visual_update_loop] at h
    cases h
    exact untouched_refl _ _
  | succ n ih =>
    intro i visual visual1 h hj
    simp only [vkl_visual_update_loop] at h
    split at h
    · cases h
      exact untouched_refl _ _
    · rename_i source hs
      by_cases hij : i = j
      · subst hij
        rw [hj] at hs
        cases hs
        rw [hskip visual] at h
        exact ih _ _ _ h hj
      · split at h
        · cases h
        · rename_i v2 h2
          cases h
          exact untouched_of_touchesOnly (Ne.symm hij) (update_source_touches hs h2)
        · rename_i v2 h2
          have t := untouched_of_touchesOnly (Ne.symm hij) (update_source_touches hs h2)
          exact untouched_trans t (ih _ _ _ h (by rw [t.1]; exact hj))

/-- A pass on a source that is not set leaves the loop and changes Binding Sets
only. -/
theorem update_source_none {visual visual1 : VklVisual} {i : Nat} {source : VklSource}
    {b : Bool} (ho : source.origin = .NONE)
    (h : vkl_visual_update_source visual i source = .ok (visual1, b)) :
    b = true ∧ sameButBindings visual visual1 := by
  unfold vkl_visual_update_source at h
  rw [if_pos ho] at h
  split at h
  · cases h
  · rename_i v2 h2
    cases h
    exact ⟨rfl, update_invalid_frame h2⟩

/-- The loop never reaches a source declared after a source that is not set. -/
theorem update_loop_breaks (i0 : Nat) (s0 : VklSource) (ho : s0.origin = .NONE) (j : Nat)
    (hj : i0 < j) :
    ∀ (n i : Nat) (visual visual1 : VklVisual),
      vkl_visual_update_loop n i visual = .ok visual1 → i ≤ i0 →
      visual.sources[i0]? = some s0 → untouched j visual visual1 := by
  intro n
  induction n with
  | zero =>
    intro i visual visual1 h _ _
    simp only [vkl_visual_update_loop] at h
    cases h
    exact untouched_refl _ _
  | succ n ih =>
    intro i visual visual1 h hi h0
    simp only [vkl_visual_update_loop] at h
    split at h
    · cases h
      exact untouched_refl _ _
    · rename_i source hs
      split at h
      · cases h
      · rename_i v2 h2
        cases h
        exact untouched_of_touchesOnly (by omega) (update_source_touches hs h2)
      · rename_i v2 h2
        have hne : i ≠ i0 := by
          intro hii
          subst hii
          rw [h0] at hs
          cases hs
          have := (update_source_none ho h2).1
          cases this
        have t := update_source_touches hs h2
        exact untouched_trans (untouched_of_touchesOnly (by omega) t)
          (ih _ _ _ h (by omega) (by rw [t.2.1 i0 (Ne.symm hne)]; exact h0))

/-- The bound of `vkl_visual_update_upload` on the number of passes loses nothing:
the loop ends by itself after the last source. -/
theorem update_loop_fuel :
    ∀ (n i : Nat) (visual : VklVisual), visual.sources.length ≤ i + n →
      vkl_visual_update_loop (n + 1) i visual = vkl_visual_update_loop n i visual := by
  intro n
  induction n with
  | zero =>
    intro i visual hlen
    have hnone : visual.sources[i]? = none := List.getElem?_eq_none (by omega)
    simp [vkl_visual_update_loop, hnone]
  | succ n ih =>
    intro i visual hlen
    rw [vkl_visual_update_loop, vkl_visual_update_loop]
    cases hs : visual.sources[i]? with
    | none => rfl
    | some source =>
      simp only
      cases h2 : vkl_visual_update_source visual i source with
      | error e => rfl
      | ok r =>
        obtain ⟨v2, b⟩ := r
        cases b with
        | true => rfl
        | false =>
          simp only
          have hl := (update_source_touches hs h2).1
          exact ih (i + 1) v2 (by omega)

/-! ## The refresh of the Binding Sets -/

theorem update_table_calls (pipeline : VklPipelineType) (count : Nat) (j : Nat) :
    ∀ (bs : List VklBindings) (i : Nat) (ctx : VklContext),
      ∃ cs, (vkl_visual_update_table pipeline count i bs ctx).2.calls = ctx.calls ++ cs ∧
        noCallsFor j cs := by
  intro bs
  induction bs with
  | nil =>
    intro i ctx
    exact ⟨[], by simp [vkl_visual_update_table], fun c hc => by simp at hc⟩
  | cons b rest ih =>
    intro i ctx
    simp only [vkl_visual_update_table]
    split
    · obtain ⟨cs, hc, ht⟩ := ih (i + 1) (vkl_bindings_update ctx pipeline i b).2
      refine ⟨.bindings_update pipeline i :: cs, ?_, ?_⟩
      · rw [hc]
        simp [vkl_bindings_update]
      · intro c hcm
        rcases List.mem_cons.mp hcm with h | h
        · subst h
          simp [VklCall.allocFor, VklCall.uploadFor]
        · exact ht c h
    · exact ih (i + 1) ctx

theorem update_bindings_untouched {visual visual1 : VklVisual} (j : Nat)
    (h : vkl_visual_update_bindings visual = .ok visual1) : untouched j visual visual1 := by
  unfold vkl_visual_update_bindings at h
  split at h
  · cases h
  · split at h
    · cases h
    · cases h
      obtain ⟨cs, hc, ht⟩ := update_table_calls .GRAPHICS visual.graphics_count j
        visual.bindings 0 visual.canvas.context
      obtain ⟨ds, hd, hu⟩ := update_table_calls .COMPUTE visual.compute_count j
        visual.bindings_comp 0
        (vkl_visual_update_table .GRAPHICS visual.graphics_count 0 visual.bindings
          visual.canvas.context).2
      refine ⟨rfl, cs ++ ds, ?_, ?_⟩
      · simp only
        rw [hd, hc, List.append_assoc]
      · intro c hcm
        rcases List.mem_append.mp hcm with h | h
        · exact ht c h
        · exact hu c h

/-- The part of `vkl_visual_update` that follows the baking stages: the upload loop
and the refresh of the Binding Sets. -/
theorem update_after_bake {cb : VklVisualCallbacks} {visual0 visual visual2 : VklVisual}
    (hb : vkl_visual_update_bake cb visual0 = .ok visual)
    (hu : vkl_visual_update cb visual0 = .ok visual2) :
    ∃ visual1, vkl_visual_update_upload visual = .ok visual1 ∧
      vkl_visual_update_bindings visual1 = .ok visual2 := by
  unfold vkl_visual_update at hu
  rw [hb] at hu
  simp only at hu
  split at hu
  · cases hu
  · rename_i v1 h1
    exact ⟨v1, h1, hu⟩

theorem update_full_untouched {cb : VklVisualCallbacks} {visual0 visual visual2 : VklVisual}
    {j : Nat} (hb : vkl_visual_update_bake cb visual0 = .ok visual)
    (hu : vkl_visual_update cb visual0 = .ok visual2)
    (hloop : ∀ v1, vkl_visual_update_upload visual = .ok v1 → untouched j visual v1) :
    untouched j visual visual2 := by
  obtain ⟨v1, h1, h2⟩ := update_after_bake hb hu
  exact untouched_trans (hloop v1 h1) (update_bindings_untouched j h2)

theorem update_source_user (s : VklSource) (ho : s.origin = .USER) (j : Nat) (v : VklVisual) :
    vkl_visual_update_source v j s = .ok (v, false) := by
  simp [vkl_visual_update_source, ho]

/-- Claim C4: for every visual and every source of it whose origin is USER, whatever
its status and its array, the resolve-and-upload step of `vkl_visual_update` leaves the
source (physical handle, array, status) unchanged and issues no allocation and no
upload for it; the same holds up to the return of `vkl_visual_update`, `visual` being
the state in which the baking stages leave the visual. -/
theorem update_leaves_user_sources (visual visual1 : VklVisual) (j : Nat) (s : VklSource)
    (hs : visual.sources[j]? = some s) (ho : s.origin = .USER)
    (h : vkl_visual_update_upload visual = .ok visual1) :
    (visual1.sources[j]? = some s ∧
      ∀ c ∈ newCalls visual visual1, c.allocFor j = false ∧ c.uploadFor j = false) ∧
    ∀ (cb : VklVisualCallbacks) (visual0 visual2 : VklVisual),
      vkl_visual_update_bake cb visual0 = .ok visual →
      vkl_visual_update cb visual0 = .ok visual2 →
      visual2.sources[j]? = some s ∧
        ∀ c ∈ newCalls visual visual2, c.allocFor j = false ∧ c.uploadFor j = false := by
  have hloop : ∀ v1, vkl_visual_update_upload visual = .ok v1 → untouched j visual v1 :=
    fun v1 h1 => update_loop_skips j s (update_source_user s ho j) _ _ _ _ h1 hs
  refine ⟨?_, ?_⟩
  · have t := hloop visual1 h
    exact ⟨t.1.trans hs, newCalls_of_untouched t⟩
  · intro cb visual0 visual2 hb hu
    have t := update_full_untouched hb hu hloop
    exact ⟨t.1.trans hs, newCalls_of_untouched t⟩

/-- Witness of `update_leaves_user_sources`: in the example scene the source bound by
the user is flagged for an update and stays as it is, while the vertex source is
allocated and uploaded. -/
theorem update_leaves_user_sources_witness :
    exampleSceneVisual.sources[1]? = some exampleUserSource ∧
    exampleUserSource.origin = .USER ∧
    vkl_visual_update_upload exampleSceneVisual = .ok exampleSceneUpdated ∧
    exampleSceneUpdated.sources[1]? = some exampleUserSource ∧
    ∀ c ∈ newCalls exampleSceneVisual exampleSceneUpdated,
      c.allocFor 1 = false ∧ c.uploadFor 1 = false :=
  ⟨by decide, by decide, by decide,
    (update_leaves_user_sources exampleSceneVisual exampleSceneUpdated 1 exampleUserSource
      (by decide) (by decide) (by decide)).1⟩

/-! ## Fail-fast on a source that is not set -/

/-- A pass on a source that is set does not leave the loop. -/
theorem update_source_continues {visual visual1 : VklVisual} {i : Nat} {source : VklSource}
    {b : Bool} (ho : source.origin ≠ .NONE)
    (h : vkl_visual_update_source visual i source = .ok (visual1, b)) : b = false := by
  unfold vkl_visual_update_source at h
  rw [if_neg ho] at h
  repeat' split at h
  all_goals first
    | (cases h; done)
    | (cases h; rfl)

/-- When the sources before the position `i0` are set and the source at `i0` is not,
the loop is the loop over the sources before `i0` followed by the invalidation of
lines 953-958. -/
theorem update_loop_prefix (i0 : Nat) (s0 : VklSource) (ho : s0.origin = .NONE) :
    ∀ (m i n : Nat) (visual visual1 : VklVisual), i + m = i0 → m < n →
      (∀ k s, i ≤ k → k < i0 → visual.sources[k]? = some s → s.origin ≠ .NONE) →
      visual.sources[i0]? = some s0 →
      vkl_visual_update_loop n i visual = .ok visual1 →
      ∃ vmid, vkl_visual_update_loop m i visual = .ok vmid ∧
        vkl_visual_update_invalid vmid s0 = .ok visual1 := by
  intro m
  induction m with
  | zero =>
    intro i n visual visual1 hi hn _ h0 h
    have hi0 : i = i0 := by omega
    subst hi0
    obtain ⟨n1, rfl⟩ : ∃ n1, n = n1 + 1 := ⟨n - 1, by omega⟩
    simp only [vkl_visual_update_loop, h0] at h
    refine ⟨visual, rfl, ?_⟩
    cases hinv : vkl_visual_update_invalid visual s0 with
    | error e => simp [vkl_visual_update_source, ho, hinv] at h
    | ok v3 =>
      simp [vkl_visual_update_source, ho, hinv] at h
      rw [h]
  | succ m ih =>
    intro i n visual visual1 hi hn hset h0 h
    obtain ⟨n1, rfl⟩ : ∃ n1, n = n1 + 1 := ⟨n - 1, by omega⟩
    have hlen := getElem?_lt h0
    have hilt : i < visual.sources.length := by omega
    have hs : visual.sources[i]? = some visual.sources[i] := List.getElem?_eq_getElem hilt
    have hoi := hset i _ (Nat.le_refl _) (by omega) hs
    simp only [vkl_visual_update_loop, hs] at h ⊢
    split at h
    · cases h
    · rename_i v2 h2
      have := update_source_continues hoi h2
      cases this
    · rename_i v2 h2
      have t := update_source_touches hs h2
      have hrest := ih (i + 1) n1 v2 visual1 (by omega) (by omega)
        (fun k s hk1 hk2 hk => hset k s (by omega) hk2
          (by rw [← t.2.1 k (by omega)]; exact hk))
        (by rw [t.2.1 i0 (by omega)]; exact h0) h
      exact hrest

/-- Claim C5: if the source at position `i0` has origin NONE (in particular if it is
the first such source), the resolve-and-upload step of `vkl_visual_update` leaves every
source at a position `j > i0` unchanged (status, physical handle, array) and issues no
allocation and no upload for it; the same holds up to the return of
`vkl_visual_update`, `visual` being the state in which the baking stages leave the
visual.  When it is the first such source, the sources declared before it are
processed as by the loop over these sources alone, and the step ends with the
invalidation of lines 953-958. -/
theorem update_stops_at_unset_source (visual visual1 : VklVisual) (i0 : Nat) (s0 : VklSource)
    (h0 : visual.sources[i0]? = some s0) (ho : s0.origin = .NONE)
    (h : vkl_visual_update_upload visual = .ok visual1) :
    (∀ j, i0 < j → visual1.sources[j]? = visual.sources[j]? ∧
      ∀ c ∈ newCalls visual visual1, c.allocFor j = false ∧ c.uploadFor j = false) ∧
    (∀ (cb : VklVisualCallbacks) (visual0 visual2 : VklVisual),
      vkl_visual_update_bake cb visual0 = .ok visual →
      vkl_visual_update cb visual0 = .ok visual2 →
      ∀ j, i0 < j → visual2.sources[j]? = visual.sources[j]? ∧
        ∀ c ∈ newCalls visual visual2, c.allocFor j = false ∧ c.uploadFor j = false) ∧
    ((∀ k s, k < i0 → visual.sources[k]? = some s → s.origin ≠ .NONE) →
      ∃ vmid, vkl_visual_update_loop i0 0 visual = .ok vmid ∧
        vkl_visual_update_invalid vmid s0 = .ok visual1) := by
  have hloop : ∀ j, i0 < j → ∀ v1, vkl_visual_update_upload visual = .ok v1 →
      untouched j visual v1 :=
    fun j hj v1 h1 => update_loop_breaks i0 s0 ho j hj _ _ _ _ h1 (Nat.zero_le _) h0
  refine ⟨?_, ?_, ?_⟩
  · intro j hj
    have t := hloop j hj visual1 h
    exact ⟨t.1, newCalls_of_untouched t⟩
  · intro cb visual0 visual2 hb hu j hj
    have t := update_full_untouched hb hu (hloop j hj)
    exact ⟨t.1, newCalls_of_untouched t⟩
  · intro hfirst
    exact update_loop_prefix i0 s0 ho i0 0 visual.sources.length visual visual1 (by omega)
      (getElem?_lt h0) (fun k s _ hk hs => hfirst k s hk hs) h0 h

/-- Witness of `update_stops_at_unset_source`: in the example scene the source at
position 3 was never set, and the stale source at position 4 is neither allocated nor
uploaded. -/
theorem update_stops_at_unset_source_witness :
    exampleSceneVisual.sources[3]? = some exampleUnsetSource ∧
    exampleUnsetSource.origin = .NONE ∧
    vkl_visual_update_upload exampleSceneVisual = .ok exampleSceneUpdated ∧
    ∀ j, 3 < j → exampleSceneUpdated.sources[j]? = exampleSceneVisual.sources[j]? ∧
      ∀ c ∈ newCalls exampleSceneVisual exampleSceneUpdated,
        c.allocFor j = false ∧ c.uploadFor j = false :=
  ⟨by decide, by decide, by decide,
    (update_stops_at_unset_source exampleSceneVisual exampleSceneUpdated 3 exampleUnsetSource
      (by decide) (by decide) (by decide)).1⟩

/-! ## Sources that need no update -/

theorem bake_source_loop_absent (source_type : VklSourceType) (pipeline_idx : Nat) :
    ∀ (l : List VklSource) (i : Nat) (out : Option Nat),
      (∀ s ∈ l, ¬ hasIdentity source_type pipeline_idx s) →
      vkl_bake_source_loop source_type pipeline_idx l i out = .ok out := by
  intro l
  induction l with
  | nil => intro i out _; rfl
  | cons s rest ih =>
    intro i out h
    have hs : ¬ (s.source_type = source_type ∧ s.pipeline_idx = pipeline_idx) :=
      h s (List.mem_cons_self _ _)
    simp only [vkl_bake_source_loop, if_neg hs]
    exact ih _ _ (fun t ht => h t (List.mem_cons_of_mem _ ht))

theorem bake_source_loop_some (source_type : VklSourceType) (pipeline_idx : Nat) :
    ∀ (l : List VklSource) (i k : Nat),
      vkl_bake_source_loop source_type pipeline_idx l i (some k) ≠ .ok none := by
  intro l
  induction l with
  | nil => intro i k h; cases h
  | cons s rest ih =>
    intro i k
    simp only [vkl_bake_source_loop]
    split
    · intro h; cases h
    · exact ih _ _

theorem bake_source_loop_error (source_type : VklSourceType) (pipeline_idx : Nat) :
    ∀ (l : List VklSource) (i : Nat) (out : Option Nat) (e : VklError),
      vkl_bake_source_loop source_type pipeline_idx l i out = .error e → e = .assertion := by
  intro l
  induction l with
  | nil => intro i out e h; cases h
  | cons s rest ih =>
    intro i out e h
    simp only [vkl_bake_source_loop] at h
    split at h
    · split at h
      · cases h; rfl
      · exact ih _ _ _ h
    · exact ih _ _ _ h

theorem bake_source_loop_present (source_type : VklSourceType) (pipeline_idx : Nat) :
    ∀ (l : List VklSource) (i : Nat) (out : Option Nat),
      (∃ s ∈ l, hasIdentity source_type pipeline_idx s) →
      vkl_bake_source_loop source_type pipeline_idx l i out ≠ .ok none := by
  intro l
  induction l with
  | nil =>
    intro i out h
    obtain ⟨s, hs, _⟩ := h
    cases hs
  | cons s rest ih =>
    intro i out h
    simp only [vkl_bake_source_loop]
    split
    · cases out with
      | some k => intro h; cases h
      | none => exact bake_source_loop_some _ _ _ _ _
    · rename_i hs
      apply ih
      obtain ⟨t, ht, hid⟩ := h
      rcases List.mem_cons.mp ht with h1 | h1
      · subst h1
        exact absurd hid hs
      · exact ⟨t, h1, hid⟩

theorem bake_source_loop_last (source_type : VklSourceType) (pipeline_idx : Nat)
    (new : VklSource) (hnew : hasIdentity source_type pipeline_idx new) :
    ∀ (l : List VklSource) (i : Nat),
      (∀ s ∈ l, ¬ hasIdentity source_type pipeline_idx s) →
      vkl_bake_source_loop source_type pipeline_idx (l ++ [new]) i none
        = .ok (some (i + l.length)) := by
  intro l
  induction l with
  | nil =>
    intro i _
    have hnew1 : new.source_type = source_type ∧ new.pipeline_idx = pipeline_idx := hnew
    simp [vkl_bake_source_loop, hnew1]
  | cons s rest ih =>
    intro i h
    have hs : ¬ (s.source_type = source_type ∧ s.pipeline_idx = pipeline_idx) :=
      h s (List.mem_cons_self _ _)
    rw [List.cons_append, vkl_bake_source_loop, if_neg hs,
      ih (i + 1) (fun t ht => h t (List.mem_cons_of_mem _ ht))]
    simp only [List.length_cons]
    congr 2
    omega

theorem bake_source_none_iff (visual : VklVisual) (source_type : VklSourceType)
    (pipeline_idx : Nat) :
    vkl_bake_source visual source_type pipeline_idx = .ok none ↔
      ∀ s ∈ visual.sources, ¬ hasIdentity source_type pipeline_idx s := by
  constructor
  · intro h s hs hid
    exact bake_source_loop_present source_type pipeline_idx _ 0 none ⟨s, hs, hid⟩ h
  · intro h
    exact bake_source_loop_absent source_type pipeline_idx _ 0 none h

theorem visual_source_new_identity (source_type : VklSourceType) (pipeline : VklPipelineType)
    (pipeline_idx slot_idx item_size flags : Nat) :
    hasIdentity source_type pipeline_idx
      (vkl_visual_source_new source_type pipeline pipeline_idx slot_idx item_size flags) := by
  unfold vkl_visual_source_new hasIdentity
  simp only
  split <;> exact ⟨rfl, rfl⟩

theorem visual_source_ok {n : Nat} {visual visual1 : VklVisual} {source_type : VklSourceType}
    {pipeline : VklPipelineType} {pipeline_idx slot_idx item_size flags : Nat}
    (h : vkl_visual_source n visual source_type pipeline pipeline_idx slot_idx item_size flags
      = .ok visual1) :
    visual.sources.length < n ∧
    (∀ s ∈ visual.sources, ¬ hasIdentity source_type pipeline_idx s) ∧
    visual1 = { visual with
      sources := visual.sources ++
        [vkl_visual_source_new source_type pipeline pipeline_idx slot_idx item_size flags] } := by
  unfold vkl_visual_source at h
  split at h
  · cases h
  · rename_i hlen
    split at h
    · cases h
    · cases h
    · rename_i hb
      cases h
      exact ⟨not_not.mp hlen, (bake_source_none_iff _ _ _).mp hb, rfl⟩

theorem visual_source_unique {n : Nat} {visual visual1 : VklVisual}
    {source_type : VklSourceType} {pipeline : VklPipelineType}
    {pipeline_idx slot_idx item_size flags : Nat}
    (hu : uniqueIdentities visual)
    (h : vkl_visual_source n visual source_type pipeline pipeline_idx slot_idx item_size flags
      = .ok visual1) : uniqueIdentities visual1 := by
  obtain ⟨_, habs, rfl⟩ := visual_source_ok h
  have hid := visual_source_new_identity source_type pipeline pipeline_idx slot_idx
    item_size flags
  unfold uniqueIdentities
  simp only
  rw [List.pairwise_append]
  refine ⟨hu, List.pairwise_singleton _ _, ?_⟩
  intro a ha b hb
  simp only [List.mem_singleton] at hb
  subst hb
  intro hab
  exact habs a ha ⟨hab.1.trans hid.1, hab.2.trans hid.2⟩

theorem declareSources_unique (n : Nat) :
    ∀ (decls : List SourceDecl) (visual visual1 : VklVisual), uniqueIdentities visual →
      declareSources n decls visual = .ok visual1 → uniqueIdentities visual1 := by
  intro decls
  induction decls with
  | nil =>
    intro visual visual1 hu h
    simp only [declareSources] at h
    cases h
    exact hu
  | cons d rest ih =>
    intro visual visual1 hu h
    simp only [declareSources] at h
    split at h
    · cases h
    · rename_i v2 h2
      exact ih _ _ (visual_source_unique hu h2) h

/-- Claim C9: `vkl_visual_source` fails (on one of its two assertions) if and only if a
source with the same `(source_type, pipeline_idx)` is already declared or the table
of sources is full; on success the visual is changed only by one source appended at
the end of the table, with the identity given, and `vkl_bake_source` then returns
this new source; hence after any sequence of successful declarations on a new visual
no two sources share `(source_type, pipeline_idx)`. -/
theorem source_identity_unique (n : Nat) (visual : VklVisual) (source_type : VklSourceType)
    (pipeline : VklPipelineType) (pipeline_idx slot_idx item_size flags : Nat) :
    (vkl_visual_source n visual source_type pipeline pipeline_idx slot_idx item_size flags
        = .error .assertion ↔
      (n ≤ visual.sources.length ∨
        ∃ s ∈ visual.sources, s.source_type = source_type ∧ s.pipeline_idx = pipeline_idx)) ∧
    (∀ visual1,
      vkl_visual_source n visual source_type pipeline pipeline_idx slot_idx item_size flags
        = .ok visual1 ↔
      (¬ (n ≤ visual.sources.length ∨
          ∃ s ∈ visual.sources, s.source_type = source_type ∧ s.pipeline_idx = pipeline_idx) ∧
        visual1 = { visual with
          sources := visual.sources ++
            [vkl_visual_source_new source_type pipeline pipeline_idx slot_idx item_size
              flags] })) ∧
    (∀ visual1,
      vkl_visual_source n visual source_type pipeline pipeline_idx slot_idx item_size flags
        = .ok visual1 →
      visual1.sources.take visual.sources.length = visual.sources ∧
      visual1.sources.length = visual.sources.length + 1 ∧
      (∃ new, visual1.sources[visual.sources.length]? = some new ∧
        new.source_type = source_type ∧ new.pipeline_idx = pipeline_idx) ∧
      vkl_bake_source visual1 source_type pipeline_idx = .ok (some visual.sources.length)) ∧
    (∀ (g c : Nat) (canvas : VklCanvas) (decls : List SourceDecl) (visual1 : VklVisual),
      declareSources n decls (vkl_visual g c canvas) = .ok visual1 →
      uniqueIdentities visual1) := by
  have hid := visual_source_new_identity source_type pipeline pipeline_idx slot_idx
    item_size flags
  have hok : ∀ visual1,
      vkl_visual_source n visual source_type pipeline pipeline_idx slot_idx item_size flags
        = .ok visual1 ↔
      (¬ (n ≤ visual.sources.length ∨
          ∃ s ∈ visual.sources, s.source_type = source_type ∧ s.pipeline_idx = pipeline_idx) ∧
        visual1 = { visual with
          sources := visual.sources ++
            [vkl_visual_source_new source_type pipeline pipeline_idx slot_idx item_size
              flags] }) := by
    intro visual1
    constructor
    · intro h
      obtain ⟨h1, h2, h3⟩ := visual_source_ok h
      refine ⟨?_, h3⟩
      rintro (hc | ⟨s, hs, hsid⟩)
      · omega
      · exact h2 s hs hsid
    · rintro ⟨hc, rfl⟩
      have h1 : visual.sources.length < n := by
        by_contra hlen
        exact hc (Or.inl (by omega))
      have h2 : vkl_bake_source visual source_type pipeline_idx = .ok none :=
        (bake_source_none_iff _ _ _).mpr (fun s hs hsid => hc (Or.inr ⟨s, hs, hsid⟩))
      unfold vkl_visual_source
      rw [if_neg (not_not.mpr h1), h2]
  refine ⟨?_, hok, ?_, ?_⟩
  · constructor
    · intro h
      by_contra hc
      have := (hok _).mpr ⟨hc, rfl⟩
      rw [h] at this
      cases this
    · intro hc
      unfold vkl_visual_source
      by_cases hlen : visual.sources.length < n
      · rw [if_neg (not_not.mpr hlen)]
        have hex : ∃ s ∈ visual.sources, hasIdentity source_type pipeline_idx s := by
          rcases hc with hc | hc
          · omega
          · exact hc
        have hne := bake_source_loop_present source_type pipeline_idx visual.sources 0 none hex
        have herr := bake_source_loop_error source_type pipeline_idx visual.sources 0 none
        unfold vkl_bake_source
        generalize vkl_bake_source_loop source_type pipeline_idx visual.sources 0 none = r
          at hne herr
        match r, hne, herr with
        | .error e, _, herr => rw [herr e rfl]
        | .ok (some _), _, _ => rfl
        | .ok none, hne, _ => exact absurd rfl hne
      · rw [if_pos hlen]
  · intro visual1 h
    obtain ⟨_, h2, rfl⟩ := visual_source_ok h
    refine ⟨by simp, by simp, ⟨_, by simp, hid.1, hid.2⟩, ?_⟩
    unfold vkl_bake_source
    simp only
    rw [bake_source_loop_last source_type pipeline_idx _ hid _ 0 h2]
    simp
  · intro g c canvas decls visual1 h
    have hnew : uniqueIdentities (vkl_visual g c canvas) := by
      unfold uniqueIdentities vkl_visual
      exact List.Pairwise.nil
    exact declareSources_unique n decls _ _ hnew h

/-! ## Capacity of the regions -/

theorem uploadSize_none_of_uploadFor {j : Nat} {c : VklCall} (h : c.uploadFor j = false) :
    c.uploadSize j = none := by
  cases c <;> simp_all [VklCall.uploadFor, VklCall.uploadSize]

theorem capacityStep_refl (j : Nat) (visual : VklVisual) : capacityStep j visual visual := by
  intro s hs hok
  exact ⟨s, [], hs, by simp, Nat.le_refl _, hok, fun ⟨c, hc, _⟩ => by simp at hc⟩

theorem capacityStep_then_untouched {j : Nat} {a b c : VklVisual}
    (h1 : capacityStep j a b) (h2 : untouched j b c) : capacityStep j a c := by
  intro s hs hok
  obtain ⟨s1, cs, hs1, hc1, hle, hok1, hup⟩ := h1 s hs hok
  obtain ⟨hs2, ds, hc2, hno⟩ := h2
  refine ⟨s1, cs ++ ds, hs2.trans hs1, by rw [hc2, hc1, List.append_assoc], hle, hok1, ?_⟩
  rintro ⟨d, hd, hsome⟩
  rcases List.mem_append.mp hd with h | h
  · exact hup ⟨d, h, hsome⟩
  · rw [uploadSize_none_of_uploadFor (hno d h).2] at hsome
    cases hsome

theorem untouched_then_capacityStep {j : Nat} {a b c : VklVisual}
    (h1 : untouched j a b) (h2 : capacityStep j b c) : capacityStep j a c := by
  intro s hs hok
  obtain ⟨hs1, cs, hc1, hno⟩ := h1
  obtain ⟨s2, ds, hs2, hc2, hle, hok2, hup⟩ := h2 s (hs1.trans hs) hok
  refine ⟨s2, cs ++ ds, hs2, by rw [hc2, hc1, List.append_assoc], hle, hok2, ?_⟩
  rintro ⟨d, hd, hsome⟩
  rcases List.mem_append.mp hd with h | h
  · rw [uploadSize_none_of_uploadFor (hno d h).2] at hsome
    cases hsome
  · exact hup ⟨d, h, hsome⟩

theorem capacityStep_of_sameButBindings {j : Nat} {visual visual1 : VklVisual}
    (h : sameButBindings visual visual1) : capacityStep j visual visual1 :=
  capacityStep_then_untouched (capacityStep_refl j visual) (untouched_of_sameButBindings h)

/-- What the upload of a buffer source does, after the allocation. -/
theorem update_buffer_result {visual visual2 : VklVisual} {i : Nat} {source : VklSource}
    (h : vkl_visual_update_buffer visual i source = .ok visual2) :
    ∃ visual1 source1 c, vkl_visual_buffer_alloc visual i = .ok visual1 ∧
      visual1.sources[i]? = some source1 ∧ 0 < source1.u.br.size ∧
      source1.u.br.buffer ≠ 0 ∧
      visual2.sources = visual1.sources.set i { source1 with obj_status := .CREATED } ∧
      visual2.canvas.context.calls = visual1.canvas.context.calls ++ [c] ∧
      c.uploadSize i = some source1.u.br.size ∧
      (c = .upload_buffers i source1.u.br 0 source1.u.br.size source1.arr.data ∨
        c = .upload_buffers_immediate i source1.u.br 0 source1.u.br.size source1.arr.data) ∧
      visual2.obj_status = .CREATED := by
  unfold vkl_visual_update_buffer at h
  split at h
  · cases h
  · split at h
    · cases h
    · split at h
      · cases h
      · rename_i visual1 h1
        split at h
        · cases h
        · rename_i source1 hs1
          split at h
          · cases h
          · rename_i hsize
            split at h
            · cases h
            · rename_i hbuf
              split at h
              · cases h
                exact ⟨visual1, source1, _, h1, hs1, not_not.mp hsize, hbuf, rfl, rfl,
                  by simp [VklCall.uploadSize], Or.inr rfl, rfl⟩
              · cases h
                exact ⟨visual1, source1, _, h1, hs1, not_not.mp hsize, hbuf, rfl, rfl,
                  by simp [VklCall.uploadSize], Or.inl rfl, rfl⟩

theorem buffer_new_size_ge {source : VklSource} {size : Nat} (hok : source.handleOk)
    (hn : source.needs_alloc) (hle : source.required_size ≤ size) :
    source.u.br.size ≤ size := by
  rcases hn with h | h
  · rw [hok h]
    exact Nat.zero_le _
  · omega

theorem update_buffer_capacity {visual visual2 : VklVisual} {i : Nat} {source : VklSource}
    (hs : visual.sources[i]? = some source)
    (h : vkl_visual_update_buffer visual i source = .ok visual2) :
    capacityStep i visual visual2 := by
  obtain ⟨visual1, source1, c, h1, hs1, hsize, hbuf, hsrc, hcalls, hc, _⟩ :=
    update_buffer_result h
  intro s hs' hok
  rw [hs] at hs'
  cases hs'
  have hi := getElem?_lt hs
  by_cases hn : source.needs_alloc
  · obtain ⟨size, _, hle, hsrc1, hcalls1, _⟩ := buffer_alloc_grow hs h1 hn
    have e1 : source1 = buffer_alloc_source visual i source size := by
      rw [hsrc1, List.getElem?_set_self hi] at hs1
      cases hs1
      rfl
    refine ⟨{ source1 with obj_status := .CREATED },
      [.ctx_buffers i (_get_buffer_idx source) (buffer_alloc_count visual source) size, c],
      ?_, ?_, ?_, ?_, ?_⟩
    · rw [hsrc, List.getElem?_set_self (by rw [hsrc1]; simpa using hi)]
    · rw [hcalls, hcalls1, List.append_assoc]
      rfl
    · show source.u.br.size ≤ source1.u.br.size
      rw [e1]
      exact buffer_new_size_ge hok hn hle
    · intro hb
      exact absurd hb hbuf
    · intro _
      show source1.required_size ≤ source1.u.br.size
      rw [e1]
      exact hle
  · have e0 := buffer_alloc_keep hs h1 hn
    subst e0
    rw [hs] at hs1
    cases hs1
    refine ⟨{ source with obj_status := .CREATED }, [c], ?_, hcalls, Nat.le_refl _, ?_, ?_⟩
    · rw [hsrc, List.getElem?_set_self hi]
    · intro hb
      exact absurd hb hbuf
    · intro _
      show source.required_size ≤ source.u.br.size
      unfold VklSource.needs_alloc at hn
      omega

theorem texture_bind_frame {visual visual1 : VklVisual} {source : VklSource}
    {tex : VklTexture} (h : vkl_visual_texture_bind visual source tex = .ok visual1) :
    sameButBindings visual visual1 := by
  unfold vkl_visual_texture_bind at h
  split at h
  · cases h
  · exact modifyBindings_frame h

/-- The allocation of a texture leaves the buffer region of the source as it is and
issues no buffer upload. -/
theorem texture_alloc_region {visual visual1 : VklVisual} {i : Nat} {source : VklSource}
    (hs : visual.sources[i]? = some source)
    (h : vkl_visual_texture_alloc visual i = .ok visual1) :
    ∃ s1 cs, visual1.sources[i]? = some s1 ∧ s1.u.br = source.u.br ∧ s1.arr = source.arr ∧
      visual1.canvas.context.calls = visual.canvas.context.calls ++ cs ∧
      ∀ c ∈ cs, c.uploadSize i = none := by
  have hi := getElem?_lt hs
  unfold vkl_visual_texture_alloc at h
  simp only [hs] at h
  repeat' split at h
  all_goals first
    | (cases h; done)
    | (cases h
       exact ⟨source, [], hs, rfl, rfl, by simp, fun c hc => by simp at hc⟩)
    | (obtain ⟨_, e2, e3, _⟩ := texture_bind_frame h
       have hget : ∃ s1, visual1.sources[i]? = some s1 ∧ s1.u.br = source.u.br ∧
           s1.arr = source.arr := by
         rw [e3]
         exact ⟨_, List.getElem?_set_self hi, rfl, rfl⟩
       obtain ⟨s1, hs1, hbr, harr⟩ := hget
       refine ⟨s1, [_], hs1, hbr, harr, by rw [e2]; rfl, ?_⟩
       intro c hc
       simp only [List.mem_singleton] at hc
       subst hc
       rfl)

theorem update_texture_capacity {visual visual2 : VklVisual} {i : Nat} {source : VklSource}
    (hs : visual.sources[i]? = some source)
    (h : vkl_visual_update_texture visual i = .ok visual2) :
    capacityStep i visual visual2 := by
  unfold vkl_visual_update_texture at h
  split at h
  · cases h
  · rename_i visual1 h1
    obtain ⟨s1, cs, hs1, hbr, _, hcalls, hno⟩ := texture_alloc_region hs h1
    have hi1 := getElem?_lt hs1
    simp only [hs1] at h
    repeat' split at h
    all_goals first
      | (cases h; done)
      | (cases h
         intro s hs' hok
         rw [hs] at hs'
         cases hs'
         refine ⟨{ s1 with obj_status := .CREATED },
           cs ++ [.upload_texture i ((s1.arr.item_count * s1.arr.item_size) % 2 ^ 64)
             s1.arr.data],
           List.getElem?_set_self hi1, ?_, ?_, ?_, ?_⟩
         · show visual1.canvas.context.calls ++ _ = _
           rw [hcalls, List.append_assoc]
         · show source.u.br.size ≤ s1.u.br.size
           rw [hbr]
         · show s1.u.br.buffer = 0 → s1.u.br.size = 0
           rw [hbr]
           exact hok
         · rintro ⟨c, hc, hsome⟩
           rcases List.mem_append.mp hc with hc1 | hc1
           · rw [hno c hc1] at hsome
             cases hsome
           · simp only [List.mem_singleton] at hc1
             subst hc1
             cases hsome)

theorem update_source_capacity {visual visual1 : VklVisual} {i : Nat} {source : VklSource}
    {b : Bool} (hs : visual.sources[i]? = some source)
    (h : vkl_visual_update_source visual i source = .ok (visual1, b)) :
    capacityStep i visual visual1 := by
  unfold vkl_visual_update_source at h
  repeat' split at h
  all_goals first
    | (cases h; done)
    | (cases h; exact capacityStep_refl _ _)
    | (rename_i v2 h2
       cases h
       first
        | exact capacityStep_of_sameButBindings (update_invalid_frame h2)
        | exact update_buffer_capacity hs h2
        | exact update_texture_capacity hs h2)

/-- The loop from the index `i` leaves the sources before `i` alone. -/
theorem update_loop_past (j : Nat) :
    ∀ (n i : Nat) (visual visual1 : VklVisual),
      vkl_visual_update_loop n i visual = .ok visual1 → j < i → untouched j visual visual1 := by
  intro n
  induction n with
  | zero =>
    intro i visual visual1 h _
    simp only [vkl_visual_update_loop] at h
    cases h
    exact untouched_refl _ _
  | succ n ih =>
    intro i visual visual1 h hj
    simp only [vkl_visual_update_loop] at h
    split at h
    · cases h
      exact untouched_refl _ _
    · rename_i source hs
      split at h
      · cases h
      · rename_i v2 h2
        cases h
        exact untouched_of_touchesOnly (by omega) (update_source_touches hs h2)
      · rename_i v2 h2
        exact untouched_trans (untouched_of_touchesOnly (by omega) (update_source_touches hs h2))
          (ih _ _ _ h (by omega))

theorem update_loop_capacity (j : Nat) :
    ∀ (n i : Nat) (visual visual1 : VklVisual),
      vkl_visual_update_loop n i visual = .ok visual1 → capacityStep j visual visual1 := by
  intro n
  induction n with
  | zero =>
    intro i visual visual1 h
    simp only [vkl_visual_update_loop] at h
    cases h
    exact capacityStep_refl _ _
  | succ n ih =>
    intro i visual visual1 h
    simp only [vkl_visual_update_loop] at h
    split at h
    · cases h
      exact capacityStep_refl _ _
    · rename_i source hs
      split at h
      · cases h
      · rename_i v2 h2
        cases h
        by_cases hij : j = i
        · subst hij
          exact update_source_capacity hs h2
        · exact capacityStep_then_untouched (capacityStep_refl _ _)
            (untouched_of_touchesOnly hij (update_source_touches hs h2))
      · rename_i v2 h2
        by_cases hij : j = i
        · subst hij
          exact capacityStep_then_untouched (update_source_capacity hs h2)
            (update_loop_past j _ _ _ _ h (by omega))
        · exact untouched_then_capacityStep
            (untouched_of_touchesOnly hij (update_source_touches hs h2)) (ih _ _ _ h)

theorem update_loop_length :
    ∀ (n i : Nat) (visual visual1 : VklVisual),
      vkl_visual_update_loop n i visual = .ok visual1 →
      visual1.sources.length = visual.sources.length := by
  intro n
  induction n with
  | zero =>
    intro i visual visual1 h
    simp only [vkl_visual_update_loop] at h
    cases h
    rfl
  | succ n ih =>
    intro i visual visual1 h
    simp only [vkl_visual_update_loop] at h
    split at h
    · cases h
      rfl
    · rename_i source hs
      split at h
      · cases h
      · rename_i v2 h2
        cases h
        exact (update_source_touches hs h2).1
      · rename_i v2 h2
        exact (ih _ _ _ h).trans (update_source_touches hs h2).1

theorem map_u_set {l : List VklSource} {i : Nat} {s s1 : VklSource} (hs : l[i]? = some s)
    (hu : s1.u = s.u) :
    (l.set i s1).map (fun s => s.u) = l.map (fun s => s.u) := by
  apply List.ext_getElem?
  intro n
  by_cases hn : n = i
  · subst hn
    rw [List.getElem?_map, List.getElem?_map, List.getElem?_set_self (getElem?_lt hs), hs]
    simp [hu]
  · rw [List.getElem?_map, List.getElem?_map, List.getElem?_set_ne (Ne.symm hn)]

theorem handlesOk_of_map_u {visual visual1 : VklVisual}
    (h : visual1.sources.map (fun s => s.u) = visual.sources.map (fun s => s.u))
    (hok : handlesOk visual) : handlesOk visual1 := by
  intro s1 hs1
  have hmem : s1.u ∈ visual1.sources.map (fun s => s.u) := List.mem_map_of_mem _ hs1
  rw [h] at hmem
  obtain ⟨s, hs, hu⟩ := List.mem_map.mp hmem
  have := hok s hs
  unfold VklSource.handleOk at this ⊢
  have hu1 : s.u = s1.u := hu
  rw [← hu1]
  exact this

theorem data_partial_handles {visual visual1 : VklVisual} {prop_type : VklPropType}
    {idx first_item item_count data_item_count : Nat} {data : List Nat}
    (h : vkl_visual_data_partial visual prop_type idx first_item item_count data_item_count
      data = .ok visual1) :
    visual1.sources.map (fun s => s.u) = visual.sources.map (fun s => s.u) := by
  unfold vkl_visual_data_partial at h
  simp only at h
  repeat' split at h
  all_goals first
    | (cases h; done)
    | (rename_i source hs
       cases h
       exact map_u_set hs rfl)

theorem data_buffer_handles {visual visual1 : VklVisual} {source_type : VklSourceType}
    {idx first_item item_count data_item_count : Nat} {data : List Nat}
    (h : vkl_visual_data_buffer visual source_type idx first_item item_count data_item_count
      data = .ok visual1) :
    visual1.sources.map (fun s => s.u) = visual.sources.map (fun s => s.u) := by
  unfold vkl_visual_data_buffer at h
  simp only at h
  repeat' split at h
  all_goals first
    | (cases h; done)
    | (rename_i source hs _ _ _
       cases h
       exact map_u_set hs rfl)

/-- The capacities across one call of `vkl_visual_update`. -/
theorem update_capacity {cb : VklVisualCallbacks} (hcb : bakeKeepsHandles cb)
    {visual visual2 : VklVisual} (hu : vkl_visual_update cb visual = .ok visual2) :
    visual2.sources.length = visual.sources.length ∧
    ∀ j s, visual.sources[j]? = some s → s.handleOk →
      ∃ s2, visual2.sources[j]? = some s2 ∧ s.u.br.size ≤ s2.u.br.size ∧ s2.handleOk ∧
        ((∃ c ∈ newCalls visual visual2, (c.uploadSize j).isSome) →
          s2.required_size ≤ s2.u.br.size) := by
  unfold vkl_visual_update at hu
  split at hu
  · cases hu
  · rename_i v0 hb
    split at hu
    · cases hu
    · rename_i v1 h1
      obtain ⟨hmap, hcalls⟩ := hcb _ _ hb
      have hlen0 : v0.sources.length = visual.sources.length := by
        have := congrArg List.length hmap
        simpa using this
      have hlen1 : v1.sources.length = v0.sources.length := update_loop_length _ _ _ _ h1
      have hlen2 : visual2.sources.length = v1.sources.length := by
        unfold vkl_visual_update_bindings at hu
        split at hu
        · cases hu
        · split at hu
          · cases hu
          · cases hu
            rfl
      refine ⟨by omega, ?_⟩
      intro j s hs hok
      have hj := getElem?_lt hs
      have hs0 : ∃ s0, v0.sources[j]? = some s0 ∧ s0.u = s.u := by
        have h1 : (v0.sources.map (fun s => s.u))[j]? = some s.u := by
          rw [hmap, List.getElem?_map, hs]
          rfl
        rw [List.getElem?_map] at h1
        cases hv : v0.sources[j]? with
        | none => rw [hv] at h1; cases h1
        | some s0 =>
          rw [hv] at h1
          simp only [Option.map_some', Option.some.injEq] at h1
          exact ⟨s0, rfl, h1⟩
      obtain ⟨s0, hs0, hu0⟩ := hs0
      have hok0 : s0.handleOk := by
        unfold VklSource.handleOk at hok ⊢
        rw [hu0]
        exact hok
      have step : capacityStep j v0 visual2 :=
        capacityStep_then_untouched (update_loop_capacity j _ _ _ _ h1)
          (update_bindings_untouched j hu)
      obtain ⟨s2, cs, hs2, hc2, hle, hok2, hup⟩ := step s0 hs0 hok0
      refine ⟨s2, hs2, by rw [← hu0]; exact hle, hok2, ?_⟩
      intro hex
      apply hup
      have : newCalls visual visual2 = cs := by
        apply newCalls_append
        rw [hc2, hcalls]
      rw [this] at hex
      exact hex

theorem update_handlesOk {cb : VklVisualCallbacks} (hcb : bakeKeepsHandles cb)
    {visual visual2 : VklVisual} (hu : vkl_visual_update cb visual = .ok visual2)
    (hok : handlesOk visual) : handlesOk visual2 := by
  obtain ⟨hlen, hstep⟩ := update_capacity hcb hu
  intro s2 hs2
  obtain ⟨j, hj⟩ := List.mem_iff_getElem?.mp hs2
  have hj2 := getElem?_lt hj
  have hjv : j < visual.sources.length := by omega
  have hs : visual.sources[j]? = some visual.sources[j] := List.getElem?_eq_getElem hjv
  obtain ⟨s2', hs2', _, hok2, _⟩ := hstep j _ hs (hok _ (List.getElem_mem hjv))
  rw [hj] at hs2'
  cases hs2'
  exact hok2

theorem runCalls_handlesOk {cb : VklVisualCallbacks} (hcb : bakeKeepsHandles cb) :
    ∀ (calls : List VisualCall) (visual visual1 : VklVisual), handlesOk visual →
      runCalls cb calls visual = .ok visual1 → handlesOk visual1 := by
  intro calls
  induction calls with
  | nil =>
    intro visual visual1 hok h
    simp only [runCalls] at h
    cases h
    exact hok
  | cons call rest ih =>
    intro visual visual1 hok h
    simp only [runCalls] at h
    split at h
    · cases h
    · rename_i v2 h2
      refine ih _ _ ?_ h
      cases call with
      | update => exact update_handlesOk hcb h2 hok
      | data prop_type idx count bytes =>
        exact handlesOk_of_map_u (data_partial_handles h2) hok
      | data_part prop_type idx first_item item_count data_item_count bytes =>
        exact handlesOk_of_map_u (data_partial_handles h2) hok
      | data_buffer source_type idx first_item item_count data_item_count bytes =>
        exact handlesOk_of_map_u (data_buffer_handles h2) hok

/-- Claim C2: for every sequence of calls of `vkl_visual_update` and of the set-data
entry points (`vkl_visual_data`, `vkl_visual_data_partial`, `vkl_visual_data_buffer`)
on a visual in which every source without a buffer has an empty region, with baking
stages that leave the physical handles alone, each further call of
`vkl_visual_update` that returns leaves every source with a capacity `u.br.size`
greater than or equal to its capacity before that call; and every source for which it
has issued a buffer upload has then a capacity of at least `item_count * item_size`
(the 64-bit product of line 817, which is the exact product when that fits 64
bits). -/
theorem capacity_monotone (cb : VklVisualCallbacks) (hcb : bakeKeepsHandles cb)
    (visual0 : VklVisual) (h0 : handlesOk visual0) (calls : List VisualCall)
    (visual visual1 : VklVisual) (hrun : runCalls cb calls visual0 = .ok visual)
    (hup : vkl_visual_update cb visual = .ok visual1) :
    visual1.sources.length = visual.sources.length ∧
    ∀ j s, visual.sources[j]? = some s →
      ∃ s1, visual1.sources[j]? = some s1 ∧ s.u.br.size ≤ s1.u.br.size ∧
        ((∃ c ∈ newCalls visual visual1, (c.uploadSize j).isSome) →
          s1.required_size ≤ s1.u.br.size ∧
          (s1.arr.item_count * s1.arr.item_size < 2 ^ 64 →
            s1.arr.item_count * s1.arr.item_size ≤ s1.u.br.size)) := by
  have hok := runCalls_handlesOk hcb calls _ _ h0 hrun
  obtain ⟨hlen, hstep⟩ := update_capacity hcb hup
  refine ⟨hlen, ?_⟩
  intro j s hs
  have hmem : s ∈ visual.sources := List.mem_iff_getElem?.mpr ⟨j, hs⟩
  obtain ⟨s1, hs1, hle, _, hupl⟩ := hstep j s hs (hok s hmem)
  refine ⟨s1, hs1, hle, fun hex => ⟨hupl hex, fun hfit => ?_⟩⟩
  rw [← required_size_eq s1 hfit]
  exact hupl hex

theorem noCallbacks_keep_handles : bakeKeepsHandles noCallbacks := by
  intro visual visual1 h
  simp only [vkl_visual_update_bake, vkl_visual_update_callback, noCallbacks] at h
  cases h
  exact ⟨rfl, rfl⟩

/-- The sources of a new visual on which sources have been declared have no buffer
and an empty region. -/
theorem declareSources_handlesOk (n : Nat) :
    ∀ (decls : List SourceDecl) (visual visual1 : VklVisual), handlesOk visual →
      declareSources n decls visual = .ok visual1 → handlesOk visual1 := by
  intro decls
  induction decls with
  | nil =>
    intro visual visual1 hok h
    simp only [declareSources] at h
    cases h
    exact hok
  | cons d rest ih =>
    intro visual visual1 hok h
    simp only [declareSources] at h
    split at h
    · cases h
    · rename_i v2 h2
      refine ih _ _ ?_ h
      obtain ⟨_, _, rfl⟩ := visual_source_ok h2
      intro s hs
      rcases List.mem_append.mp hs with h1 | h1
      · exact hok s h1
      · simp only [List.mem_singleton] at h1
        subst h1
        intro _
        unfold vkl_visual_source_new
        simp only
        split <;> rfl

/-- Witness of `capacity_monotone`: the vertex source of the example has a region of
10 bytes before the update that follows the 25 items, and of 40 bytes after it. -/
theorem capacity_monotone_witness :
    bakeKeepsHandles noCallbacks ∧ handlesOk exampleGrowingDeclared ∧
    runCalls noCallbacks exampleGrowingCalls exampleGrowingDeclared
      = .ok exampleGrowingBefore ∧
    vkl_visual_update noCallbacks exampleGrowingBefore = .ok exampleGrowingAfter ∧
    exampleGrowingBefore.sources.map (fun s => s.u.br.size) = [10] ∧
    exampleGrowingAfter.sources.map (fun s => s.u.br.size) = [40] ∧
    (exampleGrowingAfter.sources.length = exampleGrowingBefore.sources.length ∧
      ∀ j s, exampleGrowingBefore.sources[j]? = some s →
        ∃ s1, exampleGrowingAfter.sources[j]? = some s1 ∧ s.u.br.size ≤ s1.u.br.size ∧
          ((∃ c ∈ newCalls exampleGrowingBefore exampleGrowingAfter,
              (c.uploadSize j).isSome) →
            s1.required_size ≤ s1.u.br.size ∧
            (s1.arr.item_count * s1.arr.item_size < 2 ^ 64 →
              s1.arr.item_count * s1.arr.item_size ≤ s1.u.br.size))) :=
  ⟨noCallbacks_keep_handles, by unfold handlesOk VklSource.handleOk; decide, by decide,
    by decide, by decide, by decide,
    capacity_monotone noCallbacks noCallbacks_keep_handles exampleGrowingDeclared
      (by unfold handlesOk VklSource.handleOk; decide) exampleGrowingCalls
      exampleGrowingBefore exampleGrowingAfter (by decide) (by decide)⟩

/-! ## Defects of the update pass -/

/-- Claim C6, evaluated on a compute source that was never set: `_get_bindings`
designates the compute Binding Set 0 of the visual, the update returns, and it has
marked the graphics Binding Set 0 invalid and left the compute Binding Set 0 as it
was. -/
theorem update_unset_compute_source :
    exampleComputeVisual.sources = [exampleComputeSource] ∧
    exampleComputeSource.pipeline = .COMPUTE ∧
    exampleComputeSource.origin = .NONE ∧
    _get_bindings exampleComputeSource = some (.compute 0) ∧
    (∃ visual1, vkl_visual_update noCallbacks exampleComputeVisual = .ok visual1 ∧
      visual1.bindingsAt (.compute 0) = exampleComputeVisual.bindingsAt (.compute 0) ∧
      (visual1.bindingsAt (.compute 0)).map (fun b => b.obj_status) = some .NONE ∧
      (visual1.bindingsAt (.graphics 0)).map (fun b => b.obj_status) = some .INVALID) :=
  ⟨by decide, by decide, by decide, by decide,
    { exampleComputeVisual with bindings := [{ VklBindings.zero with obj_status := .INVALID }] },
    by decide, by decide, by decide, by decide⟩

/-- Claim C8, evaluated on a vertex source of one byte per item that is declared,
receives 10 items, is uploaded and receives 25 items: the next update requests a region
of 40 bytes and passes 40 bytes to the upload service, from offset 0, for an array of
25 items of one byte, whose storage has 25 bytes; the status of the source becomes
CREATED. -/
theorem update_uploads_region_size :
    vkl_visual_source 4 (vkl_visual 1 1 exampleCanvas) .VERTEX .GRAPHICS 0 0 1 0
      = .ok exampleGrowingDeclared ∧
    runCalls noCallbacks exampleGrowingCalls exampleGrowingDeclared
      = .ok exampleGrowingBefore ∧
    vkl_visual_update noCallbacks exampleGrowingBefore = .ok exampleGrowingAfter ∧
    exampleGrowingBefore.sources.map
        (fun s => (s.arr.item_count * s.arr.item_size, s.arr.data.map List.length))
      = [(25, some 25)] ∧
    newCalls exampleGrowingBefore exampleGrowingAfter =
      [.ctx_buffers 0 .VERTEX 1 40,
       .upload_buffers 0 { buffer := 2, count := 1, size := 40 } 0 40
         (some (exampleBytes 25))] ∧
    (newCalls exampleGrowingBefore exampleGrowingAfter).filterMap (VklCall.uploadSize 0)
      = [40] ∧
    exampleGrowingAfter.sources.map
        (fun s => (s.obj_status, s.arr.item_count * s.arr.item_size))
      = [(.CREATED, 25)] := by
  refine ⟨?_, ?_, ?_, ?_, ?_, ?_, ?_⟩ <;> decide

/-! ## Initial state of a declared source -/

/-- Claim C11: the source that `vkl_visual_source` appends has origin LIB and status
NEED_UPDATE if and only if its kind is INDEX, and origin NONE and status INIT
otherwise; its array is the empty struct-layout array of the given item size when its
kind is not a texture kind, and the empty 3-D-layout array of that item size, with 1,
2 or 3 dimensions for TEXTURE_1D, TEXTURE_2D or TEXTURE_3D, when it is; its type,
pipeline, pipeline index, slot index and flags are the arguments, its kind is given by
`_get_source_kind`, and it shares its region with no other pipeline. -/
theorem declared_source_initial_state (n : Nat) (visual : VklVisual)
    (source_type : VklSourceType) (pipeline : VklPipelineType)
    (pipeline_idx slot_idx item_size flags : Nat) :
    ∃ new, new = vkl_visual_source_new source_type pipeline pipeline_idx slot_idx item_size
        flags ∧
      (∀ visual1,
        vkl_visual_source n visual source_type pipeline pipeline_idx slot_idx item_size flags
          = .ok visual1 → visual1.sources = visual.sources ++ [new]) ∧
      new.source_kind = _get_source_kind source_type ∧
      ((new.origin = .LIB ∧ new.obj_status = .NEED_UPDATE) ↔ new.source_kind = .INDEX) ∧
      (new.source_kind ≠ .INDEX → new.origin = .NONE ∧ new.obj_status = .INIT) ∧
      (_source_is_texture new.source_kind = false →
        new.arr = vkl_array_struct 0 item_size) ∧
      (_source_is_texture new.source_kind = true →
        new.arr = vkl_array_3D (_get_texture_ndims new.source_kind) 0 0 0 item_size ∧
        new.arr.ndims = _get_texture_ndims new.source_kind) ∧
      _get_texture_ndims .TEXTURE_1D = 1 ∧ _get_texture_ndims .TEXTURE_2D = 2 ∧
      _get_texture_ndims .TEXTURE_3D = 3 ∧
      new.arr.item_count = 0 ∧ new.arr.item_size = item_size ∧ new.arr.data = none ∧
      new.source_type = source_type ∧ new.pipeline = pipeline ∧
      new.pipeline_idx = pipeline_idx ∧ new.slot_idx = slot_idx ∧ new.flags = flags ∧
      new.other_idxs.length = 0 := by
  refine ⟨_, rfl, ?_, ?_⟩
  · intro visual1 h
    obtain ⟨_, _, rfl⟩ := visual_source_ok h
    rfl
  · cases source_type <;>
      simp [vkl_visual_source_new, _get_source_kind, _source_is_texture, _get_texture_ndims,
        VklSourceKind.toNat, vkl_array_struct, vkl_array_3D]

/-! ## Declaration of the props -/

theorem bake_source_loop_found (source_type : VklSourceType) (pipeline_idx : Nat) :
    ∀ (l : List VklSource) (i : Nat) (out : Option Nat) (k : Nat),
      vkl_bake_source_loop source_type pipeline_idx l i out = .ok (some k) →
      out = some k ∨
        (i ≤ k ∧ ∃ s, l[k - i]? = some s ∧ hasIdentity source_type pipeline_idx s) := by
  intro l
  induction l with
  | nil =>
    intro i out k h
    simp only [vkl_bake_source_loop] at h
    cases h
    exact Or.inl rfl
  | cons s rest ih =>
    intro i out k h
    simp only [vkl_bake_source_loop] at h
    split at h
    · rename_i hs
      split at h
      · cases h
      · rcases ih _ _ _ h with h1 | ⟨h1, t, ht, hid⟩
        · cases h1
          exact Or.inr ⟨Nat.le_refl _, s, by simp, hs⟩
        · refine Or.inr ⟨by omega, t, ?_, hid⟩
          have : k - i = (k - (i + 1)) + 1 := by omega
          rw [this, List.getElem?_cons_succ]
          exact ht
    · rcases ih _ _ _ h with h1 | ⟨h1, t, ht, hid⟩
      · exact Or.inl h1
      · refine Or.inr ⟨by omega, t, ?_, hid⟩
        have : k - i = (k - (i + 1)) + 1 := by omega
        rw [this, List.getElem?_cons_succ]
        exact ht

/-- The source that `vkl_bake_source` returns has the identity asked for. -/
theorem bake_source_some {visual : VklVisual} {source_type : VklSourceType}
    {pipeline_idx k : Nat}
    (h : vkl_bake_source visual source_type pipeline_idx = .ok (some k)) :
    ∃ s, visual.sources[k]? = some s ∧ hasIdentity source_type pipeline_idx s := by
  rcases bake_source_loop_found _ _ _ _ _ _ h with h1 | ⟨_, s, hs, hid⟩
  · cases h1
  · exact ⟨s, by simpa using hs, hid⟩

theorem bake_source_loop_unique (source_type : VklSourceType) (pipeline_idx : Nat) :
    ∀ (l : List VklSource) (i : Nat),
      l.Pairwise (fun a b => ¬ (a.source_type = b.source_type ∧ a.pipeline_idx = b.pipeline_idx)) →
      (∃ s ∈ l, hasIdentity source_type pipeline_idx s) →
      ∃ k, vkl_bake_source_loop source_type pipeline_idx l i none = .ok (some k) := by
  intro l
  induction l with
  | nil =>
    intro i _ h
    obtain ⟨s, hs, _⟩ := h
    cases hs
  | cons s rest ih =>
    intro i hp h
    rw [List.pairwise_cons] at hp
    by_cases hs : s.source_type = source_type ∧ s.pipeline_idx = pipeline_idx
    · refine ⟨i, ?_⟩
      simp only [vkl_bake_source_loop, if_pos hs]
      apply bake_source_loop_absent
      intro t ht hid
      exact hp.1 t ht ⟨hs.1.trans hid.1.symm, hs.2.trans hid.2.symm⟩
    · simp only [vkl_bake_source_loop, if_neg hs]
      apply ih _ hp.2
      obtain ⟨t, ht, hid⟩ := h
      rcases List.mem_cons.mp ht with h1 | h1
      · subst h1
        exact absurd hid hs
      · exact ⟨t, h1, hid⟩

/-- With unique identities, `vkl_bake_source` finds every declared identity. -/
theorem bake_source_of_unique {visual : VklVisual} (hu : uniqueIdentities visual)
    {source_type : VklSourceType} {pipeline_idx : Nat}
    (h : ∃ s ∈ visual.sources, hasIdentity source_type pipeline_idx s) :
    ∃ k, vkl_bake_source visual source_type pipeline_idx = .ok (some k) :=
  bake_source_loop_unique source_type pipeline_idx visual.sources 0 hu h

theorem toNat_lt_texture_iff (kind : VklSourceKind) :
    kind.toNat < VklSourceKind.TEXTURE_1D.toNat ↔ _source_is_texture kind = false := by
  cases kind <;> simp [VklSourceKind.toNat, _source_is_texture]

/-- Claim C12: on a visual whose sources have unique identities, `vkl_visual_prop`
fails (on one of its assertions, before it writes anything) if and only if no source
with the identity `(source_type, pipeline_idx)` is declared or the table of props is
full; otherwise it returns the visual with one prop appended, whose owning source is
the source found by `vkl_bake_source`, with the given type, index and data type, and
whose array is the empty 1-D array of the given data type if the owning source is not
of a texture kind, and no array (the zero-initialised one) if it is. -/
theorem prop_declaration (n : Nat) (visual : VklVisual) (hu : uniqueIdentities visual)
    (prop_type : VklPropType) (prop_idx : Nat) (dtype : VklDataType)
    (source_type : VklSourceType) (pipeline_idx : Nat) :
    (vkl_visual_prop n visual prop_type prop_idx dtype source_type pipeline_idx
        = .error .assertion ↔
      (n ≤ visual.props.length ∨
        ¬ ∃ s ∈ visual.sources, s.source_type = source_type ∧ s.pipeline_idx = pipeline_idx)) ∧
    ((¬ (n ≤ visual.props.length ∨
        ¬ ∃ s ∈ visual.sources, s.source_type = source_type ∧ s.pipeline_idx = pipeline_idx)) →
      ∃ i source prop, vkl_bake_source visual source_type pipeline_idx = .ok (some i) ∧
        visual.sources[i]? = some source ∧
        source.source_type = source_type ∧ source.pipeline_idx = pipeline_idx ∧
        vkl_visual_prop n visual prop_type prop_idx dtype source_type pipeline_idx
          = .ok { visual with props := visual.props ++ [prop] } ∧
        prop.prop_type = prop_type ∧ prop.prop_idx = prop_idx ∧ prop.dtype = dtype ∧
        prop.source = some i ∧
        (_source_is_texture source.source_kind = false → prop.arr_orig = vkl_array 0 dtype) ∧
        (_source_is_texture source.source_kind = true → prop.arr_orig = VklArray.zero)) ∧
    vkl_array 0 dtype ≠ VklArray.zero ∧
    (vkl_array 0 dtype).dtype = dtype ∧ (vkl_array 0 dtype).ndims = 1 ∧
    (vkl_array 0 dtype).item_count = 0 := by
  have hok : (¬ (n ≤ visual.props.length ∨
        ¬ ∃ s ∈ visual.sources, s.source_type = source_type ∧ s.pipeline_idx = pipeline_idx)) →
      ∃ i source prop, vkl_bake_source visual source_type pipeline_idx = .ok (some i) ∧
        visual.sources[i]? = some source ∧
        source.source_type = source_type ∧ source.pipeline_idx = pipeline_idx ∧
        vkl_visual_prop n visual prop_type prop_idx dtype source_type pipeline_idx
          = .ok { visual with props := visual.props ++ [prop] } ∧
        prop.prop_type = prop_type ∧ prop.prop_idx = prop_idx ∧ prop.dtype = dtype ∧
        prop.source = some i ∧
        (_source_is_texture source.source_kind = false → prop.arr_orig = vkl_array 0 dtype) ∧
        (_source_is_texture source.source_kind = true → prop.arr_orig = VklArray.zero) := by
    intro hc
    have hlen : visual.props.length < n := by
      by_contra hl
      exact hc (Or.inl (by omega))
    have hex : ∃ s ∈ visual.sources, hasIdentity source_type pipeline_idx s := by
      by_contra hne
      exact hc (Or.inr hne)
    obtain ⟨i, hi⟩ := bake_source_of_unique hu hex
    obtain ⟨source, hs, hid⟩ := bake_source_some hi
    refine ⟨i, source, vkl_visual_prop_new prop_type prop_idx dtype i source, hi, hs, hid.1,
      hid.2, ?_, rfl, rfl, rfl, rfl, ?_, ?_⟩
    · unfold vkl_visual_prop
      rw [if_neg (not_not.mpr hlen), hi]
      simp only [hs]
    · intro ht
      simp [vkl_visual_prop_new, (toNat_lt_texture_iff _).mpr ht]
    · intro ht
      have : ¬ source.source_kind.toNat < VklSourceKind.TEXTURE_1D.toNat := by
        rw [toNat_lt_texture_iff, ht]
        simp
      simp [vkl_visual_prop_new, this]
  refine ⟨⟨?_, ?_⟩, hok, ?_, rfl, rfl, rfl⟩
  · intro h
    by_contra hc
    obtain ⟨_, _, _, _, _, _, _, h1, _⟩ := hok hc
    rw [h] at h1
    cases h1
  · intro hc
    unfold vkl_visual_prop
    by_cases hlen : visual.props.length < n
    · rw [if_neg (not_not.mpr hlen)]
      have hne : ¬ ∃ s ∈ visual.sources, hasIdentity source_type pipeline_idx s := by
        rcases hc with hc | hc
        · omega
        · exact hc
      have hnone : vkl_bake_source visual source_type pipeline_idx = .ok none :=
        (bake_source_none_iff _ _ _).mpr (fun s hs hid => hne ⟨s, hs, hid⟩)
      rw [hnone]
    · rw [if_pos hlen]
  · intro h
    have := congrArg VklArray.obj_status h
    simp [vkl_array, VklArray.zero] at this

/-- Witness of `prop_declaration`: a color prop of four bytes is declared on the vertex
source of the example scene. -/
theorem prop_declaration_witness :
    uniqueIdentities exampleSceneVisual ∧
    vkl_visual_prop 8 exampleSceneVisual 2 0 .CVEC4 .VERTEX 0 =
      .ok { exampleSceneVisual with
            props := [vkl_visual_prop_new 2 0 .CVEC4 0 exampleVertexSource] } ∧
    (vkl_visual_prop 8 exampleSceneVisual 2 0 .CVEC4 .VERTEX 0 = .error .assertion ↔
      (8 ≤ exampleSceneVisual.props.length ∨
        ¬ ∃ s ∈ exampleSceneVisual.sources, s.source_type = .VERTEX ∧ s.pipeline_idx = 0)) :=
  ⟨by unfold uniqueIdentities; decide, by decide,
    (prop_declaration 8 exampleSceneVisual (by unfold uniqueIdentities; decide) 2 0 .CVEC4
      .VERTEX 0).1⟩

theorem visual_prop_ok {n : Nat} {visual visual1 : VklVisual} {prop_type : VklPropType}
    {prop_idx : Nat} {dtype : VklDataType} {source_type : VklSourceType} {pipeline_idx : Nat}
    (h : vkl_visual_prop n visual prop_type prop_idx dtype source_type pipeline_idx
      = .ok visual1) :
    ∃ i source, vkl_bake_source visual source_type pipeline_idx = .ok (some i) ∧
      visual.sources[i]? = some source ∧
      visual1 = { visual with
        props := visual.props ++ [vkl_visual_prop_new prop_type prop_idx dtype i source] } := by
  unfold vkl_visual_prop at h
  split at h
  · cases h
  · split at h
    · cases h
    · cases h
    · rename_i i hi
      split at h
      · cases h
      · rename_i source hs
        cases h
        exact ⟨i, source, hi, hs, rfl⟩

theorem declareProps_identities (n : Nat) :
    ∀ (decls : List PropDecl) (visual visual1 : VklVisual),
      declareProps n decls visual = .ok visual1 →
      propIdentities visual1 =
        propIdentities visual ++ decls.map (fun d => (d.prop_type, d.prop_idx)) := by
  intro decls
  induction decls with
  | nil =>
    intro visual visual1 h
    simp only [declareProps] at h
    cases h
    simp
  | cons d rest ih =>
    intro visual visual1 h
    simp only [declareProps] at h
    split at h
    · cases h
    · rename_i v2 h2
      obtain ⟨i, source, _, _, rfl⟩ := visual_prop_ok h2
      rw [ih _ _ h]
      simp [propIdentities, vkl_visual_prop_new]

theorem bake_prop_loop_first (prop_type : VklPropType) (idx : Nat) :
    ∀ (l : List VklProp) (i : Nat),
      (vkl_bake_prop_loop prop_type idx l i = none ∧
        ∀ p ∈ l, ¬ (p.prop_type = prop_type ∧ p.prop_idx = idx)) ∨
      (∃ k p, vkl_bake_prop_loop prop_type idx l i = some (i + k) ∧ l[k]? = some p ∧
        (p.prop_type = prop_type ∧ p.prop_idx = idx) ∧
        ∀ j q, j < k → l[j]? = some q → ¬ (q.prop_type = prop_type ∧ q.prop_idx = idx)) := by
  intro l
  induction l with
  | nil =>
    intro i
    exact Or.inl ⟨rfl, fun p hp => by cases hp⟩
  | cons p rest ih =>
    intro i
    by_cases hp : p.prop_type = prop_type ∧ p.prop_idx = idx
    · refine Or.inr ⟨0, p, by simp [vkl_bake_prop_loop, hp], by simp, hp, ?_⟩
      intro j q hj
      omega
    · rcases ih (i + 1) with ⟨h1, h2⟩ | ⟨k, q, h1, h2, h3, h4⟩
      · refine Or.inl ⟨by simp [vkl_bake_prop_loop, hp, h1], ?_⟩
        intro q hq
        rcases List.mem_cons.mp hq with h | h
        · subst h
          exact hp
        · exact h2 q h
      · refine Or.inr ⟨k + 1, q, ?_, by simpa using h2, h3, ?_⟩
        · simp only [vkl_bake_prop_loop, if_neg hp, h1]
          congr 1
          omega
        · intro j r hj hr
          cases j with
          | zero =>
            simp only [List.getElem?_cons_zero, Option.some.injEq] at hr
            subst hr
            exact hp
          | succ j =>
            rw [List.getElem?_cons_succ] at hr
            exact h4 j r (by omega) hr

/-- The lookup `vkl_bake_prop` returns the first prop with the identity asked for, and
`NULL` when there is none. -/
theorem bake_prop_first (visual : VklVisual) (prop_type : VklPropType) (idx : Nat) :
    (vkl_bake_prop visual prop_type idx = none ∧
      ∀ p ∈ visual.props, ¬ (p.prop_type = prop_type ∧ p.prop_idx = idx)) ∨
    (∃ k p, vkl_bake_prop visual prop_type idx = some k ∧ visual.props[k]? = some p ∧
      (p.prop_type = prop_type ∧ p.prop_idx = idx) ∧
      ∀ j q, j < k → visual.props[j]? = some q →
        ¬ (q.prop_type = prop_type ∧ q.prop_idx = idx)) := by
  have := bake_prop_loop_first prop_type idx visual.props 0
  simpa [vkl_bake_prop] using this

/-! ## Identity of the props -/

/-- Claim C13, refuted on the example: two calls of `vkl_visual_prop` with the same
`(prop_type, prop_idx)` both succeed, the table then holds two props with that
identity, and `vkl_bake_prop` designates the first of them. -/
theorem prop_identity_shared :
    vkl_visual_prop 8 exampleGrowingDeclared 2 0 .CVEC4 .VERTEX 0 =
      .ok { exampleGrowingDeclared with
            props := [vkl_visual_prop_new 2 0 .CVEC4 0 exampleGrowingDeclared.sources[0]] } ∧
    vkl_visual_prop 8
        { exampleGrowingDeclared with
          props := [vkl_visual_prop_new 2 0 .CVEC4 0 exampleGrowingDeclared.sources[0]] }
        2 0 .CHAR .VERTEX 0 =
      .ok { exampleGrowingDeclared with
            props := [vkl_visual_prop_new 2 0 .CVEC4 0 exampleGrowingDeclared.sources[0],
                      vkl_visual_prop_new 2 0 .CHAR 0 exampleGrowingDeclared.sources[0]] } ∧
    propIdentities
        { exampleGrowingDeclared with
          props := [vkl_visual_prop_new 2 0 .CVEC4 0 exampleGrowingDeclared.sources[0],
                    vkl_visual_prop_new 2 0 .CHAR 0 exampleGrowingDeclared.sources[0]] }
      = [(2, 0), (2, 0)] ∧
    vkl_bake_prop
        { exampleGrowingDeclared with
          props := [vkl_visual_prop_new 2 0 .CVEC4 0 exampleGrowingDeclared.sources[0],
                    vkl_visual_prop_new 2 0 .CHAR 0 exampleGrowingDeclared.sources[0]] }
        2 0 = some 0 := by
  refine ⟨?_, ?_, ?_, ?_⟩ <;> decide

/-- Claim C13, amended: `vkl_visual_prop` does not look at the identity of the prop.
After any sequence of calls that succeed, the identities of the props are those of the
props present before followed by the identities given to the calls, in order; hence
no two props share `(prop_type, prop_idx)` exactly when no two of these identities are
equal, in particular after calls with pairwise distinct identities on a visual
without props.  In every case `vkl_bake_prop (prop_type, idx)` designates the first
prop declared with that identity, and none when no prop has it. -/
theorem prop_identity_first (n : Nat) :
    (∀ (decls : List PropDecl) (visual visual1 : VklVisual),
      declareProps n decls visual = .ok visual1 →
      propIdentities visual1 =
        propIdentities visual ++ decls.map (fun d => (d.prop_type, d.prop_idx))) ∧
    (∀ (decls : List PropDecl) (visual visual1 : VklVisual), visual.props = [] →
      declareProps n decls visual = .ok visual1 →
      ((propIdentities visual1).Nodup ↔
        (decls.map (fun d => (d.prop_type, d.prop_idx))).Nodup)) ∧
    (∀ (visual : VklVisual) (prop_type : VklPropType) (idx : Nat),
      (vkl_bake_prop visual prop_type idx = none ∧
        ∀ p ∈ visual.props, ¬ (p.prop_type = prop_type ∧ p.prop_idx = idx)) ∨
      (∃ k p, vkl_bake_prop visual prop_type idx = some k ∧ visual.props[k]? = some p ∧
        (p.prop_type = prop_type ∧ p.prop_idx = idx) ∧
        ∀ j q, j < k → visual.props[j]? = some q →
          ¬ (q.prop_type = prop_type ∧ q.prop_idx = idx))) := by
  refine ⟨declareProps_identities n, ?_, bake_prop_first⟩
  intro decls visual visual1 h0 h
  rw [declareProps_identities n decls visual visual1 h]
  simp [propIdentities, h0]

/-! ## Data of a prop -/

theorem array_data_ok {arr arr1 : VklArray} {first_item item_count data_item_count : Nat}
    {data : List Nat}
    (h : vkl_array_data arr first_item item_count data_item_count data = .ok arr1) :
    first_item + item_count ≤ arr.item_count ∧ arr1.item_count = arr.item_count ∧
      arr1.item_size = arr.item_size ∧ arr1.shape = arr.shape ∧ arr1.ndims = arr.ndims := by
  unfold vkl_array_data at h
  split at h
  · cases h
  · rename_i hle
    cases h
    exact ⟨by omega, rfl, rfl, rfl, rfl⟩

/-- What a call of `vkl_visual_data_partial` that returns has done. -/
theorem data_partial_ok {visual visual1 : VklVisual} {prop_type : VklPropType}
    {idx first_item item_count data_item_count : Nat} {data : List Nat}
    (h : vkl_visual_data_partial visual prop_type idx first_item item_count data_item_count
      data = .ok visual1) :
    ∃ k prop i source arr1, vkl_bake_prop visual prop_type idx = some k ∧
      visual.props[k]? = some prop ∧ prop.source = some i ∧
      visual.sources[i]? = some source ∧
      vkl_array_data (vkl_array_resize prop.arr_orig ((first_item + item_count) % 2 ^ 32))
        first_item item_count data_item_count data = .ok arr1 ∧
      visual1 = { visual with
        obj_status := .NEED_UPDATE
        props := visual.props.set k { prop with arr_orig := arr1 }
        sources := visual.sources.set i
          { source with origin := .LIB, obj_status := .NEED_UPDATE } } := by
  unfold vkl_visual_data_partial at h
  simp only at h
  split at h
  · cases h
  · split at h
    · cases h
    · split at h
      · cases h
      · rename_i k hk
        split at h
        · cases h
        · rename_i prop hp
          split at h
          · cases h
          · rename_i arr1 ha
            split at h
            · cases h
            · rename_i i hi
              split at h
              · cases h
              · rename_i source hs
                cases h
                exact ⟨k, prop, i, source, arr1, hk, hp, hi, hs, ha, rfl⟩

theorem getElem?_lt_prop {i : Nat} {l : List VklProp} {p : VklProp} (h : l[i]? = some p) :
    i < l.length := by
  rcases List.getElem?_eq_some_iff.mp h with ⟨hi, _⟩
  exact hi

/-- Claim C14: `vkl_visual_data (visual, prop, idx, count, data)` is
`vkl_visual_data_partial (visual, prop, idx, 0, count, count, data)`; and after any
call of `vkl_visual_data_partial` that returns, the array of the prop designated by
`vkl_bake_prop` has `first_item + item_count` items, the owning source of the prop has
status NEED_UPDATE (and origin LIB), the visual has status NEED_UPDATE, and every
other prop, every other source and the rest of the visual are unchanged. -/
theorem data_is_partial_data :
    (∀ (visual : VklVisual) (prop_type : VklPropType) (idx count : Nat) (data : List Nat),
      vkl_visual_data visual prop_type idx count data =
        vkl_visual_data_partial visual prop_type idx 0 count count data) ∧
    (∀ (visual visual1 : VklVisual) (prop_type : VklPropType)
      (idx first_item item_count data_item_count : Nat) (data : List Nat),
      vkl_visual_data_partial visual prop_type idx first_item item_count data_item_count
        data = .ok visual1 →
      ∃ k prop prop1 i source source1,
        vkl_bake_prop visual prop_type idx = some k ∧ visual.props[k]? = some prop ∧
        prop.source = some i ∧ visual.sources[i]? = some source ∧
        visual1.props[k]? = some prop1 ∧
        prop1.arr_orig.item_count = first_item + item_count ∧
        prop1 = { prop with arr_orig := prop1.arr_orig } ∧
        visual1.sources[i]? = some source1 ∧
        source1.obj_status = .NEED_UPDATE ∧ source1.origin = .LIB ∧
        source1 = { source with origin := .LIB, obj_status := .NEED_UPDATE } ∧
        visual1.obj_status = .NEED_UPDATE ∧
        (∀ j, j ≠ k → visual1.props[j]? = visual.props[j]?) ∧
        (∀ j, j ≠ i → visual1.sources[j]? = visual.sources[j]?) ∧
        visual1.props.length = visual.props.length ∧
        visual1.sources.length = visual.sources.length ∧
        visual1.canvas = visual.canvas ∧ visual1.bindings = visual.bindings ∧
        visual1.bindings_comp = visual.bindings_comp ∧
        visual1.graphics_count = visual.graphics_count ∧
        visual1.compute_count = visual.compute_count) := by
  refine ⟨fun _ _ _ _ _ => rfl, ?_⟩
  intro visual visual1 prop_type idx first_item item_count data_item_count data h
  obtain ⟨k, prop, i, source, arr1, hk, hp, hi, hs, ha, rfl⟩ := data_partial_ok h
  obtain ⟨hle, hcount, _⟩ := array_data_ok ha
  have hmod : (first_item + item_count) % 2 ^ 32 ≤ first_item + item_count :=
    Nat.mod_le _ _
  refine ⟨k, prop, { prop with arr_orig := arr1 }, i, source,
    { source with origin := .LIB, obj_status := .NEED_UPDATE }, hk, hp, hi, hs,
    List.getElem?_set_self (getElem?_lt_prop hp), ?_, rfl,
    List.getElem?_set_self (getElem?_lt hs), rfl, rfl, rfl, rfl, ?_, ?_, by simp, by simp,
    rfl, rfl, rfl, rfl, rfl⟩
  · show arr1.item_count = _
    rw [hcount]
    show (first_item + item_count) % 2 ^ 32 = _
    have : first_item + item_count ≤ (first_item + item_count) % 2 ^ 32 := hle
    omega
  · intro j hj
    exact List.getElem?_set_ne (Ne.symm hj)
  · intro j hj
    exact List.getElem?_set_ne (Ne.symm hj)

/-! ## Partial writes on one prop -/

theorem range_map_getD (n : Nat) (f : Nat → Nat) (p : Nat) :
    ((List.range n).map f).getD p 0 = if p < n then f p else 0 := by
  simp only [List.getD_eq_getElem?_getD, List.getElem?_map]
  by_cases h : p < n
  · simp [h, List.getElem?_range]
  · have : (List.range n)[p]? = none := List.getElem?_eq_none (by simp; omega)
    simp [h, this]

theorem resize_byteAt (arr : VklArray) (n p : Nat) :
    (vkl_array_resize arr n).byteAt p = if p < n * arr.item_size then arr.byteAt p else 0 := by
  simp only [VklArray.byteAt, vkl_array_resize, Option.getD_some]
  exact range_map_getD _ _ _

theorem array_data_byteAt {arr arr1 : VklArray} {first_item item_count data_item_count : Nat}
    {data : List Nat}
    (h : vkl_array_data arr first_item item_count data_item_count data = .ok arr1) (p : Nat) :
    arr1.byteAt p =
      if p < arr.item_count * arr.item_size then
        if first_item ≤ p / arr.item_size ∧ p / arr.item_size < first_item + item_count then
          data.getD (((p / arr.item_size - first_item) % data_item_count) * arr.item_size
            + p % arr.item_size) 0
        else arr.byteAt p
      else 0 := by
  unfold vkl_array_data at h
  split at h
  · cases h
  · cases h
    simp only [VklArray.byteAt, Option.getD_some]
    exact range_map_getD _ _ _

/-- One write: the array ends at the end of the range of the write, the items of the
range hold the data of the write, and the items before it are unchanged. -/
theorem applyWrite_spec {arr arr1 : VklArray} {w : DataWrite}
    (h : applyWrite arr w = .ok arr1) :
    arr1.item_size = arr.item_size ∧ arr1.item_count = w.stop ∧
    ∀ j b, b < arr.item_size →
      arr1.byteAt (j * arr.item_size + b) =
        if j < w.stop then
          if w.first_item ≤ j then w.byteFor arr.item_size j b
          else arr.byteAt (j * arr.item_size + b)
        else 0 := by
  unfold applyWrite at h
  obtain ⟨hle, hcount, hsize, _⟩ := array_data_ok h
  have hmod : (w.first_item + w.item_count) % 2 ^ 32 ≤ w.first_item + w.item_count :=
    Nat.mod_le _ _
  have hstop : (w.first_item + w.item_count) % 2 ^ 32 = w.stop := by
    have : w.first_item + w.item_count ≤ (w.first_item + w.item_count) % 2 ^ 32 := hle
    unfold DataWrite.stop
    omega
  refine ⟨hsize, by rw [hcount]; exact hstop, ?_⟩
  intro j b hb
  have hdiv : (j * arr.item_size + b) / arr.item_size = j := by
    rw [Nat.mul_comm, Nat.mul_add_div (by omega), Nat.div_eq_of_lt hb]
    simp
  have hrem : (j * arr.item_size + b) % arr.item_size = b := by
    rw [Nat.mul_comm, Nat.mul_add_mod, Nat.mod_eq_of_lt hb]
  rw [array_data_byteAt h]
  have e1 : (vkl_array_resize arr ((w.first_item + w.item_count) % 2 ^ 32)).item_size
      = arr.item_size := rfl
  have e2 : (vkl_array_resize arr ((w.first_item + w.item_count) % 2 ^ 32)).item_count
      = w.stop := hstop
  rw [e1, e2, hdiv, hrem]
  have hlt : j * arr.item_size + b < w.stop * arr.item_size ↔ j < w.stop := by
    constructor
    · intro h1
      by_contra hc
      have : w.stop * arr.item_size ≤ j * arr.item_size :=
        Nat.mul_le_mul_right _ (by omega)
      omega
    · intro h1
      have : (j + 1) * arr.item_size ≤ w.stop * arr.item_size :=
        Nat.mul_le_mul_right _ (by omega)
      rw [Nat.add_mul] at this
      omega
  by_cases hj : j < w.stop
  · rw [if_pos (hlt.mpr hj), if_pos hj]
    by_cases hf : w.first_item ≤ j
    · rw [if_pos ⟨hf, hj⟩, if_pos hf]
      rfl
    · rw [if_neg (fun hc => hf hc.1), if_neg hf, resize_byteAt, hstop, if_pos (hlt.mpr hj)]
  · rw [if_neg (fun hc => hj (hlt.mp hc)), if_neg hj]

theorem applyWrites_append (a b : List DataWrite) :
    ∀ arr, applyWrites (a ++ b) arr =
      match applyWrites a arr with
      | .error e => .error e
      | .ok arr1 => applyWrites b arr1 := by
  induction a with
  | nil => intro arr; rfl
  | cons w rest ih =>
    intro arr
    simp only [List.cons_append, applyWrites]
    cases applyWrite arr w with
    | error e => rfl
    | ok arr1 => exact ih arr1

theorem applyWrites_item_size :
    ∀ (ws : List DataWrite) (arr arr1 : VklArray), applyWrites ws arr = .ok arr1 →
      arr1.item_size = arr.item_size := by
  intro ws
  induction ws with
  | nil => intro arr arr1 h; cases h; rfl
  | cons w rest ih =>
    intro arr arr1 h
    simp only [applyWrites] at h
    split at h
    · cases h
    · rename_i arr2 h2
      rw [ih _ _ h, (applyWrite_spec h2).1]

/-- Later writes that end above an item and do not cover it leave the item as it
is. -/
theorem applyWrites_keep (j : Nat) :
    ∀ (post : List DataWrite) (arr arr1 : VklArray), applyWrites post arr = .ok arr1 →
      (∀ w ∈ post, j < w.stop ∧ ¬ w.covers j) →
      (post = [] → j < arr.item_count) →
      j < arr1.item_count ∧
      ∀ b, b < arr.item_size →
        arr1.byteAt (j * arr.item_size + b) = arr.byteAt (j * arr.item_size + b) := by
  intro post
  induction post with
  | nil =>
    intro arr arr1 h _ hlen
    cases h
    exact ⟨hlen rfl, fun _ _ => rfl⟩
  | cons w rest ih =>
    intro arr arr1 h hpost _
    simp only [applyWrites] at h
    split at h
    · cases h
    · rename_i arr2 h2
      obtain ⟨hsize, hcount, hbytes⟩ := applyWrite_spec h2
      obtain ⟨hjs, hjc⟩ := hpost w (List.mem_cons_self _ _)
      have hnf : ¬ w.first_item ≤ j := fun hc => hjc ⟨hc, hjs⟩
      obtain ⟨hlt, hkeep⟩ := ih arr2 arr1 h
        (fun w1 hw1 => hpost w1 (List.mem_cons_of_mem _ hw1))
        (fun _ => by rw [hcount]; exact hjs)
      refine ⟨hlt, ?_⟩
      intro b hb
      rw [hsize] at hkeep
      rw [hkeep b hb, hbytes j b hb, if_pos hjs, if_neg hnf]

/-- The items of a write hold its data at the end of a sequence in which every later
write ends above them and does not cover them. -/
theorem applyWrites_last_wins (pre post : List DataWrite) (w : DataWrite)
    (arr arr1 : VklArray) (h : applyWrites (pre ++ w :: post) arr = .ok arr1) (j : Nat)
    (hj : w.covers j) (hpost : ∀ w1 ∈ post, j < w1.stop ∧ ¬ w1.covers j) :
    arr1.item_size = arr.item_size ∧ j < arr1.item_count ∧
    ∀ b, b < arr.item_size →
      arr1.byteAt (j * arr.item_size + b) = w.byteFor arr.item_size j b := by
  rw [applyWrites_append] at h
  split at h
  · cases h
  · rename_i arr2 h2
    simp only [applyWrites] at h
    split at h
    · cases h
    · rename_i arr3 h3
      have hs2 := applyWrites_item_size _ _ _ h2
      obtain ⟨hs3, hc3, hb3⟩ := applyWrite_spec h3
      obtain ⟨hlt, hkeep⟩ := applyWrites_keep j post arr3 arr1 h hpost
        (fun _ => by rw [hc3]; exact hj.2)
      refine ⟨by rw [applyWrites_item_size _ _ _ h, hs3, hs2], hlt, ?_⟩
      intro b hb
      rw [hs3, hs2] at hkeep
      rw [hs2] at hb3
      rw [hkeep b hb, hb3 j b hb, if_pos hj.2, if_pos hj.1]

theorem bake_prop_loop_congr (prop_type : VklPropType) (idx : Nat) :
    ∀ (l l1 : List VklProp) (i : Nat),
      l1.map (fun p => (p.prop_type, p.prop_idx)) = l.map (fun p => (p.prop_type, p.prop_idx)) →
      vkl_bake_prop_loop prop_type idx l1 i = vkl_bake_prop_loop prop_type idx l i := by
  intro l
  induction l with
  | nil =>
    intro l1 i h
    cases l1 with
    | nil => rfl
    | cons q rest => simp at h
  | cons p rest ih =>
    intro l1 i h
    cases l1 with
    | nil => simp at h
    | cons q rest1 =>
      simp only [List.map_cons, List.cons.injEq, Prod.mk.injEq] at h
      obtain ⟨⟨h1, h2⟩, h3⟩ := h
      simp only [vkl_bake_prop_loop, h1, h2]
      rw [ih rest1 (i + 1) h3]

theorem props_set_identities {l : List VklProp} {k : Nat} {p p1 : VklProp}
    (hp : l[k]? = some p) (h1 : p1.prop_type = p.prop_type) (h2 : p1.prop_idx = p.prop_idx) :
    (l.set k p1).map (fun p => (p.prop_type, p.prop_idx)) =
      l.map (fun p => (p.prop_type, p.prop_idx)) := by
  apply List.ext_getElem?
  intro n
  by_cases hn : n = k
  · subst hn
    rw [List.getElem?_map, List.getElem?_map, List.getElem?_set_self (getElem?_lt_prop hp), hp]
    simp [h1, h2]
  · rw [List.getElem?_map, List.getElem?_map, List.getElem?_set_ne (Ne.symm hn)]

/-- A sequence of calls of `vkl_visual_data_partial` on one prop applies the writes,
in order, to the array of the prop that `vkl_bake_prop` designates. -/
theorem runWrites_array (prop_type : VklPropType) (idx : Nat) :
    ∀ (ws : List DataWrite) (visual visual1 : VklVisual) (k : Nat) (prop : VklProp),
      vkl_bake_prop visual prop_type idx = some k → visual.props[k]? = some prop →
      runWrites prop_type idx ws visual = .ok visual1 →
      ∃ arr1, applyWrites ws prop.arr_orig = .ok arr1 ∧
        visual1.props[k]? = some { prop with arr_orig := arr1 } := by
  intro ws
  induction ws with
  | nil =>
    intro visual visual1 k prop _ hp h
    simp only [runWrites] at h
    cases h
    exact ⟨prop.arr_orig, rfl, hp⟩
  | cons w rest ih =>
    intro visual visual1 k prop hk hp h
    simp only [runWrites] at h
    split at h
    · cases h
    · rename_i v2 h2
      obtain ⟨k1, prop1, i, source, arr1, hk1, hp1, _, _, ha, rfl⟩ := data_partial_ok h2
      rw [hk] at hk1
      cases hk1
      rw [hp] at hp1
      cases hp1
      have hk2 : vkl_bake_prop
          { visual with
            obj_status := .NEED_UPDATE
            props := visual.props.set k { prop with arr_orig := arr1 }
            sources := visual.sources.set i
              { source with origin := .LIB, obj_status := .NEED_UPDATE } }
          prop_type idx = some k := by
        unfold vkl_bake_prop at hk ⊢
        simp only
        rw [bake_prop_loop_congr prop_type idx visual.props
          (visual.props.set k { prop with arr_orig := arr1 }) 0
          (props_set_identities hp rfl rfl)]
        exact hk
      obtain ⟨arr2, ha2, hp2⟩ := ih _ visual1 k { prop with arr_orig := arr1 } hk2
        (List.getElem?_set_self (getElem?_lt_prop hp)) h
      refine ⟨arr2, ?_, hp2⟩
      simp only [applyWrites]
      have : applyWrite prop.arr_orig w = .ok arr1 := ha
      rw [this]
      exact ha2

/-- Claim C15, refuted on the example: two calls of `vkl_visual_data_partial` write
the disjoint ranges [1, 2) and [0, 1) of a prop of one byte per item.  In this order
the second call resizes the array to one item, and a full-range read gives the byte 5
alone: the byte 9 written by the first call is not in it.  In the other order the read
gives both. -/
theorem partial_writes_descending :
    (∃ visual1,
      runWrites 2 0 [⟨1, 1, 1, [9]⟩, ⟨0, 1, 1, [5]⟩] examplePropVisual = .ok visual1 ∧
      visual1.props.map (fun p => (p.arr_orig.item_count, p.arr_orig.data))
        = [(1, some [5])]) ∧
    (∃ visual1,
      runWrites 2 0 [⟨0, 1, 1, [5]⟩, ⟨1, 1, 1, [9]⟩] examplePropVisual = .ok visual1 ∧
      visual1.props.map (fun p => (p.arr_orig.item_count, p.arr_orig.data))
        = [(2, some [5, 9])]) := by
  refine ⟨⟨_, rfl, ?_⟩, ⟨_, rfl, ?_⟩⟩ <;> decide

/-- Claim C15, amended: each call of `vkl_visual_data_partial` resizes the array of
the prop to the end of its range.  After a sequence of calls on one prop that all
return, an item written by one of the calls is in the array and holds the data of
that call, provided that every later call ends above the item and does not write it
(the last write wins).  In particular, when the calls write ranges in increasing
order (each range ends no later than the next one begins), a full-range read contains
every written range with the data written to it. -/
theorem partial_writes_in_order (visual visual1 : VklVisual) (prop_type : VklPropType)
    (idx k : Nat) (prop : VklProp) (pre post : List DataWrite) (w : DataWrite)
    (hk : vkl_bake_prop visual prop_type idx = some k) (hp : visual.props[k]? = some prop)
    (hrun : runWrites prop_type idx (pre ++ w :: post) visual = .ok visual1) :
    ∃ prop1, visual1.props[k]? = some prop1 ∧
      prop1.arr_orig.item_size = prop.arr_orig.item_size ∧
      (∀ j, w.covers j → (∀ w1 ∈ post, j < w1.stop ∧ ¬ w1.covers j) →
        j < prop1.arr_orig.item_count ∧
        ∀ b, b < prop.arr_orig.item_size →
          prop1.arr_orig.byteAt (j * prop.arr_orig.item_size + b)
            = w.byteFor prop.arr_orig.item_size j b) ∧
      ((∀ w1 ∈ post, w.stop ≤ w1.first_item ∧ w1.first_item < w1.stop) →
        ∀ j, w.covers j →
          j < prop1.arr_orig.item_count ∧
          ∀ b, b < prop.arr_orig.item_size →
            prop1.arr_orig.byteAt (j * prop.arr_orig.item_size + b)
              = w.byteFor prop.arr_orig.item_size j b) := by
  obtain ⟨arr1, ha, hp1⟩ := runWrites_array prop_type idx _ _ _ _ _ hk hp hrun
  have hgen : ∀ j, w.covers j → (∀ w1 ∈ post, j < w1.stop ∧ ¬ w1.covers j) →
      j < arr1.item_count ∧
      ∀ b, b < prop.arr_orig.item_size →
        arr1.byteAt (j * prop.arr_orig.item_size + b)
          = w.byteFor prop.arr_orig.item_size j b := by
    intro j hj hpost
    exact (applyWrites_last_wins pre post w _ _ ha j hj hpost).2
  refine ⟨_, hp1, applyWrites_item_size _ _ _ ha, hgen, ?_⟩
  intro hord j hj
  apply hgen j hj
  intro w1 hw1
  obtain ⟨h1, h2⟩ := hord w1 hw1
  have hjs : j < w.stop := hj.2
  exact ⟨by omega, fun hc => by have := hc.1; omega⟩

/-- Witness of `partial_writes_in_order`: on the example prop the ranges [0, 1) and
[1, 2) are written in this order, and the read gives the bytes 5 and 9. -/
theorem partial_writes_in_order_witness :
    vkl_bake_prop examplePropVisual 2 0 = some 0 ∧
    (∃ visual1,
      runWrites 2 0 ([] ++ (⟨0, 1, 1, [5]⟩ : DataWrite) :: [⟨1, 1, 1, [9]⟩]) examplePropVisual
        = .ok visual1 ∧
      visual1.props.map (fun p => p.arr_orig.data) = [some [5, 9]] ∧
      ∃ prop1, visual1.props[0]? = some prop1 ∧
        prop1.arr_orig.item_size = examplePropVisual.props[0].arr_orig.item_size ∧
        ∀ j, (⟨0, 1, 1, [5]⟩ : DataWrite).covers j →
          (∀ w1 ∈ [(⟨1, 1, 1, [9]⟩ : DataWrite)], j < w1.stop ∧ ¬ w1.covers j) →
          j < prop1.arr_orig.item_count ∧
          ∀ b, b < examplePropVisual.props[0].arr_orig.item_size →
            prop1.arr_orig.byteAt (j * examplePropVisual.props[0].arr_orig.item_size + b)
              = (⟨0, 1, 1, [5]⟩ : DataWrite).byteFor
                  examplePropVisual.props[0].arr_orig.item_size j b) :=
  ⟨by decide, _, rfl, by decide,
    (partial_writes_in_order examplePropVisual _ 2 0 0 examplePropVisual.props[0] []
      [⟨1, 1, 1, [9]⟩] ⟨0, 1, 1, [5]⟩ (by decide) (by decide) rfl).imp
      fun _ h => ⟨h.1, h.2.1, h.2.2.1⟩⟩

/-! ## Guards of the data entry points -/

/-- Claim C16, refuted on the example: with `item_count = 0` and `first_item = 5` the
guards of `vkl_visual_data_buffer` and of `vkl_visual_data_partial` pass, and the call
returns a visual that differs from the one it was given: the array has been resized to
5 items and the source is marked. -/
theorem zero_length_write_accepted :
    (∃ visual1, vkl_visual_data_buffer exampleGrowingDeclared .VERTEX 0 5 0 1 [] = .ok visual1 ∧
      visual1 ≠ exampleGrowingDeclared ∧
      visual1.sources.map (fun s => (s.arr.item_count, s.origin, s.obj_status))
        = [(5, .NOBAKE, .NEED_UPDATE)]) ∧
    (∃ visual1, vkl_visual_data_partial examplePropVisual 2 0 5 0 1 [] = .ok visual1 ∧
      visual1 ≠ examplePropVisual ∧
      visual1.props.map (fun p => p.arr_orig.item_count) = [5] ∧
      visual1.sources.map (fun s => (s.origin, s.obj_status)) = [(.LIB, .NEED_UPDATE)]) := by
  refine ⟨⟨_, rfl, ?_, ?_⟩, ⟨_, rfl, ?_, ?_, ?_⟩⟩ <;> decide

/-- Claim C16, amended: the guard of `vkl_visual_data_partial` and of
`vkl_visual_data_buffer` is on the total `first_item + item_count` (a 32-bit sum) and
on `data_item_count`: the call fails whenever one of them is zero, hence for
`item_count = 0` when `first_item` is zero too.  `vkl_visual_data_texture` fails
whenever the 32-bit product `width * height * depth` is zero, in particular when one of
the three is zero, and `vkl_visual_buffer` fails whenever the size of the region is
zero. -/
theorem zero_total_count_rejected :
    (∀ (visual : VklVisual) (prop_type : VklPropType)
      (idx first_item item_count data_item_count : Nat) (data : List Nat),
      (first_item + item_count) % 2 ^ 32 = 0 ∨ data_item_count = 0 →
      vkl_visual_data_partial visual prop_type idx first_item item_count data_item_count data
        = .error .assertion) ∧
    (∀ (visual : VklVisual) (source_type : VklSourceType)
      (idx first_item item_count data_item_count : Nat) (data : List Nat),
      (first_item + item_count) % 2 ^ 32 = 0 ∨ data_item_count = 0 →
      vkl_visual_data_buffer visual source_type idx first_item item_count data_item_count data
        = .error .assertion) ∧
    (∀ (visual : VklVisual) (prop_type : VklPropType) (idx width height depth : Nat)
      (data : List Nat),
      (width * height * depth) % 2 ^ 32 = 0 →
      vkl_visual_data_texture visual prop_type idx width height depth data
        = .error .assertion) ∧
    (∀ (width height depth : Nat), width * height * depth = 0 →
      (width * height * depth) % 2 ^ 32 = 0) ∧
    (∀ (visual : VklVisual) (source_type : VklSourceType) (idx : Nat) (br : VklBufferRegions),
      br.size = 0 → ∃ e, vkl_visual_buffer visual source_type idx br = .error e) := by
  refine ⟨?_, ?_, ?_, ?_, ?_⟩
  · intro visual prop_type idx first_item item_count data_item_count data h
    unfold vkl_visual_data_partial
    simp only
    rcases h with h | h
    · rw [h]
      rfl
    · by_cases h1 : 0 < (first_item + item_count) % 2 ^ 32
      · rw [if_neg (not_not.mpr h1), h]
        rfl
      · rw [if_pos h1]
  · intro visual source_type idx first_item item_count data_item_count data h
    unfold vkl_visual_data_buffer
    simp only
    rcases h with h | h
    · rw [h]
      rfl
    · by_cases h1 : 0 < (first_item + item_count) % 2 ^ 32
      · rw [if_neg (not_not.mpr h1), h]
        rfl
      · rw [if_pos h1]
  · intro visual prop_type idx width height depth data h
    unfold vkl_visual_data_texture
    simp only
    rw [h]
    rfl
  · intro width height depth h
    rw [h, Nat.zero_mod]
  · intro visual source_type idx br h
    unfold vkl_visual_buffer
    split
    · exact ⟨_, rfl⟩
    · exact ⟨_, rfl⟩
    · split
      · exact ⟨_, rfl⟩
      · rw [h]
        exact ⟨_, rfl⟩

/-! ## Lookup of the source by the data entry points -/

theorem assert_shared_absent (idx : Nat) :
    ∀ (l : List VklSource) (i : Nat) (out : Option Nat),
      (∀ s ∈ l, idx ∉ s.other_idxs) → _assert_source_exists_shared idx l i out = out := by
  intro l
  induction l with
  | nil => intro i out _; rfl
  | cons s rest ih =>
    intro i out h
    simp only [_assert_source_exists_shared]
    rw [if_neg (h s (List.mem_cons_self _ _))]
    exact ih _ _ (fun t ht => h t (List.mem_cons_of_mem _ ht))

theorem assert_shared_some (idx : Nat) :
    ∀ (l : List VklSource) (i : Nat) (out : Option Nat) (k : Nat),
      _assert_source_exists_shared idx l i out = some k →
      (out = some k ∧ ∀ s ∈ l, idx ∉ s.other_idxs) ∨
        (i ≤ k ∧ ∃ s, l[k - i]? = some s ∧ idx ∈ s.other_idxs ∧
          ∀ j t, k - i < j → l[j]? = some t → idx ∉ t.other_idxs) := by
  intro l
  induction l with
  | nil =>
    intro i out k h
    left
    exact ⟨h, fun s hs => by cases hs⟩
  | cons s rest ih =>
    intro i out k h
    simp only [_assert_source_exists_shared] at h
    by_cases hm : idx ∈ s.other_idxs
    · rw [if_pos hm] at h
      right
      rcases ih _ _ _ h with ⟨hk, hrest⟩ | ⟨hik, s1, hs1, hm1, hlast⟩
      · cases hk
        refine ⟨le_refl _, s, by simp, hm, ?_⟩
        intro j t hj ht
        obtain ⟨j1, rfl⟩ : ∃ j1, j = j1 + 1 := ⟨j - 1, by omega⟩
        rw [List.getElem?_cons_succ] at ht
        exact hrest t (List.mem_iff_getElem?.mpr ⟨j1, ht⟩)
      · have hk : k - i = (k - (i + 1)) + 1 := by omega
        refine ⟨by omega, s1, by rw [hk, List.getElem?_cons_succ]; exact hs1, hm1, ?_⟩
        intro j t hj ht
        obtain ⟨j1, rfl⟩ : ∃ j1, j = j1 + 1 := ⟨j - 1, by omega⟩
        rw [List.getElem?_cons_succ] at ht
        exact hlast j1 t (by omega) ht
    · rw [if_neg hm] at h
      rcases ih _ _ _ h with ⟨hk, hrest⟩ | ⟨hik, s1, hs1, hm1, hlast⟩
      · left
        refine ⟨hk, ?_⟩
        intro t ht
        rcases List.mem_cons.mp ht with rfl | ht
        · exact hm
        · exact hrest t ht
      · right
        have hk : k - i = (k - (i + 1)) + 1 := by omega
        refine ⟨by omega, s1, by rw [hk, List.getElem?_cons_succ]; exact hs1, hm1, ?_⟩
        intro j t hj ht
        obtain ⟨j1, rfl⟩ : ∃ j1, j = j1 + 1 := ⟨j - 1, by omega⟩
        rw [List.getElem?_cons_succ] at ht
        exact hlast j1 t (by omega) ht

/-- The source that `_assert_source_exists` returns has the requested identity, or no
source has it and the returned one is the last source that shares `idx`. -/
theorem assert_source_exists_target {visual : VklVisual} {source_type : VklSourceType}
    {idx i : Nat} (h : _assert_source_exists visual source_type idx = .ok (some i)) :
    ∃ source, isTargetSource visual source_type idx i source := by
  unfold _assert_source_exists at h
  split at h
  · cases h
  · rename_i k hk
    cases h
    rcases bake_source_some hk with ⟨s, hs, hid⟩
    exact ⟨s, hs, Or.inl hid⟩
  · rename_i hnone
    have hno := (bake_source_none_iff _ _ _).mp hnone
    have h1 : _assert_source_exists_shared idx visual.sources 0 none = some i :=
      Except.ok.inj h
    rcases assert_shared_some idx _ _ _ _ h1 with ⟨hk, _⟩ | ⟨_, s, hs, hm, hlast⟩
    · cases hk
    · exact ⟨s, hs, Or.inr ⟨hno, hm, hlast⟩⟩

/-- When no source has the identity and no source shares `idx`, `_assert_source_exists`
returns NULL. -/
theorem assert_source_exists_absent {visual : VklVisual} {source_type : VklSourceType}
    {idx : Nat} (hid : ∀ t ∈ visual.sources, ¬ hasIdentity source_type idx t)
    (hsh : ∀ t ∈ visual.sources, idx ∉ t.other_idxs) :
    _assert_source_exists visual source_type idx = .ok none := by
  unfold _assert_source_exists
  rw [(bake_source_none_iff _ _ _).mpr hid]
  simp only
  rw [assert_shared_absent idx _ _ _ hsh]

/-- What a call of `vkl_visual_data_buffer` that returns has done. -/
theorem data_buffer_ok {visual visual1 : VklVisual} {source_type : VklSourceType}
    {idx first_item item_count data_item_count : Nat} {data : List Nat}
    (h : vkl_visual_data_buffer visual source_type idx first_item item_count data_item_count
      data = .ok visual1) :
    ∃ i source arr1, _assert_source_exists visual source_type idx = .ok (some i) ∧
      visual.sources[i]? = some source ∧
      vkl_array_data (vkl_array_resize source.arr ((first_item + item_count) % 2 ^ 32))
        first_item item_count data_item_count data = .ok arr1 ∧
      visual1 = { visual with
        obj_status := .NEED_UPDATE
        sources := visual.sources.set i
          { source with arr := arr1, origin := .NOBAKE, obj_status := .NEED_UPDATE } } := by
  unfold vkl_visual_data_buffer at h
  simp only at h
  split at h
  · cases h
  · split at h
    · cases h
    · split at h
      · cases h
      · cases h
      · rename_i i hi
        split at h
        · cases h
        · rename_i source hs
          split at h
          · cases h
          · rename_i arr1 ha
            cases h
            exact ⟨i, source, arr1, hi, hs, ha, rfl⟩

/-- What a call of `vkl_visual_data_texture` that returns has done. -/
theorem data_texture_ok {visual visual1 : VklVisual} {prop_type : VklPropType}
    {idx width height depth : Nat} {data : List Nat}
    (h : vkl_visual_data_texture visual prop_type idx width height depth data = .ok visual1) :
    ∃ k prop i source arr1, 0 < (width * height * depth) % 2 ^ 32 ∧
      vkl_bake_prop visual prop_type idx = some k ∧
      visual.props[k]? = some prop ∧ prop.source = some i ∧
      visual.sources[i]? = some source ∧
      vkl_array_data (vkl_array_reshape source.arr width height depth) 0
        ((width * height * depth) % 2 ^ 32) ((width * height * depth) % 2 ^ 32) data
          = .ok arr1 ∧
      visual1 = { visual with
        obj_status := .NEED_UPDATE
        sources := visual.sources.set i
          { source with arr := arr1, origin := .NOBAKE, obj_status := .NEED_UPDATE } } := by
  unfold vkl_visual_data_texture at h
  simp only at h
  split at h
  · cases h
  · rename_i hc
    split at h
    · cases h
    · rename_i k hk
      split at h
      · cases h
      · rename_i prop hp
        split at h
        · cases h
        · rename_i i hi
          split at h
          · cases h
          · rename_i source hs
            split at h
            · cases h
            · rename_i arr1 ha
              cases h
              exact ⟨k, prop, i, source, arr1, not_not.mp hc, hk, hp, hi, hs, ha, rfl⟩

/-- What a call of `vkl_visual_buffer` that returns has done. -/
theorem visual_buffer_ok {visual visual1 : VklVisual} {source_type : VklSourceType}
    {idx : Nat} {br : VklBufferRegions}
    (h : vkl_visual_buffer visual source_type idx br = .ok visual1) :
    ∃ i source, _assert_source_exists visual source_type idx = .ok (some i) ∧
      visual.sources[i]? = some source ∧ 0 < br.size ∧ br.buffer ≠ 0 ∧
      _set_source_bindings
        { visual with
          obj_status := .NEED_UPDATE
          sources := visual.sources.set i (vkl_visual_buffer_source source br) }
        (vkl_visual_buffer_source source br) = .ok visual1 := by
  unfold vkl_visual_buffer at h
  split at h
  · cases h
  · cases h
  · rename_i i hi
    split at h
    · cases h
    · rename_i source hs
      split at h
      · cases h
      · rename_i hsz
        split at h
        · cases h
        · rename_i hb
          exact ⟨i, source, hi, hs, not_not.mp hsz, hb, h⟩

/-- What a call of `vkl_visual_texture` that returns has done. -/
theorem visual_texture_ok {visual visual1 : VklVisual} {source_type : VklSourceType}
    {idx : Nat} {texture : Option VklTexture}
    (h : vkl_visual_texture visual source_type idx texture = .ok visual1) :
    ∃ i source tex, _assert_source_exists visual source_type idx = .ok (some i) ∧
      visual.sources[i]? = some source ∧ texture = some tex ∧
      vkl_visual_texture_bind
        { visual with
          obj_status := .NEED_UPDATE
          sources := visual.sources.set i (vkl_visual_texture_source source tex) }
        (vkl_visual_texture_source source tex) tex = .ok visual1 := by
  unfold vkl_visual_texture at h
  split at h
  · cases h
  · cases h
  · rename_i i hi
    split at h
    · cases h
    · rename_i source hs
      split at h
      · cases h
      · rename_i tex
        split at h
        · cases h
        · split at h
          · cases h
          · exact ⟨i, source, tex, hi, hs, rfl, h⟩

/-- Replacing the source at the index `i` leaves the sources at the other indices. -/
theorem set_other {l : List VklSource} {i j : Nat} {s : VklSource} (h : j ≠ i) :
    (l.set i s)[j]? = l[j]? := by
  rw [List.getElem?_set]
  rw [if_neg (fun e => h e.symm)]

/-- Replacing the source at a valid index `i` puts the new source there. -/
theorem set_self {l : List VklSource} {i : Nat} {s t : VklSource} (h : l[i]? = some t) :
    (l.set i s)[i]? = some s := by
  rw [List.getElem?_set]
  simp [getElem?_lt h]

theorem originSet_of_set {visual visual1 : VklVisual} {i : Nat} {source source1 : VklSource}
    {origin : VklSourceOrigin} (hs : visual.sources[i]? = some source)
    (hset : visual1.sources = visual.sources.set i source1) (ho : source1.origin = origin)
    (hst : source1.obj_status = .NEED_UPDATE) (hv : visual1.obj_status = .NEED_UPDATE) :
    originSet visual visual1 i origin source1 := by
  refine ⟨?_, ho, hst, hv, ?_⟩
  · rw [hset]
    exact set_self hs
  · intro j hj
    rw [hset]
    exact set_other hj

/-- Claim C17, the lookup on an example: the vertex source declared for the pipeline 0
is shared with the pipeline 1; no source has the identity `(MVP, 1)` nor the identity
`(VERTEX, 1)`, and yet `vkl_visual_buffer` for `(MVP, 1)` and `vkl_visual_data_buffer`
for `(VERTEX, 1)` return, and the source they modify is the one of identity
`(VERTEX, 0)`: the loops of lines 471-481 look for `idx` among the other pipeline
indices of every source and never compare the type of the source with the type
requested. -/
theorem shared_source_is_found :
    vkl_visual_source_share exampleGrowingDeclared .VERTEX 0 1 = .ok exampleSharedVisual ∧
    (∀ s ∈ exampleSharedVisual.sources,
      ¬ hasIdentity .MVP 1 s ∧ ¬ hasIdentity .VERTEX 1 s) ∧
    (∃ visual1, vkl_visual_buffer exampleSharedVisual .MVP 1 exampleRegion = .ok visual1 ∧
      visual1.sources.map (fun s => (s.source_type, s.pipeline_idx, s.origin, s.u.br))
        = [(.VERTEX, 0, .USER, exampleRegion)]) ∧
    (∃ visual1, vkl_visual_data_buffer exampleSharedVisual .VERTEX 1 0 2 2 [7, 7]
        = .ok visual1 ∧
      visual1.sources.map (fun s => (s.source_type, s.pipeline_idx, s.origin, s.arr.item_count))
        = [(.VERTEX, 0, .NOBAKE, 2)]) := by
  refine ⟨by decide, ?_, ⟨_, rfl, by decide⟩, ⟨_, rfl, by decide⟩⟩
  intro s hs
  simp only [exampleSharedVisual, List.mem_singleton] at hs
  subst hs
  constructor <;> (intro h; exact absurd h.2 (by decide))

/-! ## Origin of a source after a data entry point -/

/-- Claim C18: after `vkl_visual_data` or `vkl_visual_data_partial` the owning source of
the prop has the origin LIB; after `vkl_visual_data_buffer` or
`vkl_visual_data_texture` the target source has the origin NOBAKE; after
`vkl_visual_buffer` or `vkl_visual_texture` it has the origin USER and its handle is
the region or the texture that was given; in every case the status of the source and
the status of the visual are NEED_UPDATE, and the other sources are unchanged. -/
theorem origin_after_data_call :
    (∀ (visual visual1 : VklVisual) (prop_type : VklPropType) (idx count : Nat)
      (data : List Nat),
      vkl_visual_data visual prop_type idx count data = .ok visual1 →
      ∃ k prop i source1, vkl_bake_prop visual prop_type idx = some k ∧
        visual.props[k]? = some prop ∧ prop.source = some i ∧
        originSet visual visual1 i .LIB source1) ∧
    (∀ (visual visual1 : VklVisual) (prop_type : VklPropType)
      (idx first_item item_count data_item_count : Nat) (data : List Nat),
      vkl_visual_data_partial visual prop_type idx first_item item_count data_item_count
        data = .ok visual1 →
      ∃ k prop i source1, vkl_bake_prop visual prop_type idx = some k ∧
        visual.props[k]? = some prop ∧ prop.source = some i ∧
        originSet visual visual1 i .LIB source1) ∧
    (∀ (visual visual1 : VklVisual) (source_type : VklSourceType)
      (idx first_item item_count data_item_count : Nat) (data : List Nat),
      vkl_visual_data_buffer visual source_type idx first_item item_count data_item_count
        data = .ok visual1 →
      ∃ i source1, _assert_source_exists visual source_type idx = .ok (some i) ∧
        originSet visual visual1 i .NOBAKE source1) ∧
    (∀ (visual visual1 : VklVisual) (prop_type : VklPropType)
      (idx width height depth : Nat) (data : List Nat),
      vkl_visual_data_texture visual prop_type idx width height depth data = .ok visual1 →
      ∃ k prop i source1, vkl_bake_prop visual prop_type idx = some k ∧
        visual.props[k]? = some prop ∧ prop.source = some i ∧
        originSet visual visual1 i .NOBAKE source1) ∧
    (∀ (visual visual1 : VklVisual) (source_type : VklSourceType) (idx : Nat)
      (br : VklBufferRegions),
      vkl_visual_buffer visual source_type idx br = .ok visual1 →
      ∃ i source1, _assert_source_exists visual source_type idx = .ok (some i) ∧
        originSet visual visual1 i .USER source1 ∧ source1.u.br = br) ∧
    (∀ (visual visual1 : VklVisual) (source_type : VklSourceType) (idx : Nat)
      (tex : VklTexture),
      vkl_visual_texture visual source_type idx (some tex) = .ok visual1 →
      ∃ i source1, _assert_source_exists visual source_type idx = .ok (some i) ∧
        originSet visual visual1 i .USER source1 ∧ source1.u.tex = some tex) := by
  have hpart : ∀ (visual visual1 : VklVisual) (prop_type : VklPropType)
      (idx first_item item_count data_item_count : Nat) (data : List Nat),
      vkl_visual_data_partial visual prop_type idx first_item item_count data_item_count
        data = .ok visual1 →
      ∃ k prop i source1, vkl_bake_prop visual prop_type idx = some k ∧
        visual.props[k]? = some prop ∧ prop.source = some i ∧
        originSet visual visual1 i .LIB source1 := by
    intro visual visual1 prop_type idx first_item item_count data_item_count data h
    rcases data_partial_ok h with ⟨k, prop, i, source, arr1, hk, hp, hi, hs, _, rfl⟩
    exact ⟨k, prop, i, _, hk, hp, hi, originSet_of_set hs rfl rfl rfl rfl⟩
  refine ⟨?_, hpart, ?_, ?_, ?_, ?_⟩
  · intro visual visual1 prop_type idx count data h
    exact hpart visual visual1 prop_type idx 0 count count data h
  · intro visual visual1 source_type idx first_item item_count data_item_count data h
    rcases data_buffer_ok h with ⟨i, source, arr1, hi, hs, _, rfl⟩
    exact ⟨i, _, hi, originSet_of_set hs rfl rfl rfl rfl⟩
  · intro visual visual1 prop_type idx width height depth data h
    rcases data_texture_ok h with ⟨k, prop, i, source, arr1, _, hk, hp, hi, hs, _, rfl⟩
    exact ⟨k, prop, i, _, hk, hp, hi, originSet_of_set hs rfl rfl rfl rfl⟩
  · intro visual visual1 source_type idx br h
    rcases visual_buffer_ok h with ⟨i, source, hi, hs, _, _, hb⟩
    have hf := set_source_bindings_frame hb
    exact ⟨i, vkl_visual_buffer_source source br, hi,
      originSet_of_set hs hf.2.2.1 rfl rfl hf.1, rfl⟩
  · intro visual visual1 source_type idx tex h
    rcases visual_texture_ok h with ⟨i, source, tex1, hi, hs, htex, hb⟩
    cases htex
    have hf := texture_bind_frame hb
    exact ⟨i, vkl_visual_texture_source source tex, hi,
      originSet_of_set hs hf.2.2.1 rfl rfl hf.1, rfl⟩

/-! ## Texture data -/

/-- Claim C19, refuted on the example: for the non-zero dimensions 65536, 65536 and 1
the 32-bit product is zero, and `vkl_visual_data_texture` fails on its assertion
instead of giving the array the shape `(65536, 65536, 1)`. -/
theorem texture_product_wraps :
    (0 < 65536 ∧ 65536 < 2 ^ 32) ∧
    vkl_visual_data_texture exampleTextureVisual 5 0 65536 65536 1 (exampleBytes 16)
      = .error .assertion ∧
    (∃ visual1, vkl_visual_data_texture exampleTextureVisual 5 0 2 2 1 (exampleBytes 16)
      = .ok visual1) := by
  refine ⟨by decide, ?_, ⟨_, rfl⟩⟩
  unfold vkl_visual_data_texture
  simp only
  rw [if_pos (by decide)]

/-- Claim C19, amended: for non-zero `width`, `height` and `depth` whose product is
below `2 ^ 32`, and a prop that has an owning source, `vkl_visual_data_texture` returns;
afterwards the array of the owning source has the shape `(width, height, depth)` and
`width * height * depth` items of the size it had, and all of them have been written:
the storage of the array is the first `width * height * depth` items of the data. -/
theorem texture_round_trip (visual : VklVisual) (prop_type : VklPropType)
    (idx width height depth k i : Nat) (prop : VklProp) (source : VklSource)
    (data : List Nat) (hw : 0 < width) (hh : 0 < height) (hd : 0 < depth)
    (hlt : width * height * depth < 2 ^ 32)
    (hk : vkl_bake_prop visual prop_type idx = some k) (hp : visual.props[k]? = some prop)
    (hi : prop.source = some i) (hs : visual.sources[i]? = some source) :
    ∃ visual1 source1,
      vkl_visual_data_texture visual prop_type idx width height depth data = .ok visual1 ∧
      visual1.sources[i]? = some source1 ∧
      source1.arr.shape = (width, height, depth) ∧
      source1.arr.item_count = width * height * depth ∧
      source1.arr.item_size = source.arr.item_size ∧
      (∀ p, p < width * height * depth * source.arr.item_size →
        source1.arr.byteAt p = data.getD p 0) ∧
      (∀ p, width * height * depth * source.arr.item_size ≤ p → source1.arr.byteAt p = 0) := by
  have hpos : 0 < width * height * depth := Nat.mul_pos (Nat.mul_pos hw hh) hd
  have hmod : (width * height * depth) % 2 ^ 32 = width * height * depth :=
    Nat.mod_eq_of_lt hlt
  have hdata : ∃ arr1, vkl_array_data (vkl_array_reshape source.arr width height depth) 0
      (width * height * depth) (width * height * depth) data = .ok arr1 := by
    unfold vkl_array_data
    rw [if_neg (by simp [vkl_array_reshape])]
    exact ⟨_, rfl⟩
  rcases hdata with ⟨arr1, ha⟩
  have hcall : vkl_visual_data_texture visual prop_type idx width height depth data =
      .ok { visual with
            obj_status := .NEED_UPDATE
            sources := visual.sources.set i
              { source with arr := arr1, origin := .NOBAKE, obj_status := .NEED_UPDATE } } := by
    unfold vkl_visual_data_texture
    simp only
    rw [hmod, if_neg (not_not.mpr hpos), hk]
    simp only
    rw [hp]
    simp only
    rw [hi]
    simp only
    rw [hs]
    simp only
    rw [ha]
  rcases array_data_ok ha with ⟨_, hcount, hsize, hshape, _⟩
  refine ⟨_, _, hcall, set_self hs, ?_, ?_, ?_, ?_, ?_⟩
  · exact hshape
  · exact hcount
  · exact hsize
  · intro p hlt1
    have hb := array_data_byteAt ha p
    have hisz : 0 < source.arr.item_size := by
      rcases Nat.eq_zero_or_pos source.arr.item_size with h0 | h0
      · rw [h0] at hlt1
        simp at hlt1
      · exact h0
    have hr1 : (vkl_array_reshape source.arr width height depth).item_count
        = width * height * depth := rfl
    have hr2 : (vkl_array_reshape source.arr width height depth).item_size
        = source.arr.item_size := rfl
    rw [hr1, hr2, if_pos hlt1] at hb
    have hdiv : p / source.arr.item_size < width * height * depth :=
      (Nat.div_lt_iff_lt_mul hisz).mpr hlt1
    rw [if_pos ⟨Nat.zero_le _, by omega⟩] at hb
    rw [hb, Nat.sub_zero, Nat.mod_eq_of_lt hdiv, Nat.div_add_mod' p source.arr.item_size]
  · intro p hge
    have hb := array_data_byteAt ha p
    have hr1 : (vkl_array_reshape source.arr width height depth).item_count
        = width * height * depth := rfl
    have hr2 : (vkl_array_reshape source.arr width height depth).item_size
        = source.arr.item_size := rfl
    rw [hr1, hr2, if_neg (by omega)] at hb
    exact hb

/-- The amended claim C19 on the example: an image of 2 by 2 items of four bytes. -/
theorem texture_round_trip_witness :
    ∃ visual1 source1,
      vkl_visual_data_texture exampleTextureVisual 5 0 2 2 1 (exampleBytes 16) = .ok visual1 ∧
      visual1.sources[0]? = some source1 ∧
      source1.arr.shape = (2, 2, 1) ∧
      source1.arr.item_count = 2 * 2 * 1 ∧
      source1.arr.item_size = (vkl_visual_source_new .IMAGE .GRAPHICS 0 0 4 0).arr.item_size ∧
      (∀ p, p < 2 * 2 * 1 * (vkl_visual_source_new .IMAGE .GRAPHICS 0 0 4 0).arr.item_size →
        source1.arr.byteAt p = (exampleBytes 16).getD p 0) ∧
      (∀ p, 2 * 2 * 1 * (vkl_visual_source_new .IMAGE .GRAPHICS 0 0 4 0).arr.item_size ≤ p →
        source1.arr.byteAt p = 0) :=
  texture_round_trip exampleTextureVisual 5 0 2 2 1 0 0
    (vkl_visual_prop_new 5 0 .CVEC4 0 (vkl_visual_source_new .IMAGE .GRAPHICS 0 0 4 0))
    (vkl_visual_source_new .IMAGE .GRAPHICS 0 0 4 0) (exampleBytes 16)
    (by decide) (by decide) (by decide) (by decide) (by decide) (by decide) (by decide)
    (by decide)

/-! ## Regions attached to the Binding Sets -/

theorem modifyBindings_regions {visual visual1 : VklVisual} {ref0 : VklBindingsRef}
    {f : VklBindings → VklBindings} (h : visual.modifyBindings ref0 f = .ok visual1)
    (hf : ∀ b, (f b).br = b.br) (ref : VklBindingsRef) :
    visual1.regionsAt ref = visual.regionsAt ref := by
  unfold VklVisual.modifyBindings at h
  cases ref0 with
  | graphics idx0 =>
    simp only at h
    split at h
    · cases h
    · rename_i b hb
      cases h
      cases ref with
      | graphics idx =>
        simp only [VklVisual.regionsAt, VklVisual.bindingsAt, List.getElem?_set]
        by_cases he : idx0 = idx
        · subst he
          have hlt : idx0 < visual.bindings.length :=
            (List.getElem?_eq_some_iff.mp hb).1
          simp [hlt, hb, hf]
        · simp [he]
      | compute idx => rfl
  | compute idx0 =>
    simp only at h
    split at h
    · cases h
    · rename_i b hb
      cases h
      cases ref with
      | graphics idx => rfl
      | compute idx =>
        simp only [VklVisual.regionsAt, VklVisual.bindingsAt, List.getElem?_set]
        by_cases he : idx0 = idx
        · subst he
          have hlt : idx0 < visual.bindings_comp.length :=
            (List.getElem?_eq_some_iff.mp hb).1
          simp [hlt, hb, hf]
        · simp [he]

theorem modifyOther_regions (f : VklBindings → VklBindings) (hf : ∀ b, (f b).br = b.br)
    (ref : VklBindingsRef) :
    ∀ (l : List Nat) (visual visual1 : VklVisual),
      modifyOtherBindings f l visual = .ok visual1 →
      visual1.regionsAt ref = visual.regionsAt ref := by
  intro l
  induction l with
  | nil =>
    intro visual visual1 h
    cases h
    rfl
  | cons idx rest ih =>
    intro visual visual1 h
    simp only [modifyOtherBindings] at h
    split at h
    · cases h
    · rename_i v hv
      rw [ih _ _ h, modifyBindings_regions hv hf]

/-- The attachment of a region at the slot `slot0` of a Binding Set replaces what was
attached there and leaves the other slots and the other Binding Sets. -/
theorem modifyBindings_attach {visual visual1 : VklVisual} {ref0 : VklBindingsRef}
    {slot0 : Nat} {r : VklBufferRegions}
    (h : visual.modifyBindings ref0 (fun b => vkl_bindings_buffer b slot0 r) = .ok visual1)
    (ref : VklBindingsRef) (slot : Nat) :
    attachedAt visual1 ref slot =
      if ref0 = ref ∧ slot0 = slot then some r else attachedAt visual ref slot := by
  unfold VklVisual.modifyBindings at h
  cases ref0 with
  | graphics idx0 =>
    simp only at h
    split at h
    · cases h
    · rename_i b hb
      cases h
      cases ref with
      | graphics idx =>
        simp only [attachedAt, VklVisual.regionsAt, VklVisual.bindingsAt, List.getElem?_set]
        by_cases he : idx0 = idx
        · subst he
          have hlt : idx0 < visual.bindings.length :=
            (List.getElem?_eq_some_iff.mp hb).1
          by_cases hsl : slot0 = slot
          · subst hsl
            simp [hlt, vkl_bindings_buffer, List.lookup]
          · have hne : (slot == slot0) = false := by
              simp only [beq_eq_false_iff_ne, ne_eq]
              exact fun e => hsl e.symm
            simp [hlt, hb, hsl, vkl_bindings_buffer, List.lookup, hne]
        · simp [he]
      | compute idx => simp [attachedAt, VklVisual.regionsAt, VklVisual.bindingsAt]
  | compute idx0 =>
    simp only at h
    split at h
    · cases h
    · rename_i b hb
      cases h
      cases ref with
      | graphics idx => simp [attachedAt, VklVisual.regionsAt, VklVisual.bindingsAt]
      | compute idx =>
        simp only [attachedAt, VklVisual.regionsAt, VklVisual.bindingsAt, List.getElem?_set]
        by_cases he : idx0 = idx
        · subst he
          have hlt : idx0 < visual.bindings_comp.length :=
            (List.getElem?_eq_some_iff.mp hb).1
          by_cases hsl : slot0 = slot
          · subst hsl
            simp [hlt, vkl_bindings_buffer, List.lookup]
          · have hne : (slot == slot0) = false := by
              simp only [beq_eq_false_iff_ne, ne_eq]
              exact fun e => hsl e.symm
            simp [hlt, hb, hsl, vkl_bindings_buffer, List.lookup, hne]
        · simp [he]

theorem modifyOther_attach_keep (slot0 : Nat) (r : VklBufferRegions) (ref : VklBindingsRef)
    (slot : Nat) :
    ∀ (l : List Nat) (visual visual1 : VklVisual),
      modifyOtherBindings (fun b => vkl_bindings_buffer b slot0 r) l visual = .ok visual1 →
      (slot0 = slot → ∀ idx ∈ l, ref ≠ .graphics idx) →
      attachedAt visual1 ref slot = attachedAt visual ref slot := by
  intro l
  induction l with
  | nil =>
    intro visual visual1 h _
    cases h
    rfl
  | cons idx rest ih =>
    intro visual visual1 h hfree
    simp only [modifyOtherBindings] at h
    split at h
    · cases h
    · rename_i v hv
      rw [ih _ _ h (fun e k hk => hfree e k (List.mem_cons_of_mem _ hk)),
        modifyBindings_attach hv]
      rw [if_neg]
      rintro ⟨e1, e2⟩
      exact hfree e2 idx (List.mem_cons_self _ _) e1.symm

theorem modifyOther_attach_same (slot : Nat) (r : VklBufferRegions) (ref : VklBindingsRef) :
    ∀ (l : List Nat) (visual visual1 : VklVisual),
      modifyOtherBindings (fun b => vkl_bindings_buffer b slot r) l visual = .ok visual1 →
      attachedAt visual ref slot = some r →
      attachedAt visual1 ref slot = some r := by
  intro l
  induction l with
  | nil =>
    intro visual visual1 h ha
    cases h
    exact ha
  | cons idx rest ih =>
    intro visual visual1 h ha
    simp only [modifyOtherBindings] at h
    split at h
    · cases h
    · rename_i v hv
      apply ih _ _ h
      rw [modifyBindings_attach hv]
      split
      · rfl
      · exact ha

/-- After `_set_source_bindings` on a uniform or storage source, the region of the
source is attached at its slot in the Binding Set of its pipeline. -/
theorem set_source_bindings_attach {visual visual1 : VklVisual} {source : VklSource}
    {ref : VklBindingsRef} (h : _set_source_bindings visual source = .ok visual1)
    (hk : _source_needs_binding source.source_kind = true)
    (href : _get_bindings source = some ref) :
    attachedAt visual1 ref source.slot_idx = some source.u.br := by
  unfold _set_source_bindings at h
  rw [if_pos hk, href] at h
  simp only at h
  split at h
  · cases h
  · rename_i v hv
    apply modifyOther_attach_same _ _ _ _ _ _ h
    rw [modifyBindings_attach hv, if_pos ⟨rfl, rfl⟩]

/-- A source that does not bind the slot `slot` of a Binding Set leaves what is
attached there when `_set_source_bindings` runs on it. -/
theorem set_source_bindings_keep {visual visual1 : VklVisual} {source : VklSource}
    {ref : VklBindingsRef} {slot : Nat}
    (h : _set_source_bindings visual source = .ok visual1)
    (hn : ¬ source.bindsAt ref slot) :
    attachedAt visual1 ref slot = attachedAt visual ref slot := by
  unfold _set_source_bindings at h
  by_cases hk : _source_needs_binding source.source_kind = true
  · rw [if_pos hk] at h
    split at h
    · cases h
    · rename_i ref0 href0
      split at h
      · cases h
      · rename_i v hv
        rw [modifyOther_attach_keep _ _ _ _ _ _ _ h, modifyBindings_attach hv, if_neg]
        · rintro ⟨e1, e2⟩
          exact hn ⟨hk, e2, Or.inl (by rw [href0, e1])⟩
        · intro e idx hidx hr
          exact hn ⟨hk, e, Or.inr ⟨idx, hidx, hr⟩⟩
  · rw [if_neg hk] at h
    cases h
    rfl

theorem attachedAt_of_regions {visual visual1 : VklVisual} {ref : VklBindingsRef}
    (h : visual1.regionsAt ref = visual.regionsAt ref) (slot : Nat) :
    attachedAt visual1 ref slot = attachedAt visual ref slot := by
  unfold attachedAt
  rw [h]

theorem buffer_alloc_attached {visual visual1 : VklVisual} {j : Nat} {s : VklSource}
    {ref : VklBindingsRef} {slot : Nat} (hs : visual.sources[j]? = some s)
    (h : vkl_visual_buffer_alloc visual j = .ok visual1) (hn : ¬ s.bindsAt ref slot) :
    attachedAt visual1 ref slot = attachedAt visual ref slot := by
  unfold vkl_visual_buffer_alloc at h
  simp only [hs] at h
  repeat' split at h
  all_goals first
    | (cases h; done)
    | (cases h; rfl)
    | (cases h
       rename_i hset
       have hkeep := @set_source_bindings_keep _ _ _ ref slot hset hn
       exact hkeep)

theorem texture_bind_regions {visual visual1 : VklVisual} {source : VklSource}
    {tex : VklTexture} (h : vkl_visual_texture_bind visual source tex = .ok visual1)
    (ref : VklBindingsRef) : visual1.regionsAt ref = visual.regionsAt ref := by
  unfold vkl_visual_texture_bind at h
  split at h
  · cases h
  · exact modifyBindings_regions h (fun _ => rfl) ref

theorem texture_alloc_regions {visual visual1 : VklVisual} {j : Nat}
    (h : vkl_visual_texture_alloc visual j = .ok visual1) (ref : VklBindingsRef) :
    visual1.regionsAt ref = visual.regionsAt ref := by
  unfold vkl_visual_texture_alloc at h
  simp only at h
  repeat' split at h
  all_goals first
    | (cases h; done)
    | (cases h; rfl)
    | exact texture_bind_regions h ref

theorem update_invalid_regions {visual visual1 : VklVisual} {source : VklSource}
    (h : vkl_visual_update_invalid visual source = .ok visual1) (ref : VklBindingsRef) :
    visual1.regionsAt ref = visual.regionsAt ref := by
  unfold vkl_visual_update_invalid at h
  split at h
  · cases h
  · rename_i v hv
    have h1 := modifyOther_regions
      (fun b : VklBindings => { b with obj_status := VklObjectStatus.INVALID })
      (fun _ => rfl) ref _ _ _ h
    rw [h1, modifyBindings_regions hv (fun _ => rfl)]

theorem update_buffer_attached {visual visual1 : VklVisual} {j : Nat} {s : VklSource}
    {ref : VklBindingsRef} {slot : Nat} (hs : visual.sources[j]? = some s)
    (h : vkl_visual_update_buffer visual j s = .ok visual1) (hn : ¬ s.bindsAt ref slot) :
    attachedAt visual1 ref slot = attachedAt visual ref slot := by
  unfold vkl_visual_update_buffer at h
  split at h
  · cases h
  · split at h
    · cases h
    · split at h
      · cases h
      · rename_i v1 h1
        have ha := @buffer_alloc_attached _ _ _ _ ref slot hs h1 hn
        repeat' split at h
        all_goals first
          | (cases h; done)
          | (cases h; exact ha)

theorem update_texture_regions {visual visual1 : VklVisual} {j : Nat}
    (h : vkl_visual_update_texture visual j = .ok visual1) (ref : VklBindingsRef) :
    visual1.regionsAt ref = visual.regionsAt ref := by
  unfold vkl_visual_update_texture at h
  split at h
  · cases h
  · rename_i v1 h1
    have ha := texture_alloc_regions h1 ref
    repeat' split at h
    all_goals first
      | (cases h; done)
      | (cases h; exact ha)

/-- A pass of the loop on a source bound by the user, or on a source that does not
bind the slot, leaves what is attached at the slot. -/
theorem update_source_attached {visual visual1 : VklVisual} {j : Nat} {s : VklSource}
    {b : Bool} {ref : VklBindingsRef} {slot : Nat} (hs : visual.sources[j]? = some s)
    (h : vkl_visual_update_source visual j s = .ok (visual1, b))
    (hn : s.origin = .USER ∨ ¬ s.bindsAt ref slot) :
    attachedAt visual1 ref slot = attachedAt visual ref slot := by
  rcases hn with ho | hn
  · rw [update_source_user s ho j visual] at h
    cases h
    rfl
  · unfold vkl_visual_update_source at h
    repeat' split at h
    all_goals first
      | (cases h; done)
      | (cases h; rfl)
      | (cases h
         exact attachedAt_of_regions (update_invalid_regions (by assumption) ref) slot)
      | (cases h
         exact @update_buffer_attached _ _ _ _ ref slot hs (by assumption) hn)
      | (cases h
         exact attachedAt_of_regions (update_texture_regions (by assumption) ref) slot)

theorem update_loop_attached (ref : VklBindingsRef) (slot : Nat) :
    ∀ (n k : Nat) (visual visual1 : VklVisual),
      vkl_visual_update_loop n k visual = .ok visual1 →
      (∀ j s, k ≤ j → visual.sources[j]? = some s →
        s.origin = .USER ∨ ¬ s.bindsAt ref slot) →
      attachedAt visual1 ref slot = attachedAt visual ref slot := by
  intro n
  induction n with
  | zero =>
    intro k visual visual1 h _
    simp only [vkl_visual_update_loop] at h
    cases h
    rfl
  | succ n ih =>
    intro k visual visual1 h hfree
    simp only [vkl_visual_update_loop] at h
    split at h
    · cases h
      rfl
    · rename_i s hs
      split at h
      · cases h
      · rename_i v2 h2
        cases h
        exact update_source_attached hs h2 (hfree k s (le_refl _) hs)
      · rename_i v2 h2
        rw [ih _ _ _ h ?_, update_source_attached hs h2 (hfree k s (le_refl _) hs)]
        intro j t hj ht
        rw [(update_source_touches hs h2).2.1 j (by omega)] at ht
        exact hfree j t (by omega) ht

theorem update_table_regions (pipeline : VklPipelineType) (count : Nat) :
    ∀ (l : List VklBindings) (i : Nat) (ctx : VklContext),
      (vkl_visual_update_table pipeline count i l ctx).1.map (fun b => b.br)
        = l.map (fun b => b.br) := by
  intro l
  induction l with
  | nil => intro i ctx; rfl
  | cons b rest ih =>
    intro i ctx
    simp only [vkl_visual_update_table]
    split
    · simp only [List.map_cons, ih]
      rfl
    · simp only [List.map_cons, ih]

theorem regionsAt_of_map {visual visual1 : VklVisual}
    (hg : visual1.bindings.map (fun b => b.br) = visual.bindings.map (fun b => b.br))
    (hc : visual1.bindings_comp.map (fun b => b.br)
      = visual.bindings_comp.map (fun b => b.br)) (ref : VklBindingsRef) :
    visual1.regionsAt ref = visual.regionsAt ref := by
  cases ref with
  | graphics idx =>
    simp only [VklVisual.regionsAt, VklVisual.bindingsAt]
    rw [← List.getElem?_map, ← List.getElem?_map, hg]
  | compute idx =>
    simp only [VklVisual.regionsAt, VklVisual.bindingsAt]
    rw [← List.getElem?_map, ← List.getElem?_map, hc]

/-- The refresh of the Binding Sets leaves what is attached to them. -/
theorem update_bindings_regions {visual visual1 : VklVisual}
    (h : vkl_visual_update_bindings visual = .ok visual1) (ref : VklBindingsRef) :
    visual1.regionsAt ref = visual.regionsAt ref := by
  unfold vkl_visual_update_bindings at h
  split at h
  · cases h
  · split at h
    · cases h
    · cases h
      exact regionsAt_of_map (update_table_regions _ _ _ _ _) (update_table_regions _ _ _ _ _)
        ref

theorem map_eq_getElem? {β : Type} {f : VklSource → β} {l l1 : List VklSource}
    (h : l1.map f = l.map f) {j : Nat} {s : VklSource} (hs : l[j]? = some s) :
    ∃ s1, l1[j]? = some s1 ∧ f s1 = f s := by
  have h1 : (l1.map f)[j]? = (l.map f)[j]? := by rw [h]
  rw [List.getElem?_map, List.getElem?_map, hs] at h1
  cases h2 : l1[j]? with
  | none =>
    rw [h2] at h1
    cases h1
  | some s1 =>
    rw [h2] at h1
    exact ⟨s1, rfl, Option.some.inj h1⟩

theorem bindsAt_of_place {s t : VklSource} (h : s.place = t.place) (ref : VklBindingsRef)
    (slot : Nat) : s.bindsAt ref slot ↔ t.bindsAt ref slot := by
  unfold VklSource.place at h
  simp only [Prod.mk.injEq] at h
  obtain ⟨h1, h2, h3, h4, h5⟩ := h
  unfold VklSource.bindsAt _get_bindings
  rw [h1, h2, h3, h4, h5]

theorem noCallbacks_keeps_bindings : bakeKeepsBindings noCallbacks := by
  intro visual visual1 h
  have h1 : visual1 = visual := (Except.ok.inj h).symm
  subst h1
  exact ⟨rfl, rfl, rfl, rfl⟩

/-! ## External buffer -/

/-- Claim C20, refuted on the example: the vertex source of the example is bound to a
region of the user and the visual is updated; the source holds the region, and nothing
is attached to the Binding Set of its pipeline, at its slot or at any other. -/
theorem vertex_buffer_not_attached :
    ∃ visual1 visual2,
      vkl_visual_buffer exampleGrowingDeclared .VERTEX 0 exampleRegion = .ok visual1 ∧
      vkl_visual_update noCallbacks visual1 = .ok visual2 ∧
      visual2.sources.map
          (fun s => (s.source_kind, s.pipeline, s.pipeline_idx, s.slot_idx, s.u.br))
        = [(.VERTEX, .GRAPHICS, 0, 0, exampleRegion)] ∧
      attachedAt visual2 (.graphics 0) 0 = none ∧
      visual2.bindings.map (fun b => b.br) = [[]] :=
  ⟨_, _, rfl, rfl, by decide, by decide, by decide⟩

/-- Claim C20, amended: for a uniform or storage source designated by
`(source_type, idx)`, when no other source of the visual is attached at the same slot
of the same Binding Set and the baking stages work on arrays only, after
`vkl_visual_buffer (source_type, idx, br)` followed by `vkl_visual_update` the Binding
Set of the owning pipeline has the region `br` attached at the slot of the source, the
region of the source is still `br`, and no allocation and no upload was issued for the
source.  (For a vertex or index source nothing is attached.) -/
theorem external_buffer_bound (cb : VklVisualCallbacks) (visual visual1 visual2 : VklVisual)
    (source_type : VklSourceType) (idx i : Nat) (source : VklSource) (ref : VklBindingsRef)
    (br : VklBufferRegions) (hcb : bakeKeepsBindings cb)
    (hi : _assert_source_exists visual source_type idx = .ok (some i))
    (hs : visual.sources[i]? = some source)
    (hkind : source.source_kind = .UNIFORM ∨ source.source_kind = .STORAGE)
    (href : _get_bindings source = some ref)
    (hfree : ∀ s ∈ visual.sources.eraseIdx i, ¬ s.bindsAt ref source.slot_idx)
    (hbuf : vkl_visual_buffer visual source_type idx br = .ok visual1)
    (hupd : vkl_visual_update cb visual1 = .ok visual2) :
    attachedAt visual2 ref source.slot_idx = some br ∧
    (∃ source2, visual2.sources[i]? = some source2 ∧ source2.u.br = br ∧
      source2.origin = .USER) ∧
    ∀ c ∈ newCalls visual1 visual2, c.allocFor i = false ∧ c.uploadFor i = false := by
  rcases visual_buffer_ok hbuf with ⟨i1, source1, hi1, hs1, _, _, hset⟩
  rw [hi] at hi1
  cases hi1
  rw [hs] at hs1
  cases hs1
  have hk : _source_needs_binding (vkl_visual_buffer_source source br).source_kind = true := by
    rcases hkind with h | h <;> simp [vkl_visual_buffer_source, _source_needs_binding, h]
  have hatt1 : attachedAt visual1 ref source.slot_idx = some br :=
    @set_source_bindings_attach _ _ (vkl_visual_buffer_source source br) ref hset hk href
  have hfr := set_source_bindings_frame hset
  have hsrc1 : visual1.sources[i]? = some (vkl_visual_buffer_source source br) := by
    rw [hfr.2.2.1]
    exact set_self hs
  have hbake : ∃ visualb, vkl_visual_update_bake cb visual1 = .ok visualb := by
    unfold vkl_visual_update at hupd
    split at hupd
    · cases hupd
    · exact ⟨_, by assumption⟩
  rcases hbake with ⟨visualb, hb⟩
  rcases hcb visual1 visualb hb with ⟨hbg, hbc, hcalls, hmap⟩
  rcases update_after_bake hb hupd with ⟨vl, hloop, hbind⟩
  rcases map_eq_getElem? hmap hsrc1 with ⟨sb, hsb, hfb⟩
  simp only [Prod.mk.injEq] at hfb
  obtain ⟨_, hob, hub⟩ := hfb
  have hob1 : sb.origin = .USER := hob
  have hattb : attachedAt visualb ref source.slot_idx = attachedAt visual1 ref source.slot_idx :=
    attachedAt_of_regions (regionsAt_of_map (by rw [hbg]) (by rw [hbc]) ref) _
  have hattl : attachedAt vl ref source.slot_idx = attachedAt visualb ref source.slot_idx := by
    apply update_loop_attached ref source.slot_idx _ _ _ _ hloop
    intro j s _ hsj
    by_cases hji : j = i
    · subst hji
      rw [hsb] at hsj
      cases hsj
      exact Or.inl hob1
    · right
      rcases map_eq_getElem? hmap.symm hsj with ⟨s1, hs1, hf1⟩
      simp only [Prod.mk.injEq] at hf1
      rw [hfr.2.2.1, set_other hji] at hs1
      have hmem : s1 ∈ visual.sources.eraseIdx i :=
        List.mem_eraseIdx_iff_getElem?.mpr ⟨j, hji, hs1⟩
      exact fun hbs => hfree s1 hmem ((bindsAt_of_place hf1.1 ref _).mpr hbs)
  have hatt2 : attachedAt visual2 ref source.slot_idx = attachedAt vl ref source.slot_idx :=
    attachedAt_of_regions (update_bindings_regions hbind ref) _
  have hun : untouched i visualb visual2 :=
    update_full_untouched hb hupd
      (fun v1 h1 => update_loop_skips i sb (update_source_user sb hob1 i) _ _ _ _ h1 hsb)
  refine ⟨by rw [hatt2, hattl, hattb, hatt1], ⟨sb, hun.1.trans hsb, ?_, hob1⟩, ?_⟩
  · rw [hub]
    rfl
  · obtain ⟨_, cs, hc, hno⟩ := hun
    rw [hcalls] at hc
    rw [newCalls_append _ _ _ hc]
    exact hno

/-- The amended claim C20 on the example scene: the viewport uniform, at the slot 1 of
the pipeline 0, is bound to a region of the user; the update allocates and uploads the
vertex source, and the region of the user stays attached. -/
theorem external_buffer_bound_witness :
    ∃ visual1 visual2,
      vkl_visual_buffer exampleSceneVisual .VIEWPORT 0 exampleRegion = .ok visual1 ∧
      vkl_visual_update noCallbacks visual1 = .ok visual2 ∧
      attachedAt visual2 (.graphics 0) exampleUserSource.slot_idx = some exampleRegion ∧
      (∃ source2, visual2.sources[1]? = some source2 ∧ source2.u.br = exampleRegion ∧
        source2.origin = .USER) ∧
      ∀ c ∈ newCalls visual1 visual2, c.allocFor 1 = false ∧ c.uploadFor 1 = false :=
  ⟨_, _, rfl, rfl,
    external_buffer_bound noCallbacks exampleSceneVisual _ _ .VIEWPORT 0 1 exampleUserSource
      (.graphics 0) exampleRegion noCallbacks_keeps_bindings (by decide) (by decide)
      (by decide) (by decide) (by decide) rfl rfl⟩

/-! ## Rebinding after an allocation -/

/-- When the test of line 817 succeeds, the call is the allocation of the region
followed by `_set_source_bindings` on the source with its new region. -/
theorem buffer_alloc_set {visual visual1 : VklVisual} {i : Nat} {source : VklSource}
    (hs : visual.sources[i]? = some source)
    (h : vkl_visual_buffer_alloc visual i = .ok visual1) (hn : source.needs_alloc) :
    ∃ size, buffer_new_size source.u.br.size source.required_size = some size ∧
      _set_source_bindings (buffer_alloc_visual visual i source size)
        (buffer_alloc_source visual i source size) = .ok visual1 := by
  obtain ⟨h1, h2, h3⟩ := buffer_alloc_pre hs h
  unfold vkl_visual_buffer_alloc at h
  simp only [hs, h1, h2, h3, not_true_eq_false, if_false, if_pos hn] at h
  split at h
  · cases h
  · rename_i size hsize
    split at h
    · cases h
    · split at h
      · cases h
      · rename_i visual2 hb
        split at h
        · cases h
        · cases h
          exact ⟨size, hsize, hb⟩

theorem modifyOther_attach_all (slot : Nat) (r : VklBufferRegions) :
    ∀ (l : List Nat) (visual visual1 : VklVisual),
      modifyOtherBindings (fun b => vkl_bindings_buffer b slot r) l visual = .ok visual1 →
      ∀ idx ∈ l, attachedAt visual1 (.graphics idx) slot = some r := by
  intro l
  induction l with
  | nil =>
    intro visual visual1 _ idx hidx
    cases hidx
  | cons idx0 rest ih =>
    intro visual visual1 h idx hidx
    simp only [modifyOtherBindings] at h
    split at h
    · cases h
    · rename_i v hv
      rcases List.mem_cons.mp hidx with he | hr
      · subst he
        apply modifyOther_attach_same _ _ _ _ _ _ h
        rw [modifyBindings_attach hv, if_pos ⟨rfl, rfl⟩]
      · exact ih _ _ h idx hr

/-- After `_set_source_bindings` on a uniform or storage source, the region of the
source is attached at its slot in the graphics Binding Set of every index of
`other_idxs`. -/
theorem set_source_bindings_others {visual visual1 : VklVisual} {source : VklSource}
    (h : _set_source_bindings visual source = .ok visual1)
    (hk : _source_needs_binding source.source_kind = true) :
    ∀ idx ∈ source.other_idxs,
      attachedAt visual1 (.graphics idx) source.slot_idx = some source.u.br := by
  unfold _set_source_bindings at h
  rw [if_pos hk] at h
  split at h
  · cases h
  · split at h
    · cases h
    · exact modifyOther_attach_all _ _ _ _ _ h

/-- Claim C21: whenever `vkl_visual_buffer_alloc` allocates a new region for a uniform
or storage source, the new region (the one of the single allocation call issued, now
the region of the source) is attached at the slot of the source in the Binding Set of
its owning pipeline, graphics or compute, and in the graphics Binding Set of every
index listed in `other_idxs`; what is attached at every other slot and in every other
Binding Set is unchanged. -/
theorem buffer_alloc_rebinds (visual visual1 : VklVisual) (i : Nat) (source : VklSource)
    (hs : visual.sources[i]? = some source)
    (hk : source.source_kind = .UNIFORM ∨ source.source_kind = .STORAGE)
    (hn : source.needs_alloc)
    (h : vkl_visual_buffer_alloc visual i = .ok visual1) :
    ∃ source1, visual1.sources[i]? = some source1 ∧
      newCalls visual visual1 =
        [.ctx_buffers i (_get_buffer_idx source) (buffer_alloc_count visual source)
          source1.u.br.size] ∧
      (source.pipeline = .GRAPHICS →
        attachedAt visual1 (.graphics source.pipeline_idx) source.slot_idx
          = some source1.u.br) ∧
      (source.pipeline = .COMPUTE →
        attachedAt visual1 (.compute source.pipeline_idx) source.slot_idx
          = some source1.u.br) ∧
      (∀ idx ∈ source.other_idxs,
        attachedAt visual1 (.graphics idx) source.slot_idx = some source1.u.br) ∧
      (∀ ref slot, ¬ source.bindsAt ref slot →
        attachedAt visual1 ref slot = attachedAt visual ref slot) := by
  obtain ⟨size, _, hset⟩ := buffer_alloc_set hs h hn
  obtain ⟨size1, hsize1, _, hsrc, hcalls, _⟩ := buffer_alloc_grow hs h hn
  have hkb : _source_needs_binding (buffer_alloc_source visual i source size).source_kind
      = true := by
    rcases hk with hk | hk <;> simp [buffer_alloc_source, _source_needs_binding, hk]
  have hsz : size1 = size := by
    have := hsize1.symm.trans (by assumption : buffer_new_size _ _ = some size)
    exact Option.some.inj this
  subst hsz
  have hget : visual1.sources[i]? = some (buffer_alloc_source visual i source size1) := by
    rw [hsrc]
    exact set_self hs
  refine ⟨_, hget, ?_, ?_, ?_, ?_, ?_⟩
  · rw [newCalls_append _ _ _ hcalls]
    rfl
  · intro hp
    have href : _get_bindings (buffer_alloc_source visual i source size1)
        = some (.graphics source.pipeline_idx) := by
      simp [_get_bindings, buffer_alloc_source, hp]
    exact set_source_bindings_attach hset hkb href
  · intro hp
    have href : _get_bindings (buffer_alloc_source visual i source size1)
        = some (.compute source.pipeline_idx) := by
      simp [_get_bindings, buffer_alloc_source, hp]
    exact set_source_bindings_attach hset hkb href
  · exact set_source_bindings_others hset hkb
  · intro ref slot hnb
    have hkeep := @set_source_bindings_keep _ _ _ ref slot hset hnb
    exact hkeep

/-- Witness of `buffer_alloc_rebinds`: the uniform source of the example, of the
pipeline 0 and shared with the pipeline 1, has no region; the region allocated for it
is attached at the slot 2 of the Binding Sets 0 and 1. -/
theorem buffer_alloc_rebinds_witness :
    ∃ visual1, vkl_visual_buffer_alloc exampleSharedUniformVisual 0 = .ok visual1 ∧
      attachedAt visual1 (.graphics 0) 2 = some { buffer := 4, count := 1, size := 8 } ∧
      attachedAt visual1 (.graphics 1) 2 = some { buffer := 4, count := 1, size := 8 } ∧
      ∃ source1, visual1.sources[0]? = some source1 ∧
        newCalls exampleSharedUniformVisual visual1 =
          [.ctx_buffers 0 (_get_buffer_idx exampleSharedUniform)
            (buffer_alloc_count exampleSharedUniformVisual exampleSharedUniform)
            source1.u.br.size] ∧
        (exampleSharedUniform.pipeline = .GRAPHICS →
          attachedAt visual1 (.graphics exampleSharedUniform.pipeline_idx)
            exampleSharedUniform.slot_idx = some source1.u.br) ∧
        (exampleSharedUniform.pipeline = .COMPUTE →
          attachedAt visual1 (.compute exampleSharedUniform.pipeline_idx)
            exampleSharedUniform.slot_idx = some source1.u.br) ∧
        (∀ idx ∈ exampleSharedUniform.other_idxs,
          attachedAt visual1 (.graphics idx) exampleSharedUniform.slot_idx
            = some source1.u.br) ∧
        (∀ ref slot, ¬ exampleSharedUniform.bindsAt ref slot →
          attachedAt visual1 ref slot = attachedAt exampleSharedUniformVisual ref slot) :=
  ⟨_, rfl, by decide, by decide,
    buffer_alloc_rebinds exampleSharedUniformVisual _ 0 exampleSharedUniform (by decide)
      (by decide) (by decide) rfl⟩

/-! ## Texture allocation -/

/-- Claim C23, refuted on the example: an image source receives 2 by 2 items and is
uploaded, so that its texture is 2 by 2 by 1; it then receives 4 by 1 items, and the
update resizes the texture to 4 by 1 by 1: its height has shrunk from 2 to 1. -/
theorem texture_resize_shrinks :
    ∃ visual1 visual2 visual3 visual4,
      vkl_visual_data_texture exampleTextureVisual 5 0 2 2 1 (exampleBytes 16) = .ok visual1 ∧
      vkl_visual_update noCallbacks visual1 = .ok visual2 ∧
      vkl_visual_data_texture visual2 5 0 4 1 1 (exampleBytes 16) = .ok visual3 ∧
      vkl_visual_update noCallbacks visual3 = .ok visual4 ∧
      textureImages visual2
        = [some { width := 2, height := 2, depth := 1, format := .R8G8B8A8_UNORM }] ∧
      textureImages visual4
        = [some { width := 4, height := 1, depth := 1, format := .R8G8B8A8_UNORM }] ∧
      newCalls visual3 visual4 = [.texture_resize 0 (4, 1, 1),
        .upload_texture 0 16 (some (exampleBytes 16))] :=
  ⟨_, _, _, _, rfl, rfl, rfl, rfl, by decide, by decide, by decide⟩

/-- Claim C23, amended: a call of `vkl_visual_texture_alloc` that returns has created
a texture of the shape of the array of the source if and only if the source had none,
has resized the existing texture if and only if some dimension of the shape of the
array exceeds the corresponding dimension of the texture, and has otherwise left the
visual (texture and Binding Sets) unchanged.  After the call each dimension of the
texture is at least the corresponding dimension of the shape of the array; a texture
that is created or resized has exactly the shape of the array, so that a dimension in
which the array is smaller than the texture shrinks when another one grows. -/
theorem texture_alloc_cases (visual visual1 : VklVisual) (i : Nat) (source : VklSource)
    (hs : visual.sources[i]? = some source)
    (h : vkl_visual_texture_alloc visual i = .ok visual1) :
    ∃ source1 tex1 image1 format,
      visual1.sources[i]? = some source1 ∧ source1.u.tex = some tex1 ∧
      tex1.image = some image1 ∧ _get_texture_format visual i = .ok format ∧
      (source.u.tex = none →
        newCalls visual visual1 =
          [.ctx_texture i (_get_texture_ndims source.source_kind) source.arr.shape format] ∧
        (image1.width, image1.height, image1.depth) = source.arr.shape) ∧
      (∀ tex image, source.u.tex = some tex → tex.image = some image →
        (image.width < source.arr.shape.1 ∨ image.height < source.arr.shape.2.1 ∨
          image.depth < source.arr.shape.2.2) →
        newCalls visual visual1 = [.texture_resize i source.arr.shape] ∧
        (image1.width, image1.height, image1.depth) = source.arr.shape) ∧
      (∀ tex image, source.u.tex = some tex → tex.image = some image →
        ¬ (image.width < source.arr.shape.1 ∨ image.height < source.arr.shape.2.1 ∨
          image.depth < source.arr.shape.2.2) →
        visual1 = visual ∧ tex1 = tex ∧ image1 = image ∧ newCalls visual visual1 = []) ∧
      source.arr.shape.1 ≤ image1.width ∧ source.arr.shape.2.1 ≤ image1.height ∧
      source.arr.shape.2.2 ≤ image1.depth := by
  have hi := getElem?_lt hs
  unfold vkl_visual_texture_alloc at h
  simp only [hs] at h
  split at h
  · cases h
  split at h
  · cases h
  split at h
  · cases h
  split at h
  · cases h
  split at h
  · cases h
  rename_i format hformat
  split at h
  · cases h
  split at h
  · rename_i hnone
    obtain ⟨_, e2, e3, _⟩ := texture_bind_frame h
    refine ⟨_, _, _, format, by rw [e3]; exact List.getElem?_set_self hi, rfl, rfl, hformat,
      ?_, ?_, ?_, le_refl _, le_refl _, le_refl _⟩
    · intro _
      refine ⟨?_, rfl⟩
      apply newCalls_append
      rw [e2]
      rfl
    · intro tex image htex
      rw [hnone] at htex
      cases htex
    · intro tex image htex
      rw [hnone] at htex
      cases htex
  · rename_i tex htex
    split at h
    · cases h
    · rename_i image himage
      split at h
      · rename_i hcond
        obtain ⟨_, e2, e3, _⟩ := texture_bind_frame h
        refine ⟨_, _, VklImages.mk source.arr.shape.1 source.arr.shape.2.1
            source.arr.shape.2.2 image.format, format,
          by rw [e3]; exact List.getElem?_set_self hi, rfl, ?_, hformat,
          ?_, ?_, ?_, le_refl _, le_refl _, le_refl _⟩
        · simp [vkl_texture_resize, himage]
        · intro hnone
          rw [hnone] at htex
          cases htex
        · intro tex0 image0 htex0 himage0 _
          refine ⟨?_, rfl⟩
          apply newCalls_append
          rw [e2]
          rfl
        · intro tex0 image0 htex0 himage0 hn
          rw [htex] at htex0
          cases htex0
          rw [himage] at himage0
          cases himage0
          exact absurd hcond hn
      · rename_i hcond
        cases h
        refine ⟨source, tex, image, format, hs, htex, himage, hformat, ?_, ?_, ?_, ?_, ?_, ?_⟩
        · intro hnone
          rw [hnone] at htex
          cases htex
        · intro tex0 image0 htex0 himage0 hc
          rw [htex] at htex0
          cases htex0
          rw [himage] at himage0
          cases himage0
          exact absurd hc hcond
        · intro tex0 image0 htex0 himage0 _
          rw [htex] at htex0
          cases htex0
          rw [himage] at himage0
          cases himage0
          exact ⟨rfl, rfl, rfl, newCalls_self _⟩
        · omega
        · omega
        · omega

/-- Witness of `texture_alloc_cases`: the image source of the example has an array of
2 by 2 items and no texture; the call creates a texture of 2 by 2 by 1. -/
theorem texture_alloc_cases_witness :
    ∃ visual1, vkl_visual_texture_alloc exampleTextureFed 0 = .ok visual1 ∧
      textureImages visual1
        = [some { width := 2, height := 2, depth := 1, format := .R8G8B8A8_UNORM }] ∧
      ∃ source1 tex1 image1 format,
        visual1.sources[0]? = some source1 ∧ source1.u.tex = some tex1 ∧
        tex1.image = some image1 ∧ _get_texture_format exampleTextureFed 0 = .ok format ∧
        exampleTextureFed.sources[0].arr.shape.1 ≤ image1.width ∧
        exampleTextureFed.sources[0].arr.shape.2.1 ≤ image1.height ∧
        exampleTextureFed.sources[0].arr.shape.2.2 ≤ image1.depth :=
  ⟨_, rfl, by decide,
    (texture_alloc_cases exampleTextureFed _ 0 exampleTextureFed.sources[0] (by decide)
      rfl).imp fun _ h1 => h1.imp fun _ h2 => h2.imp
      fun _ h3 => h3.imp fun _ h4 => ⟨h4.1, h4.2.1, h4.2.2.1, h4.2.2.2.1,
        h4.2.2.2.2.2.2.2⟩⟩

/-! ## Texture format -/

theorem texture_format_dtype_none (i : Nat) :
    ∀ (props : List VklProp) (dtype : VklDataType),
      (∀ p ∈ props, p.source ≠ some i) → _get_texture_format_dtype i props dtype = dtype := by
  intro props
  induction props with
  | nil => intro dtype _; rfl
  | cons p rest ih =>
    intro dtype h
    simp only [_get_texture_format_dtype]
    rw [if_neg (h p (List.mem_cons_self _ _))]
    exact ih _ (fun q hq => h q (List.mem_cons_of_mem _ hq))

/-- The data type found by the loop of lines 151-160 is the one of the last prop of
the source. -/
theorem texture_format_dtype_last (i : Nat) (p : VklProp) (post : List VklProp)
    (hp : p.source = some i) (hpost : ∀ q ∈ post, q.source ≠ some i) :
    ∀ (pre : List VklProp) (dtype : VklDataType),
      _get_texture_format_dtype i (pre ++ p :: post) dtype = p.dtype := by
  intro pre
  induction pre with
  | nil =>
    intro dtype
    simp only [List.nil_append, _get_texture_format_dtype]
    rw [if_pos hp]
    exact texture_format_dtype_none i post _ hpost
  | cons q rest ih =>
    intro dtype
    simp only [List.cons_append, _get_texture_format_dtype]
    split
    · exact ih _
    · exact ih _

theorem texture_format_of_dtype {visual : VklVisual} {i : Nat} {source : VklSource}
    (hs : visual.sources[i]? = some source)
    (htex : _source_is_texture source.source_kind = true) :
    _get_texture_format visual i =
      if _get_texture_format_dtype i visual.props .NONE = .NONE then .error .assertion
      else .ok (_get_texture_format_of (_get_texture_format_dtype i visual.props .NONE)) := by
  unfold _get_texture_format
  simp only [hs, htex, not_true_eq_false, if_false]

/-- Without a format, the allocation of the texture fails on an assertion. -/
theorem texture_alloc_undefined {visual : VklVisual} {i : Nat}
    (h : _get_texture_format visual i = .ok .UNDEFINED) :
    vkl_visual_texture_alloc visual i = .error .assertion := by
  unfold vkl_visual_texture_alloc
  simp only [h]
  split
  · rfl
  · split
    · rfl
    · split
      · rfl
      · split
        · rfl
        · split
          · rfl
          · rw [if_pos trivial]

theorem update_texture_undefined {visual : VklVisual} {i : Nat}
    (h : _get_texture_format visual i = .ok .UNDEFINED) :
    vkl_visual_update_texture visual i = .error .assertion := by
  unfold vkl_visual_update_texture
  rw [texture_alloc_undefined h]

theorem update_source_undefined {visual : VklVisual} {i : Nat} {source : VklSource}
    (ho : source.origin = .LIB ∨ source.origin = .NOBAKE)
    (hst : source.obj_status = .NEED_UPDATE)
    (htex : _source_is_texture source.source_kind = true)
    (h : _get_texture_format visual i = .ok .UNDEFINED) :
    vkl_visual_update_source visual i source = .error .assertion := by
  have hone : source.origin ≠ .NONE := by
    rcases ho with ho | ho <;> rw [ho] <;> decide
  have hbuf : ¬ (_source_is_buffer source.source_kind = true) := by
    revert htex
    cases source.source_kind <;> decide
  unfold vkl_visual_update_source
  rw [if_neg hone, if_neg (not_not.mpr ho), hst]
  simp only [hbuf, htex, update_texture_undefined h]
  rw [if_neg (by decide), if_neg (by decide), if_neg (by decide), if_pos trivial]

/-- Claim C24, refuted on the example: the image source is fed by a prop of three
floats, for which the table has no format, and a vertex source declared after it has
data to upload; `vkl_visual_update` fails on the assertion of line 863: the upload is
not skipped, and the rest of the pass is not run. -/
theorem unmapped_format_aborts_update :
    ∃ visual1 visual2,
      vkl_visual_data_texture exampleFloatTextureVisual 5 0 1 1 1 (exampleBytes 12)
        = .ok visual1 ∧
      vkl_visual_data_buffer visual1 .VERTEX 0 0 2 2 [7, 7] = .ok visual2 ∧
      _get_texture_format visual2 0 = .ok .UNDEFINED ∧
      vkl_visual_update noCallbacks visual2 = .error .assertion :=
  ⟨_, _, rfl, rfl, by decide, by decide⟩

/-- Claim C24, amended: `_get_texture_format` applies the fixed table CHAR to
R8_UNORM, CVEC3 to R8G8B8_UNORM, CVEC4 to R8G8B8A8_UNORM, SHORT to R16_SNORM, SVEC3
to R16G16B16_SNORM, SVEC4 to R16G16B16A16_SNORM, USHORT to R16_UNORM, USVEC3 to
R16G16B16_UNORM, USVEC4 to R16G16B16A16_UNORM to the data type of the prop that feeds
the texture source; for every other data type it returns no format (UNDEFINED), in
which case `vkl_visual_texture_alloc` fails on its assertion, and with it the pass of
the update loop that reaches the source: no texture is created or uploaded, and the
update does not go on. -/
theorem texture_format_table :
    (_get_texture_format_of .CHAR = .R8_UNORM ∧ _get_texture_format_of .CVEC3 = .R8G8B8_UNORM ∧
      _get_texture_format_of .CVEC4 = .R8G8B8A8_UNORM ∧
      _get_texture_format_of .SHORT = .R16_SNORM ∧
      _get_texture_format_of .SVEC3 = .R16G16B16_SNORM ∧
      _get_texture_format_of .SVEC4 = .R16G16B16A16_SNORM ∧
      _get_texture_format_of .USHORT = .R16_UNORM ∧
      _get_texture_format_of .USVEC3 = .R16G16B16_UNORM ∧
      _get_texture_format_of .USVEC4 = .R16G16B16A16_UNORM) ∧
    (∀ dtype, _get_texture_format_of dtype = .UNDEFINED ↔ dtype ∉ textureDtypes) ∧
    (∀ (visual : VklVisual) (i : Nat) (source : VklSource) (pre post : List VklProp)
      (p : VklProp),
      visual.sources[i]? = some source → _source_is_texture source.source_kind = true →
      visual.props = pre ++ p :: post → p.source = some i →
      (∀ q ∈ post, q.source ≠ some i) → p.dtype ≠ .NONE →
      _get_texture_format visual i = .ok (_get_texture_format_of p.dtype)) ∧
    (∀ (visual : VklVisual) (i : Nat), _get_texture_format visual i = .ok .UNDEFINED →
      vkl_visual_texture_alloc visual i = .error .assertion ∧
      vkl_visual_update_texture visual i = .error .assertion) ∧
    (∀ (visual : VklVisual) (i n : Nat) (source : VklSource),
      visual.sources[i]? = some source →
      (source.origin = .LIB ∨ source.origin = .NOBAKE) →
      source.obj_status = .NEED_UPDATE → _source_is_texture source.source_kind = true →
      _get_texture_format visual i = .ok .UNDEFINED →
      vkl_visual_update_loop (n + 1) i visual = .error .assertion) := by
  refine ⟨by decide, ?_, ?_, ?_, ?_⟩
  · intro dtype
    cases dtype <;> simp [_get_texture_format_of, textureDtypes]
  · intro visual i source pre post p hs htex hprops hp hpost hd
    rw [texture_format_of_dtype hs htex, hprops,
      texture_format_dtype_last i p post hp hpost pre .NONE, if_neg hd]
  · intro visual i h
    exact ⟨texture_alloc_undefined h, update_texture_undefined h⟩
  · intro visual i n source hs ho hst htex h
    simp only [vkl_visual_update_loop, hs, update_source_undefined ho hst htex h]

/-- Claim C25, refuted on the example: a second prop, of one byte per item, is
declared on the image source after the prop of four bytes; `_get_texture_format`
still yields a format, the one of the second prop, and the update creates the texture
with it. -/
theorem two_props_yield_format :
    vkl_visual_prop 8 exampleTextureVisual 6 0 .CHAR .IMAGE 0 = .ok exampleTwoPropsVisual ∧
    (exampleTwoPropsVisual.props.map fun p => (p.source, p.dtype))
      = [(some 0, .CVEC4), (some 0, .CHAR)] ∧
    _get_texture_format exampleTwoPropsVisual 0 = .ok .R8_UNORM ∧
    ∃ visual1 visual2,
      vkl_visual_data_texture exampleTwoPropsVisual 5 0 2 2 1 (exampleBytes 16) = .ok visual1 ∧
      vkl_visual_update noCallbacks visual1 = .ok visual2 ∧
      textureImages visual2
        = [some { width := 2, height := 2, depth := 1, format := .R8_UNORM }] :=
  ⟨by decide, by decide, by decide, _, _, rfl, rfl, by decide⟩

/-- Claim C25, amended: for a texture source with two or more props declared on it,
`_get_texture_format` only logs an error and goes on: whatever the number of props of
the source, the format is the one that the table gives for the data type of the last
prop declared on it (none, UNDEFINED, when the table has no row for it).  The call
fails, on the assertion of line 162, only when no prop is declared on the source or
when the last one has the data type NONE. -/
theorem texture_format_last_prop (visual : VklVisual) (i : Nat) (source : VklSource)
    (hs : visual.sources[i]? = some source)
    (htex : _source_is_texture source.source_kind = true) :
    ((∀ p ∈ visual.props, p.source ≠ some i) →
      _get_texture_format visual i = .error .assertion) ∧
    (∀ (pre post : List VklProp) (p : VklProp),
      visual.props = pre ++ p :: post → p.source = some i →
      (∀ q ∈ post, q.source ≠ some i) →
      _get_texture_format visual i =
        if p.dtype = .NONE then .error .assertion
        else .ok (_get_texture_format_of p.dtype)) := by
  refine ⟨?_, ?_⟩
  · intro h
    rw [texture_format_of_dtype hs htex, texture_format_dtype_none i _ _ h, if_pos rfl]
  · intro pre post p hprops hp hpost
    rw [texture_format_of_dtype hs htex, hprops,
      texture_format_dtype_last i p post hp hpost pre .NONE]

/-- Witness of `texture_format_last_prop`: with the two props of the example, the
format is the one of the second. -/
theorem texture_format_last_prop_witness :
    exampleTwoPropsVisual.sources[0]? = some (vkl_visual_source_new .IMAGE .GRAPHICS 0 0 4 0) ∧
    _get_texture_format exampleTwoPropsVisual 0 =
      (if (vkl_visual_prop_new 6 0 .CHAR 0
            (vkl_visual_source_new .IMAGE .GRAPHICS 0 0 4 0)).dtype = .NONE
        then .error .assertion
        else .ok (_get_texture_format_of (vkl_visual_prop_new 6 0 .CHAR 0
          (vkl_visual_source_new .IMAGE .GRAPHICS 0 0 4 0)).dtype)) :=
  ⟨by decide,
    (texture_format_last_prop exampleTwoPropsVisual 0
      (vkl_visual_source_new .IMAGE .GRAPHICS 0 0 4 0) (by decide) (by decide)).2
      [vkl_visual_prop_new 5 0 .CVEC4 0 (vkl_visual_source_new .IMAGE .GRAPHICS 0 0 4 0)] []
      (vkl_visual_prop_new 6 0 .CHAR 0 (vkl_visual_source_new .IMAGE .GRAPHICS 0 0 4 0))
      rfl rfl (by intro q hq; cases hq)⟩

/-! ## Status of the sources after an update -/

/-- The allocation of a buffer changes at most the physical handle of the source. -/
theorem buffer_alloc_same {visual visual1 : VklVisual} {i : Nat} {source : VklSource}
    (hs : visual.sources[i]? = some source)
    (h : vkl_visual_buffer_alloc visual i = .ok visual1) :
    ∃ s1, visual1.sources[i]? = some s1 ∧ s1 = { source with u := s1.u } ∧
      visual1.obj_status = visual.obj_status := by
  by_cases hn : source.needs_alloc
  · obtain ⟨size, _, _, hsrc, _, _, hst, _⟩ := buffer_alloc_grow hs h hn
    exact ⟨_, by rw [hsrc]; exact set_self hs, rfl, hst⟩
  · have := buffer_alloc_keep hs h hn
    subst this
    exact ⟨source, hs, rfl, rfl⟩

/-- The allocation of a texture changes at most the physical handle of the source. -/
theorem texture_alloc_same {visual visual1 : VklVisual} {i : Nat} {source : VklSource}
    (hs : visual.sources[i]? = some source)
    (h : vkl_visual_texture_alloc visual i = .ok visual1) :
    ∃ s1, visual1.sources[i]? = some s1 ∧ s1 = { source with u := s1.u } ∧
      visual1.obj_status = visual.obj_status := by
  have hi := getElem?_lt hs
  unfold vkl_visual_texture_alloc at h
  simp only [hs] at h
  repeat' split at h
  all_goals first
    | (cases h; done)
    | (cases h
       exact ⟨source, hs, rfl, rfl⟩)
    | (obtain ⟨e1, _, e3, _⟩ := texture_bind_frame h
       exact ⟨_, by rw [e3]; exact List.getElem?_set_self hi, rfl, e1⟩)

theorem update_buffer_same {visual visual2 : VklVisual} {i : Nat} {source : VklSource}
    (hs : visual.sources[i]? = some source)
    (h : vkl_visual_update_buffer visual i source = .ok visual2) :
    ∃ s2, visual2.sources[i]? = some s2 ∧
      s2 = { source with u := s2.u, obj_status := .CREATED } ∧
      visual2.obj_status = .CREATED := by
  obtain ⟨visual1, source1, c, h1, hs1, _, _, hsrc, _, _, _, hst⟩ := update_buffer_result h
  obtain ⟨s1, hs1a, he, _⟩ := buffer_alloc_same hs h1
  rw [hs1] at hs1a
  cases hs1a
  refine ⟨_, by rw [hsrc]; exact set_self hs1, ?_, hst⟩
  rw [he]

theorem update_texture_same {visual visual2 : VklVisual} {i : Nat} {source : VklSource}
    (hs : visual.sources[i]? = some source)
    (h : vkl_visual_update_texture visual i = .ok visual2) :
    ∃ s2, visual2.sources[i]? = some s2 ∧
      s2 = { source with u := s2.u, obj_status := .CREATED } ∧
      visual2.obj_status = .CREATED := by
  unfold vkl_visual_update_texture at h
  split at h
  · cases h
  · rename_i visual1 h1
    obtain ⟨s1, hs1, he, _⟩ := texture_alloc_same hs h1
    simp only [hs1] at h
    repeat' split at h
    all_goals first
      | (cases h; done)
      | (cases h
         refine ⟨_, set_self hs1, ?_, rfl⟩
         rw [he])

/-- A pass of the loop on a source that it does not upload changes Binding Sets at
most; it is the invalidation of lines 953-958 when the source is not set, and nothing
otherwise. -/
theorem update_source_idle {visual visual1 : VklVisual} {i : Nat} {source : VklSource}
    {b : Bool} (hn : ¬ source.uploads)
    (h : vkl_visual_update_source visual i source = .ok (visual1, b)) :
    sameButBindings visual visual1 ∧
      (source.origin ≠ .NONE → visual1 = visual ∧ b = false) := by
  unfold vkl_visual_update_source at h
  split at h
  · rename_i ho
    split at h
    · cases h
    · rename_i v2 h2
      cases h
      exact ⟨update_invalid_frame h2, fun hne => absurd ho hne⟩
  · split at h
    · cases h
      exact ⟨sameButBindings_refl _, fun _ => ⟨rfl, rfl⟩⟩
    · rename_i ho
      split at h
      · cases h
        exact ⟨sameButBindings_refl _, fun _ => ⟨rfl, rfl⟩⟩
      · split at h
        · cases h
          exact ⟨sameButBindings_refl _, fun _ => ⟨rfl, rfl⟩⟩
        · rename_i hst
          split at h
          · rename_i hb
            exact absurd ⟨not_not.mp ho, not_not.mp hst, Or.inl hb⟩ hn
          · split at h
            · rename_i ht
              exact absurd ⟨not_not.mp ho, not_not.mp hst, Or.inr ht⟩ hn
            · cases h
              exact ⟨sameButBindings_refl _, fun _ => ⟨rfl, rfl⟩⟩

/-- A pass of the loop on a source that it uploads leaves the source, physical handle
apart, with the status CREATED, and the visual with the status CREATED. -/
theorem update_source_uploaded {visual visual1 : VklVisual} {i : Nat} {source : VklSource}
    {b : Bool} (hs : visual.sources[i]? = some source) (hu : source.uploads)
    (h : vkl_visual_update_source visual i source = .ok (visual1, b)) :
    b = false ∧ ∃ s1, visual1.sources[i]? = some s1 ∧
      s1 = { source with u := s1.u, obj_status := .CREATED } ∧
      visual1.obj_status = .CREATED := by
  obtain ⟨ho, hst, hk⟩ := hu
  have hone : source.origin ≠ .NONE := by
    rcases ho with ho | ho <;> rw [ho] <;> decide
  unfold vkl_visual_update_source at h
  rw [if_neg hone, if_neg (not_not.mpr ho), hst] at h
  rw [if_neg (by decide), if_neg (by decide)] at h
  split at h
  · split at h
    · cases h
    · rename_i v2 h2
      cases h
      obtain ⟨s2, hs2, he, hv⟩ := update_buffer_same hs h2
      exact ⟨rfl, s2, hs2, he, hv⟩
  · rename_i hb
    have ht : _source_is_texture source.source_kind = true := by
      rcases hk with hk | hk
      · exact absurd hk hb
      · exact hk
    rw [if_pos ht] at h
    split at h
    · cases h
    · rename_i v2 h2
      cases h
      obtain ⟨s2, hs2, he, hv⟩ := update_texture_same hs h2
      exact ⟨rfl, s2, hs2, he, hv⟩

/-! ## A second update -/

theorem update_table_length (pipeline : VklPipelineType) (count : Nat)
    (l : List VklBindings) (i : Nat) (ctx : VklContext) :
    (vkl_visual_update_table pipeline count i l ctx).1.length = l.length := by
  have h := congrArg List.length (update_table_regions pipeline count l i ctx)
  simpa using h

/-- The refresh of the Binding Sets returns exactly when the two tables hold the
Binding Sets of the pipelines, and it leaves the sources, the status of the visual and
the lengths of the tables. -/
theorem update_bindings_facts {visual visual1 : VklVisual}
    (h : vkl_visual_update_bindings visual = .ok visual1) :
    visual1.sources = visual.sources ∧ visual1.obj_status = visual.obj_status ∧
      visual1.bindings.length = visual.bindings.length ∧
      visual1.bindings_comp.length = visual.bindings_comp.length ∧
      visual1.graphics_count = visual.graphics_count ∧
      visual1.compute_count = visual.compute_count ∧
      ¬ visual.bindings.length < visual.graphics_count ∧
      ¬ visual.bindings_comp.length < visual.compute_count := by
  unfold vkl_visual_update_bindings at h
  split at h
  · cases h
  · rename_i h1
    split at h
    · cases h
    · rename_i h2
      cases h
      exact ⟨rfl, rfl, update_table_length _ _ _ _ _, update_table_length _ _ _ _ _, rfl, rfl,
        h1, h2⟩

/-- The upload loop on sources that are all set: the sources it uploads become
CREATED (physical handle apart, they are otherwise unchanged), the others are left
as they are; the visual becomes CREATED when one source at least is uploaded and keeps
its status otherwise. -/
theorem update_loop_status :
    ∀ (n k : Nat) (visual visual1 : VklVisual),
      vkl_visual_update_loop n k visual = .ok visual1 →
      visual.sources.length ≤ k + n →
      (∀ j s, k ≤ j → visual.sources[j]? = some s → s.origin ≠ .NONE) →
      (∀ j s, k ≤ j → visual.sources[j]? = some s →
        ∃ s1, visual1.sources[j]? = some s1 ∧
          (s.uploads → s1 = { s with u := s1.u, obj_status := .CREATED }) ∧
          (¬ s.uploads → s1 = s)) ∧
      ((∃ j s, k ≤ j ∧ visual.sources[j]? = some s ∧ s.uploads) →
        visual1.obj_status = .CREATED) ∧
      ((∀ j s, k ≤ j → visual.sources[j]? = some s → ¬ s.uploads) →
        visual1.obj_status = visual.obj_status) := by
  intro n
  induction n with
  | zero =>
    intro k visual visual1 h hlen _
    simp only [vkl_visual_update_loop] at h
    cases h
    refine ⟨?_, ?_, fun _ => rfl⟩
    · intro j s hj hs
      have := getElem?_lt hs
      omega
    · rintro ⟨j, s, hj, hs, _⟩
      have := getElem?_lt hs
      omega
  | succ n ih =>
    intro k visual visual1 h hlen hset
    simp only [vkl_visual_update_loop] at h
    split at h
    · rename_i hnone
      cases h
      have hk : visual.sources.length ≤ k := by
        by_contra hc
        rw [List.getElem?_eq_getElem (by omega)] at hnone
        cases hnone
      refine ⟨?_, ?_, fun _ => rfl⟩
      · intro j s hj hs
        have := getElem?_lt hs
        omega
      · rintro ⟨j, s, hj, hs, _⟩
        have := getElem?_lt hs
        omega
    · rename_i s hs
      have hne := hset k s (le_refl _) hs
      split at h
      · cases h
      · rename_i v2 h2
        have := update_source_continues hne h2
        cases this
      · rename_i v2 h2
        have ht := update_source_touches hs h2
        have hpast := (update_loop_past k n (k + 1) v2 visual1 h (by omega)).1
        have hset2 : ∀ j t, k + 1 ≤ j → v2.sources[j]? = some t → t.origin ≠ .NONE := by
          intro j t hj hjt
          rw [ht.2.1 j (by omega)] at hjt
          exact hset j t (by omega) hjt
        obtain ⟨ih1, ih2, ih3⟩ := ih (k + 1) v2 visual1 h (by rw [ht.1]; omega) hset2
        have hstat : visual1.obj_status = .CREATED ∨ visual1.obj_status = v2.obj_status := by
          by_cases hex : ∃ j t, k + 1 ≤ j ∧ v2.sources[j]? = some t ∧ t.uploads
          · exact Or.inl (ih2 hex)
          · right
            apply ih3
            intro j t hj hjt hu
            exact hex ⟨j, t, hj, hjt, hu⟩
        refine ⟨?_, ?_, ?_⟩
        · intro j t hj hjt
          by_cases hjk : j = k
          · subst hjk
            rw [hs] at hjt
            cases hjt
            by_cases hu : s.uploads
            · obtain ⟨_, s1, hs1, he, _⟩ := update_source_uploaded hs hu h2
              exact ⟨s1, by rw [hpast]; exact hs1, fun _ => he, fun hn => absurd hu hn⟩
            · obtain ⟨hv, _⟩ := (update_source_idle hu h2).2 hne
              subst hv
              exact ⟨s, by rw [hpast]; exact hs, fun hc => absurd hc hu, fun _ => rfl⟩
          · have hjt2 : v2.sources[j]? = some t := by
              rw [ht.2.1 j hjk]
              exact hjt
            exact ih1 j t (by omega) hjt2
        · rintro ⟨j, t, hj, hjt, hu⟩
          by_cases hjk : j = k
          · subst hjk
            rw [hs] at hjt
            cases hjt
            obtain ⟨_, s1, _, _, hv⟩ := update_source_uploaded hs hu h2
            rcases hstat with h3 | h3
            · exact h3
            · rw [h3, hv]
          · apply ih2
            refine ⟨j, t, by omega, ?_, hu⟩
            rw [ht.2.1 j hjk]
            exact hjt
        · intro hno
          have hu : ¬ s.uploads := hno k s (le_refl _) hs
          obtain ⟨hv, _⟩ := (update_source_idle hu h2).2 hne
          subst hv
          apply ih3
          intro j t hj hjt
          exact hno j t (by omega) hjt

/-- Claim C27, refuted on the example: a vertex source receives two items, and a
viewport uniform receives one item and is then bound to a region of the user; no
source is unset and both arrays are non-empty.  After the update the vertex source is
CREATED and the uniform, which the loop skips, is still NEED_UPDATE.  With the uniform
alone, the visual itself is still NEED_UPDATE after the update. -/
theorem user_source_stays_stale :
    (∃ visual1 visual2 visual3 visual4,
      vkl_visual_data_buffer exampleTwoSourcesVisual .VERTEX 0 0 2 2 [7, 7] = .ok visual1 ∧
      vkl_visual_data_buffer visual1 .VIEWPORT 0 0 1 1 (exampleBytes 16) = .ok visual2 ∧
      vkl_visual_buffer visual2 .VIEWPORT 0 exampleRegion = .ok visual3 ∧
      (visual3.sources.map fun s => (s.origin, s.obj_status, s.arr.item_count))
        = [(.NOBAKE, .NEED_UPDATE, 2), (.USER, .NEED_UPDATE, 1)] ∧
      vkl_visual_update noCallbacks visual3 = .ok visual4 ∧
      (visual4.sources.map fun s => (s.origin, s.obj_status))
        = [(.NOBAKE, .CREATED), (.USER, .NEED_UPDATE)] ∧
      visual4.obj_status = .CREATED) ∧
    (∃ visual1 visual2 visual3,
      vkl_visual_data_buffer
          { exampleTwoSourcesVisual with
            sources := [vkl_visual_source_new .VIEWPORT .GRAPHICS 0 1 16 0] }
          .VIEWPORT 0 0 1 1 (exampleBytes 16) = .ok visual1 ∧
      vkl_visual_buffer visual1 .VIEWPORT 0 exampleRegion = .ok visual2 ∧
      vkl_visual_update noCallbacks visual2 = .ok visual3 ∧
      (visual3.sources.map fun s => (s.origin, s.obj_status)) = [(.USER, .NEED_UPDATE)] ∧
      visual3.obj_status = .NEED_UPDATE) :=
  ⟨⟨_, _, _, _, rfl, rfl, rfl, by decide, rfl, by decide, by decide⟩,
    ⟨_, _, _, rfl, rfl, rfl, by decide, by decide⟩⟩

/-- Claim C27, amended: on a visual in which no source has the origin NONE, when the
upload step of `vkl_visual_update` returns, every source that it uploads (origin LIB
or NOBAKE, status NEED_UPDATE, buffer or texture kind) has the status CREATED, and
every other source, in particular every source of origin USER, is left as it was, with
its status; so no source of a buffer or texture kind managed by the library is left
NEED_UPDATE.  The visual has the status CREATED when one source at least has been
uploaded, and keeps its status otherwise.  The refresh of the Binding Sets that ends
`vkl_visual_update` changes none of these statuses (`visual` is the state in which the
baking stages leave the visual). -/
theorem update_status_lifecycle (visual visual1 : VklVisual)
    (hset : ∀ s ∈ visual.sources, s.origin ≠ .NONE)
    (h : vkl_visual_update_upload visual = .ok visual1) :
    (∀ (j : Nat) (s : VklSource), visual.sources[j]? = some s →
      ∃ s1, visual1.sources[j]? = some s1 ∧ s1.origin = s.origin ∧
        s1.obj_status = s.statusAfterUpdate ∧ (¬ s.uploads → s1 = s)) ∧
    ((∃ s ∈ visual.sources, s.uploads) → visual1.obj_status = .CREATED) ∧
    ((∀ s ∈ visual.sources, ¬ s.uploads) → visual1.obj_status = visual.obj_status) ∧
    (∀ s1 ∈ visual1.sources, s1.origin ≠ .USER →
      (_source_is_buffer s1.source_kind = true ∨ _source_is_texture s1.source_kind = true) →
      s1.obj_status ≠ .NEED_UPDATE) ∧
    ∀ (cb : VklVisualCallbacks) (visual0 visual2 : VklVisual),
      vkl_visual_update_bake cb visual0 = .ok visual →
      vkl_visual_update cb visual0 = .ok visual2 →
      visual2.sources = visual1.sources ∧ visual2.obj_status = visual1.obj_status := by
  have hset0 : ∀ j s, 0 ≤ j → visual.sources[j]? = some s → s.origin ≠ .NONE :=
    fun j s _ hs => hset s (List.mem_iff_getElem?.mpr ⟨j, hs⟩)
  obtain ⟨l1, l2, l3⟩ := update_loop_status visual.sources.length 0 visual visual1 h
    (by omega) hset0
  have hsrc : ∀ (j : Nat) (s : VklSource), visual.sources[j]? = some s →
      ∃ s1, visual1.sources[j]? = some s1 ∧ s1.origin = s.origin ∧
        s1.source_kind = s.source_kind ∧
        s1.obj_status = s.statusAfterUpdate ∧ (¬ s.uploads → s1 = s) := by
    intro j s hs
    obtain ⟨s1, hs1, hu, hn⟩ := l1 j s (Nat.zero_le _) hs
    refine ⟨s1, hs1, ?_, ?_, ?_, hn⟩
    · by_cases hup : s.uploads
      · rw [hu hup]
      · rw [hn hup]
    · by_cases hup : s.uploads
      · rw [hu hup]
      · rw [hn hup]
    · unfold VklSource.statusAfterUpdate
      by_cases hup : s.uploads
      · rw [if_pos hup, hu hup]
      · rw [if_neg hup, hn hup]
  refine ⟨?_, ?_, ?_, ?_, ?_⟩
  · intro j s hs
    obtain ⟨s1, hs1, ho, _, hst, hn⟩ := hsrc j s hs
    exact ⟨s1, hs1, ho, hst, hn⟩
  · rintro ⟨s, hs, hu⟩
    obtain ⟨j, hj⟩ := List.mem_iff_getElem?.mp hs
    exact l2 ⟨j, s, Nat.zero_le _, hj, hu⟩
  · intro hno
    exact l3 (fun j s _ hs => hno s (List.mem_iff_getElem?.mpr ⟨j, hs⟩))
  · intro s1 hs1 ho hk hst
    obtain ⟨j, hj⟩ := List.mem_iff_getElem?.mp hs1
    have hlen := update_loop_length _ _ _ _ h
    have hjlt : j < visual.sources.length := by
      rw [← hlen]
      exact getElem?_lt hj
    obtain ⟨s1a, hs1a, hoa, hka, hsta, _⟩ := hsrc j _ (List.getElem?_eq_getElem hjlt)
    rw [hj] at hs1a
    cases hs1a
    have hne := hset0 j _ (Nat.zero_le _) (List.getElem?_eq_getElem hjlt)
    rw [hsta] at hst
    unfold VklSource.statusAfterUpdate at hst
    by_cases hup : (visual.sources[j]).uploads
    · rw [if_pos hup] at hst
      cases hst
    · rw [if_neg hup] at hst
      apply hup
      refine ⟨?_, hst, by rw [← hka]; exact hk⟩
      rw [hoa] at ho
      revert ho hne
      cases (visual.sources[j]).origin <;> simp
  · intro cb visual0 visual2 hb hu
    obtain ⟨vl, hloop, hbind⟩ := update_after_bake hb hu
    rw [h] at hloop
    cases hloop
    obtain ⟨f1, f2, _⟩ := update_bindings_facts hbind
    exact ⟨f1, f2⟩

/-- Witness of `update_status_lifecycle`: in the example the vertex source is uploaded
and becomes CREATED, and the uniform bound by the user keeps its status. -/
theorem update_status_lifecycle_witness :
    (∀ s ∈ exampleStaleVisual.sources, s.origin ≠ .NONE) ∧
    ∃ visual1, vkl_visual_update_upload exampleStaleVisual = .ok visual1 ∧
      (visual1.sources.map fun s => (s.origin, s.obj_status))
        = [(.NOBAKE, .CREATED), (.USER, .NEED_UPDATE)] ∧
      ((∃ s ∈ exampleStaleVisual.sources, s.uploads) → visual1.obj_status = .CREATED) :=
  ⟨by decide, _, rfl, by decide,
    (update_status_lifecycle exampleStaleVisual _ (by decide) rfl).2.1⟩

/-! ## Termination of the doubling loop -/

/-- The loop of lines 821-822 for a required size of at most `2 ^ 63`: from a size
that is not zero it ends, on the first `size * 2 ^ k` that reaches the required size,
and no doubling wraps. -/
theorem buffer_size_loop_spec_le (req : Nat) (hreq : req ≤ 2 ^ 63) :
    ∀ (fuel size : Nat), 0 < size → req ≤ size * 2 ^ fuel →
      ∃ k, buffer_size_loop req (fuel + 1) size = some (size * 2 ^ k) ∧
        req ≤ size * 2 ^ k ∧ (∀ j, req ≤ size * 2 ^ j → k ≤ j) ∧
        (size < 2 ^ 64 → size * 2 ^ k < 2 ^ 64) := by
  intro fuel
  induction fuel with
  | zero =>
    intro size _ hle
    refine ⟨0, ?_, by simpa using hle, fun j _ => Nat.zero_le j, fun h => by simpa using h⟩
    have : ¬ size < req := by simpa using hle
    simp [buffer_size_loop, this]
  | succ n ih =>
    intro size hpos hle
    by_cases hlt : size < req
    · have hmod : (size * 2) % 2 ^ 64 = size * 2 := Nat.mod_eq_of_lt (by omega)
      obtain ⟨k, hk, hk1, hk2, hk3⟩ := ih (size * 2) (by omega)
        (by rw [pow_succ] at hle; calc req ≤ size * (2 ^ n * 2) := hle
              _ = size * 2 * 2 ^ n := by ring)
      refine ⟨k + 1, ?_, ?_, ?_, ?_⟩
      · rw [buffer_size_loop, if_pos hlt, hmod, hk]
        congr 1
        ring
      · calc req ≤ size * 2 * 2 ^ k := hk1
          _ = size * 2 ^ (k + 1) := by ring
      · intro j hj
        cases j with
        | zero => simp at hj; omega
        | succ j =>
          have : k ≤ j := hk2 j (by
            calc req ≤ size * 2 ^ (j + 1) := hj
              _ = size * 2 * 2 ^ j := by ring)
          omega
      · intro _
        have h3 := hk3 (by omega)
        calc size * 2 ^ (k + 1) = size * 2 * 2 ^ k := by ring
          _ < 2 ^ 64 := h3
    · refine ⟨0, ?_, by simpa using Nat.le_of_not_lt hlt, fun j _ => Nat.zero_le j,
        fun h => by simpa using h⟩
      rw [buffer_size_loop, if_neg hlt]
      simp

/-- The size computed by lines 819-824 from a capacity `C > 0` smaller than the
required size `R <= 2 ^ 63`: the loop ends on `C * 2 ^ k` for the least `k >= 1` that
reaches `R`, whatever the bound on the number of tests from 65 on, and this value fits
64 bits. -/
theorem buffer_new_size_doubles (C R : Nat) (hC : 0 < C) (hlt : C < R) (hR : R ≤ 2 ^ 63) :
    ∃ k, 1 ≤ k ∧ buffer_new_size C R = some (C * 2 ^ k) ∧
      (∀ n, 65 ≤ n → buffer_size_loop R n ((C * 2) % 2 ^ 64) = some (C * 2 ^ k)) ∧
      R ≤ C * 2 ^ k ∧ C * 2 ^ k < 2 ^ 64 ∧
      ∀ j, 1 ≤ j → R ≤ C * 2 ^ j → k ≤ j := by
  have hmod : (C * 2) % 2 ^ 64 = C * 2 := Nat.mod_eq_of_lt (by omega)
  obtain ⟨k, hk, hk1, hk2, hk3⟩ := buffer_size_loop_spec_le R hR 64 (C * 2) (by omega)
    (by
      have : (1 : Nat) ≤ C * 2 := by omega
      calc R ≤ 2 ^ 64 := by omega
        _ = 1 * 2 ^ 64 := by ring
        _ ≤ C * 2 * 2 ^ 64 := Nat.mul_le_mul_right _ this)
  have he : C * 2 * 2 ^ k = C * 2 ^ (k + 1) := by ring
  rw [he] at hk hk1 hk3
  refine ⟨k + 1, by omega, ?_, ?_, hk1, hk3 (by omega), ?_⟩
  · unfold buffer_new_size
    simp only [hmod]
    rw [if_pos (by omega), hk]
  · intro n hn
    rw [hmod, (buffer_size_loop_fuel R (C * 2) (by omega)).1 n hn, hk]
  · intro j hj1 hj
    cases j with
    | zero => omega
    | succ j =>
      have : k ≤ j := hk2 j (by
        calc R ≤ C * 2 ^ (j + 1) := hj
          _ = C * 2 * 2 ^ j := by ring)
      omega

/-- The writes of `_set_source_bindings` fail on a missing Binding Set only. -/
theorem modifyBindings_error {visual : VklVisual} {ref : VklBindingsRef}
    {f : VklBindings → VklBindings} {e : VklError}
    (h : visual.modifyBindings ref f = .error e) : e ≠ .no_termination := by
  unfold VklVisual.modifyBindings at h
  repeat' split at h
  all_goals cases h
  all_goals decide

theorem modifyOther_error (f : VklBindings → VklBindings) :
    ∀ (idxs : List Nat) (visual : VklVisual) (e : VklError),
      modifyOtherBindings f idxs visual = .error e → e ≠ .no_termination := by
  intro idxs
  induction idxs with
  | nil =>
    intro visual e h
    cases h
  | cons idx rest ih =>
    intro visual e h
    simp only [modifyOtherBindings] at h
    split at h
    · rename_i e1 h1
      cases h
      exact modifyBindings_error h1
    · exact ih _ _ h

theorem set_source_bindings_error {visual : VklVisual} {source : VklSource} {e : VklError}
    (h : _set_source_bindings visual source = .error e) : e ≠ .no_termination := by
  unfold _set_source_bindings at h
  split at h
  · split at h
    · cases h
      decide
    · split at h
      · rename_i e1 h1
        cases h
        exact modifyBindings_error h1
      · exact modifyOther_error _ _ _ _ h
  · cases h

/-- Claim C30: in `vkl_visual_buffer_alloc`, on a source of a visual in which every
source without buffer has a region of size zero (the states that the calls produce),
when the branch of line 817 is taken with a capacity `C > 0` and the required size
`R = item_count * item_size` is at most `2 ^ 63`, the capacity is smaller than `R` and
the computation of lines 819-824, in 64-bit unsigned arithmetic, ends: the bound of 65
tests of the condition is never reached and more tests give the same size, so that the
call never ends on this bound.  On exit `size >= R`, and nothing has wrapped: the size
is `C * 2 ^ k` for the least `k >= 1` with `C * 2 ^ k >= R`, and every value
`C * 2 ^ j`, `j <= k`, that `size` has taken fits 64 bits. -/
theorem doubling_loop_terminates (visual : VklVisual) (i : Nat) (source : VklSource)
    (hs : visual.sources[i]? = some source) (hok : handlesOk visual)
    (hn : source.needs_alloc) (hC : 0 < source.u.br.size)
    (hR : source.arr.item_count * source.arr.item_size ≤ 2 ^ 63) :
    source.required_size = source.arr.item_count * source.arr.item_size ∧
    source.u.br.size < source.required_size ∧
    ∃ k, 1 ≤ k ∧
      buffer_new_size source.u.br.size source.required_size
        = some (source.u.br.size * 2 ^ k) ∧
      (∀ n, 65 ≤ n →
        buffer_size_loop source.required_size n ((source.u.br.size * 2) % 2 ^ 64)
          = some (source.u.br.size * 2 ^ k)) ∧
      source.required_size ≤ source.u.br.size * 2 ^ k ∧
      (∀ j, j ≤ k → source.u.br.size * 2 ^ j < 2 ^ 64) ∧
      (∀ j, 1 ≤ j → source.required_size ≤ source.u.br.size * 2 ^ j → k ≤ j) ∧
      vkl_visual_buffer_alloc visual i ≠ .error .no_termination := by
  have hreq := required_size_eq source (by omega)
  have hlt : source.u.br.size < source.required_size := by
    rcases hn with hb | hlt
    · have := hok source (List.mem_iff_getElem?.mpr ⟨i, hs⟩) hb
      omega
    · exact hlt
  obtain ⟨k, hk1, hnew, hfuel, hle, hfit, hleast⟩ :=
    buffer_new_size_doubles source.u.br.size source.required_size hC hlt
      (by rw [hreq]; exact hR)
  refine ⟨hreq, hlt, k, hk1, hnew, hfuel, hle, ?_, hleast, ?_⟩
  · intro j hj
    calc source.u.br.size * 2 ^ j ≤ source.u.br.size * 2 ^ k :=
          Nat.mul_le_mul_left _ (Nat.pow_le_pow_right (by decide) hj)
      _ < 2 ^ 64 := hfit
  · intro hc
    unfold vkl_visual_buffer_alloc at hc
    simp only [hs, hnew, if_pos hn] at hc
    repeat' split at hc
    all_goals first
      | (cases hc; done)
      | (rename_i e1 h1
         cases hc
         exact set_source_bindings_error h1 rfl)

/-- Witness of `doubling_loop_terminates`: in the state reached by setting 10 items,
updating and setting 25 items, the region has 10 bytes and 25 bytes are required; the
size is `10 * 2 ^ 2 = 40`. -/
theorem doubling_loop_terminates_witness :
    runCalls noCallbacks exampleGrowingCalls exampleGrowingDeclared
      = .ok exampleGrowingBefore ∧
    buffer_new_size 10 25 = some 40 ∧
    (exampleGrowingSource .NEED_UPDATE 10).required_size
      = (exampleGrowingSource .NEED_UPDATE 10).arr.item_count
        * (exampleGrowingSource .NEED_UPDATE 10).arr.item_size ∧
    (exampleGrowingSource .NEED_UPDATE 10).u.br.size
      < (exampleGrowingSource .NEED_UPDATE 10).required_size ∧
    ∃ k, 1 ≤ k ∧
      buffer_new_size (exampleGrowingSource .NEED_UPDATE 10).u.br.size
          (exampleGrowingSource .NEED_UPDATE 10).required_size
        = some ((exampleGrowingSource .NEED_UPDATE 10).u.br.size * 2 ^ k) ∧
      (∀ n, 65 ≤ n →
        buffer_size_loop (exampleGrowingSource .NEED_UPDATE 10).required_size n
            (((exampleGrowingSource .NEED_UPDATE 10).u.br.size * 2) % 2 ^ 64)
          = some ((exampleGrowingSource .NEED_UPDATE 10).u.br.size * 2 ^ k)) ∧
      (exampleGrowingSource .NEED_UPDATE 10).required_size
        ≤ (exampleGrowingSource .NEED_UPDATE 10).u.br.size * 2 ^ k ∧
      (∀ j, j ≤ k → (exampleGrowingSource .NEED_UPDATE 10).u.br.size * 2 ^ j < 2 ^ 64) ∧
      (∀ j, 1 ≤ j →
        (exampleGrowingSource .NEED_UPDATE 10).required_size
          ≤ (exampleGrowingSource .NEED_UPDATE 10).u.br.size * 2 ^ j → k ≤ j) ∧
      vkl_visual_buffer_alloc exampleGrowingBefore 0 ≠ .error .no_termination :=
  ⟨by decide, by decide,
    doubling_loop_terminates exampleGrowingBefore 0 (exampleGrowingSource .NEED_UPDATE 10)
      (by decide) (by unfold handlesOk VklSource.handleOk; decide) (by decide) (by decide)
      (by decide)⟩

/-! ## Size of a baked source -/

theorem MAX_eq_max (a b : Nat) : MAX a b = max a b := by
  unfold MAX
  split <;> omega

theorem bake_max_prop_size_loop_spec (i : Nat) :
    ∀ (props : List VklProp) (m : Nat),
      m ≤ vkl_bake_max_prop_size_loop i props m ∧
      (∀ p ∈ props, p.source = some i →
        p.bakedCount % 2 ^ 32 ≤ vkl_bake_max_prop_size_loop i props m) ∧
      (vkl_bake_max_prop_size_loop i props m = m ∨
        ∃ p ∈ props, p.source = some i ∧
          vkl_bake_max_prop_size_loop i props m = p.bakedCount % 2 ^ 32) ∧
      ((∀ p ∈ props, p.source ≠ some i) → vkl_bake_max_prop_size_loop i props m = m) := by
  intro props
  induction props with
  | nil =>
    intro m
    exact ⟨le_refl _, fun p hp => (by cases hp), Or.inl rfl, fun _ => rfl⟩
  | cons q rest ih =>
    intro m
    simp only [vkl_bake_max_prop_size_loop]
    by_cases hq : q.source = some i
    · rw [if_pos hq]
      obtain ⟨h1, h2, h3, _⟩ := ih (MAX m ((q.arr_orig.item_count * MAX 1 q.reps) % 2 ^ 32))
      have key : ∀ a x : Nat, a ≤ MAX a x ∧ x ≤ MAX a x ∧ (MAX a x = a ∨ MAX a x = x) := by
        intro a x
        unfold MAX
        split <;> omega
      obtain ⟨hM1, hM2, hM3⟩ := key m ((q.arr_orig.item_count * MAX 1 q.reps) % 2 ^ 32)
      refine ⟨le_trans hM1 h1, ?_, ?_, ?_⟩
      · intro p hp hps
        rcases List.mem_cons.mp hp with he | hr
        · subst he
          exact le_trans hM2 h1
        · exact h2 p hr hps
      · rcases h3 with h3 | ⟨p, hp, hps, he⟩
        · rcases hM3 with hm | hm
          · left
            rw [h3, hm]
          · right
            refine ⟨q, List.mem_cons_self _ _, hq, ?_⟩
            rw [h3, hm]
            rfl
        · exact Or.inr ⟨p, List.mem_cons_of_mem _ hp, hps, he⟩
      · intro hno
        exact absurd hq (hno q (List.mem_cons_self _ _))
    · rw [if_neg hq]
      obtain ⟨h1, h2, h3, h4⟩ := ih m
      refine ⟨h1, ?_, ?_, ?_⟩
      · intro p hp hps
        rcases List.mem_cons.mp hp with he | hr
        · subst he
          exact absurd hps hq
        · exact h2 p hr hps
      · rcases h3 with h3 | ⟨p, hp, hps, he⟩
        · exact Or.inl h3
        · exact Or.inr ⟨p, List.mem_cons_of_mem _ hp, hps, he⟩
      · intro hno
        exact h4 (fun p hp => hno p (List.mem_cons_of_mem _ hp))

/-- What a call of `vkl_bake_source_alloc` that returns has done. -/
theorem bake_source_alloc_ok {visual visual1 : VklVisual} {i count : Nat}
    (h : vkl_bake_source_alloc visual i count = .ok visual1) :
    ∃ source, visual.sources[i]? = some source ∧
      is_obj_created source.arr.obj_status = true ∧
      visual1 = { visual with
        sources := visual.sources.set i
          { source with arr := vkl_array_resize source.arr count } } := by
  unfold vkl_bake_source_alloc at h
  split at h
  · cases h
  · rename_i source hs
    split at h
    · cases h
    · rename_i hc
      cases h
      exact ⟨source, hs, by simpa using hc, rfl⟩

/-- Claim C28, refuted on the example: a prop of the vertex source holds 2 items and
has `reps = 2 ^ 31`; the product `2 * MAX(1, 2 ^ 31)` is `2 ^ 32`, which is 0 in 32
bits: `vkl_bake_max_prop_size` returns 0, less than the number of items of the prop. -/
theorem max_prop_size_wraps :
    ∃ visual1 visual2,
      vkl_visual_data examplePropVisual 2 0 2 [5, 9] = .ok visual1 ∧
      vkl_visual_prop_copy visual1 2 0 0 0 .REPEAT (2 ^ 31) = .ok visual2 ∧
      (visual2.props.map fun p => (p.source, p.arr_orig.item_count, p.reps, p.bakedCount))
        = [(some 0, 2, 2 ^ 31, 2 ^ 32)] ∧
      vkl_bake_max_prop_size visual2 0 = 0 :=
  ⟨_, _, rfl, rfl, by decide, by decide⟩

/-- Claim C28, amended: `vkl_bake_max_prop_size (visual, source)` is the maximum, over
the props whose owning source is the given source, of the 32-bit product
`item_count * MAX(1, reps)`, that is of the product modulo `2 ^ 32`, and 0 when no prop
is bound to the source.  When no product reaches `2 ^ 32` it is the maximum of the
products, hence at least the number of items of every bound prop, and a source baked
with that count by `vkl_bake_source_alloc` has at least as many items as every bound
prop. -/
theorem bake_max_prop_size_spec :
    (∀ (visual : VklVisual) (i : Nat),
      (∀ p ∈ visual.props, p.source = some i →
        p.bakedCount % 2 ^ 32 ≤ vkl_bake_max_prop_size visual i) ∧
      ((∀ p ∈ visual.props, p.source ≠ some i) → vkl_bake_max_prop_size visual i = 0) ∧
      (vkl_bake_max_prop_size visual i = 0 ∨
        ∃ p ∈ visual.props, p.source = some i ∧
          vkl_bake_max_prop_size visual i = p.bakedCount % 2 ^ 32)) ∧
    (∀ (visual : VklVisual) (i : Nat),
      (∀ p ∈ visual.props, p.source = some i → p.bakedCount < 2 ^ 32) →
      (∀ p ∈ visual.props, p.source = some i →
        p.arr_orig.item_count ≤ p.bakedCount ∧
        p.bakedCount ≤ vkl_bake_max_prop_size visual i) ∧
      (vkl_bake_max_prop_size visual i = 0 ∨
        ∃ p ∈ visual.props, p.source = some i ∧
          vkl_bake_max_prop_size visual i = p.bakedCount) ∧
      ∀ visual1, vkl_bake_source_alloc visual i (vkl_bake_max_prop_size visual i)
          = .ok visual1 →
        ∃ source1, visual1.sources[i]? = some source1 ∧
          source1.arr.item_count = vkl_bake_max_prop_size visual i ∧
          ∀ p ∈ visual1.props, p.source = some i →
            p.arr_orig.item_count ≤ source1.arr.item_count) := by
  refine ⟨?_, ?_⟩
  · intro visual i
    obtain ⟨_, h2, h3, h4⟩ := bake_max_prop_size_loop_spec i visual.props 0
    exact ⟨h2, h4, h3⟩
  · intro visual i hfit
    obtain ⟨_, h2, h3, _⟩ := bake_max_prop_size_loop_spec i visual.props 0
    have hle : ∀ p ∈ visual.props, p.source = some i →
        p.arr_orig.item_count ≤ p.bakedCount ∧
        p.bakedCount ≤ vkl_bake_max_prop_size visual i := by
      intro p hp hps
      constructor
      · unfold VklProp.bakedCount
        rw [MAX_eq_max]
        exact Nat.le_mul_of_pos_right _ (by omega)
      · have := h2 p hp hps
        rw [Nat.mod_eq_of_lt (hfit p hp hps)] at this
        exact this
    refine ⟨hle, ?_, ?_⟩
    · rcases h3 with h3 | ⟨p, hp, hps, he⟩
      · exact Or.inl h3
      · right
        refine ⟨p, hp, hps, ?_⟩
        rw [Nat.mod_eq_of_lt (hfit p hp hps)] at he
        exact he
    · intro visual1 h
      obtain ⟨source, hs, _, rfl⟩ := bake_source_alloc_ok h
      refine ⟨_, set_self hs, rfl, ?_⟩
      intro p hp hps
      obtain ⟨h5, h6⟩ := hle p hp hps
      exact le_trans h5 h6

/-! ## Baking of a prop -/

/-- A prop without data is skipped by `vkl_bake_prop_copy`. -/
theorem bake_prop_copy_skip {visual : VklVisual} {k i : Nat} {prop : VklProp}
    (hp : visual.props[k]? = some prop) (hi : prop.source = some i)
    (hsize : 0 < _get_dtype_size prop.dtype) (hd : prop.arr_orig.data = none) :
    vkl_bake_prop_copy visual k = .ok visual := by
  unfold vkl_bake_prop_copy
  simp only [hp, hi, hd]
  rw [if_neg (not_not.mpr hsize)]

/-- What a call of `vkl_bake_prop_copy` that returns has done, for a prop with data. -/
theorem bake_prop_copy_ok {visual visual1 : VklVisual} {k i : Nat} {prop : VklProp}
    {data : List Nat} (hp : visual.props[k]? = some prop) (hi : prop.source = some i)
    (hd : prop.arr_orig.data = some data)
    (h : vkl_bake_prop_copy visual k = .ok visual1) :
    ∃ source arr, visual.sources[i]? = some source ∧ source.arr.data ≠ none ∧
      prop.arr_orig.item_count ≤ source.arr.item_count ∧
      vkl_array_column source.arr prop.offset (_get_dtype_size prop.dtype) 0
        source.arr.item_count prop.arr_orig.item_count data prop.copy_type prop.reps
          = .ok arr ∧
      visual1 = { visual with sources := visual.sources.set i { source with arr := arr } } := by
  unfold vkl_bake_prop_copy at h
  simp only [hp, hi, hd] at h
  split at h
  · cases h
  · split at h
    · cases h
    · rename_i source hs
      split at h
      · cases h
      · rename_i hdata
        split at h
        · cases h
        · rename_i hle
          split at h
          · cases h
          · rename_i arr ha
            cases h
            exact ⟨source, arr, hs, hdata, not_not.mp hle, ha, rfl⟩

/-- Claim C26, refuted on the example: the first prop of the source has a default
value and no data; `vkl_bake_prop_copy` skips it all the same (it returns the visual
unchanged: the column of the prop keeps the zeros it had, not the default value 9),
and `vkl_bake_source_fill` copies the other prop of the source. -/
theorem default_value_not_used :
    (exampleDefaultVisual.props.map fun p =>
        (p.source, p.offset, p.arr_orig.data, p.default_value))
      = [(some 0, 0, none, some [9]), (some 0, 1, some [5, 6, 7], none)] ∧
    (exampleDefaultVisual.sources.map fun s => s.arr.data) = [some [0, 0, 0, 0, 0, 0]] ∧
    vkl_bake_prop_copy exampleDefaultVisual 0 = .ok exampleDefaultVisual ∧
    ∃ visual1, vkl_bake_source_fill exampleDefaultVisual 0 = .ok visual1 ∧
      (visual1.sources.map fun s => s.arr.data) = [some [0, 5, 0, 6, 0, 7]] :=
  ⟨by decide, by decide, by decide, _, rfl, by decide⟩

/-- Claim C26, amended: `vkl_bake_prop_copy` skips a prop, returning without failing
and leaving the visual (hence the array of the owning source) unchanged, exactly when
the data of the prop was never set (its array has no storage), whether or not the prop
has a default value; for a prop with data, a call that returns has run the column copy
on the array of the owning source.  In `vkl_bake_source_fill` a skipped prop is a pass
of the loop that changes nothing: the loop goes on with the next props of the
source. -/
theorem bake_prop_copy_skips :
    (∀ (visual : VklVisual) (k i : Nat) (prop : VklProp),
      visual.props[k]? = some prop → prop.source = some i →
      0 < _get_dtype_size prop.dtype → prop.arr_orig.data = none →
      vkl_bake_prop_copy visual k = .ok visual) ∧
    (∀ (visual visual1 : VklVisual) (k i : Nat) (prop : VklProp) (data : List Nat),
      visual.props[k]? = some prop → prop.source = some i →
      prop.arr_orig.data = some data → vkl_bake_prop_copy visual k = .ok visual1 →
      ∃ source arr, visual.sources[i]? = some source ∧
        vkl_array_column source.arr prop.offset (_get_dtype_size prop.dtype) 0
          source.arr.item_count prop.arr_orig.item_count data prop.copy_type prop.reps
            = .ok arr ∧
        visual1 = { visual with
          sources := visual.sources.set i { source with arr := arr } }) ∧
    (∀ (visual : VklVisual) (i n k : Nat) (prop : VklProp),
      visual.props[k]? = some prop → prop.source = some i →
      0 < _get_dtype_size prop.dtype → prop.arr_orig.data = none →
      vkl_bake_source_fill_loop i (n + 1) k visual
        = vkl_bake_source_fill_loop i n (k + 1) visual) := by
  refine ⟨?_, ?_, ?_⟩
  · intro visual k i prop hp hi hsize hd
    exact bake_prop_copy_skip hp hi hsize hd
  · intro visual visual1 k i prop data hp hi hd h
    obtain ⟨source, arr, hs, _, _, ha, he⟩ := bake_prop_copy_ok hp hi hd h
    exact ⟨source, arr, hs, ha, he⟩
  · intro visual i n k prop hp hi hsize hd
    simp only [vkl_bake_source_fill_loop, hp, hi, if_true, bake_prop_copy_skip hp hi hsize hd]

/-! ## Baking of a vertex source -/

theorem div_mod_of_lt (S j r : Nat) (h : r < S) :
    (j * S + r) / S = j ∧ (j * S + r) % S = r := by
  have hS : 0 < S := by omega
  constructor
  · rw [Nat.add_comm, Nat.add_mul_div_right _ _ hS, Nat.div_eq_of_lt h, Nat.zero_add]
  · rw [Nat.add_comm, Nat.add_mul_mod_self_right, Nat.mod_eq_of_lt h]

/-- The bytes of an array after a column copy over all its items. -/
theorem array_column_byteAt {arr arr1 : VklArray} {offset col_size data_item_count : Nat}
    {data : List Nat} {copy_type : VklArrayCopyType} {reps : Nat}
    (h : vkl_array_column arr offset col_size 0 arr.item_count data_item_count data
      copy_type reps = .ok arr1) :
    arr1.item_count = arr.item_count ∧ arr1.item_size = arr.item_size ∧
    arr1.data ≠ none ∧ arr1 = { arr with data := arr1.data } ∧
    ∀ p, arr1.byteAt p =
      if p < arr.item_count * arr.item_size then
        if 0 ≤ p / arr.item_size ∧ p / arr.item_size < 0 + arr.item_count ∧
            offset ≤ p % arr.item_size ∧ p % arr.item_size < offset + col_size then
          match vkl_array_column_row copy_type reps data_item_count (p / arr.item_size - 0) with
          | some row => data.getD (row * col_size + (p % arr.item_size - offset)) 0
          | none => arr.byteAt p
        else arr.byteAt p
      else 0 := by
  unfold vkl_array_column at h
  split at h
  · cases h
  · cases h
    refine ⟨rfl, rfl, by simp, rfl, ?_⟩
    intro p
    simp only [VklArray.byteAt, Option.getD_some]
    exact range_map_getD _ _ _

/-- A prop copied one to one, with as many items as the array, passes the test of
the column copy and gives its row `j` to the row `j`. -/
theorem column_one_to_one {prop : VklProp} (h : prop.oneToOne) (N : Nat) :
    vkl_array_column_mismatch prop.copy_type prop.reps N N = false ∧
    ∀ j, j < N → vkl_array_column_row prop.copy_type prop.reps N j = some j := by
  rcases h with h | ⟨h1, h2⟩
  · rw [h]
    cases prop.copy_type
    · exact ⟨by simp [vkl_array_column_mismatch], fun j _ => rfl⟩
    · refine ⟨rfl, fun j hj => ?_⟩
      simp only [vkl_array_column_row, Nat.mul_one, if_pos hj, Nat.mod_eq_of_lt hj]
    · refine ⟨by simp [vkl_array_column_mismatch], fun j _ => ?_⟩
      simp [vkl_array_column_row]
  · rw [h1]
    exact ⟨by simp [vkl_array_column_mismatch], fun j _ => rfl⟩

/-- On a prop fed with one to one data, `vkl_bake_prop_copy` returns: it writes the
column of the prop in every item and leaves the other bytes of the array. -/
theorem bake_prop_copy_column {visual : VklVisual} {k i N : Nat} {prop : VklProp}
    {source : VklSource} (hp : visual.props[k]? = some prop) (hi : prop.source = some i)
    (hs : visual.sources[i]? = some source) (hcount : source.arr.item_count = N)
    (hdata : source.arr.data ≠ none) (hcol : prop.isColumn N source.arr.item_size) :
    ∃ arr, vkl_bake_prop_copy visual k
        = .ok { visual with sources := visual.sources.set i { source with arr := arr } } ∧
      arr.item_count = N ∧ arr.item_size = source.arr.item_size ∧ arr.data ≠ none ∧
      arr = { source.arr with data := arr.data } ∧
      columnHolds arr prop N ∧
      ∀ pos, pos < N * source.arr.item_size →
        ¬ (prop.offset ≤ pos % source.arr.item_size ∧
          pos % source.arr.item_size < prop.offset + _get_dtype_size prop.dtype) →
        arr.byteAt pos = source.arr.byteAt pos := by
  obtain ⟨hc1, hc2, hc3, hc4, hc5⟩ := hcol
  obtain ⟨hmis, hrow⟩ := column_one_to_one hc3 N
  obtain ⟨data, hd⟩ : ∃ data, prop.arr_orig.data = some data := by
    cases hx : prop.arr_orig.data with
    | none => exact absurd hx hc2
    | some data => exact ⟨data, rfl⟩
  have hcolumn : ∃ arr, vkl_array_column source.arr prop.offset (_get_dtype_size prop.dtype) 0
      source.arr.item_count prop.arr_orig.item_count data prop.copy_type prop.reps
        = .ok arr := by
    unfold vkl_array_column
    rw [hc1, hcount, hmis]
    exact ⟨_, rfl⟩
  obtain ⟨arr, ha⟩ := hcolumn
  have hcall : vkl_bake_prop_copy visual k
      = .ok { visual with sources := visual.sources.set i { source with arr := arr } } := by
    unfold vkl_bake_prop_copy
    simp only [hp, hi, hd, hs]
    rw [if_neg (not_not.mpr hc4), if_neg hdata, if_neg (by rw [hc1, hcount]; omega), ha]
  obtain ⟨b1, b2, b3, b4, b5⟩ := array_column_byteAt ha
  refine ⟨arr, hcall, by rw [b1, hcount], b2, b3, b4, ?_, ?_⟩
  · intro j b hj hb
    have hlt : prop.offset + b < source.arr.item_size := by omega
    obtain ⟨hdiv, hmod⟩ := div_mod_of_lt source.arr.item_size j (prop.offset + b) hlt
    have hpos : j * source.arr.item_size + (prop.offset + b) < N * source.arr.item_size := by
      calc j * source.arr.item_size + (prop.offset + b)
          < j * source.arr.item_size + source.arr.item_size := by omega
        _ = (j + 1) * source.arr.item_size := by ring
        _ ≤ N * source.arr.item_size := Nat.mul_le_mul_right _ (by omega)
    rw [b2, Nat.add_assoc, b5, hcount, if_pos hpos, hdiv, hmod,
      if_pos ⟨Nat.zero_le _, by omega, by omega, by omega⟩, Nat.sub_zero, hc1, hrow j hj]
    simp only [VklArray.byteAt, hd, Option.getD_some]
    congr 2
    omega
  · intro pos hpos hn
    rw [b5, hcount, if_pos hpos, if_neg]
    intro hc
    exact hn ⟨hc.2.2.1, hc.2.2.2⟩

theorem set_same {l : List VklSource} {i : Nat} {s : VklSource} (h : l[i]? = some s) :
    l.set i s = l := by
  apply List.ext_getElem?
  intro j
  rw [List.getElem?_set]
  split
  · rename_i hij
    subst hij
    split
    · exact h.symm
    · rename_i hlt
      rw [List.getElem?_eq_none (by omega)] at h
      cases h
  · rfl

/-- The loop of `vkl_bake_source_fill` on a source whose props are columns fed one to
one with `N` items, at byte ranges that do not overlap: from the prop `k` on, the loop
returns, it changes the storage of the array of the source only, the column of every
prop it visits holds the data of the prop, and the bytes outside these columns are
unchanged. -/
theorem fill_loop_columns (i N S : Nat) (P : List VklProp)
    (hcol : ∀ p ∈ P, p.source = some i → p.isColumn N S)
    (hdisj : ∀ (k k' : Nat) (p q : VklProp), k ≠ k' → P[k]? = some p → P[k']? = some q →
      p.source = some i → q.source = some i → columnsDisjoint p q) :
    ∀ (n k : Nat) (v : VklVisual) (s : VklSource), v.props = P → v.sources[i]? = some s →
      s.arr.item_count = N → s.arr.item_size = S → s.arr.data ≠ none → P.length ≤ k + n →
      ∃ arr1, vkl_bake_source_fill_loop i n k v
          = .ok { v with sources := v.sources.set i { s with arr := arr1 } } ∧
        arr1.item_count = N ∧ arr1.item_size = S ∧ arr1.data ≠ none ∧
        arr1 = { s.arr with data := arr1.data } ∧
        (∀ (k' : Nat) (p : VklProp), k ≤ k' → P[k']? = some p → p.source = some i →
          columnHolds arr1 p N) ∧
        (∀ pos, pos < N * S →
          (∀ (k' : Nat) (p : VklProp), k ≤ k' → P[k']? = some p → p.source = some i →
            ¬ (p.offset ≤ pos % S ∧ pos % S < p.offset + _get_dtype_size p.dtype)) →
          arr1.byteAt pos = s.arr.byteAt pos) := by
  intro n
  induction n with
  | zero =>
    intro k v s hP hs hc hsz hd hlen
    refine ⟨s.arr, ?_, hc, hsz, hd, rfl, ?_, fun _ _ _ => rfl⟩
    · have hsame : v.sources.set i { s with arr := s.arr } = v.sources := set_same hs
      simp only [vkl_bake_source_fill_loop, hsame]
    · intro k' p hk hp _
      have := getElem?_lt_prop hp
      omega
  | succ n ih =>
    intro k v s hP hs hc hsz hd hlen
    cases hk : P[k]? with
    | none =>
      have hkl : P.length ≤ k := by
        by_contra hcon
        rw [List.getElem?_eq_getElem (by omega)] at hk
        cases hk
      refine ⟨s.arr, ?_, hc, hsz, hd, rfl, ?_, fun _ _ _ => rfl⟩
      · have hsame : v.sources.set i { s with arr := s.arr } = v.sources := set_same hs
        have hkv : v.props[k]? = none := by rw [hP]; exact hk
        simp only [vkl_bake_source_fill_loop, hkv, hsame]
      · intro k' p hk' hp _
        have := getElem?_lt_prop hp
        omega
    | some p =>
      by_cases hpi : p.source = some i
      · have hpcol := hcol p (List.mem_iff_getElem?.mpr ⟨k, hk⟩) hpi
        have hpv : v.props[k]? = some p := by rw [hP]; exact hk
        obtain ⟨arr2, hcall, a1, a2, a3, a4, a5, a6⟩ :=
          bake_prop_copy_column hpv hpi hs hc hd (by rw [hsz]; exact hpcol)
        obtain ⟨arr1, hloop, b1, b2, b3, b4, b5, b6⟩ :=
          ih (k + 1) { v with sources := v.sources.set i { s with arr := arr2 } }
            { s with arr := arr2 } hP (set_self hs) a1 (by rw [a2, hsz]) a3 (by omega)
        refine ⟨arr1, ?_, b1, b2, b3, ?_, ?_, ?_⟩
        · simp only [vkl_bake_source_fill_loop, hpv, hpi, if_true, hcall, hloop]
          simp only [List.set_set]
        · rw [a4] at b4
          exact b4
        · intro k' q hk' hq hqi
          by_cases hkk : k' = k
          · subst hkk
            rw [hk] at hq
            cases hq
            intro j b hj hb
            obtain ⟨_, _, _, hp4, hp5⟩ := hpcol
            have hlt : p.offset + b < S := by omega
            obtain ⟨hdiv, hmod⟩ := div_mod_of_lt S j (p.offset + b) hlt
            have hpos : j * S + (p.offset + b) < N * S := by
              calc j * S + (p.offset + b) < j * S + S := by omega
                _ = (j + 1) * S := by ring
                _ ≤ N * S := Nat.mul_le_mul_right _ (by omega)
            have hkeep := b6 (j * S + (p.offset + b)) hpos (by
              intro k'' q hk'' hq hqi
              have hdj := hdisj k' k'' p q (by omega) hk hq hpi hqi
              rw [hmod]
              unfold columnsDisjoint at hdj
              omega)
            have hcolumn := a5 j b hj hb
            rw [a2, hsz, Nat.add_assoc] at hcolumn
            rw [b2, Nat.add_assoc, hkeep]
            exact hcolumn
          · exact b5 k' q (by omega) hq hqi
        · intro pos hpos hfree
          rw [b6 pos hpos (fun k' q hk' hq hqi => hfree k' q (by omega) hq hqi)]
          have := hfree k p (le_refl _) hk hpi
          rw [← hsz] at this hpos
          exact a6 pos hpos this
      · have hpv : v.props[k]? = some p := by rw [hP]; exact hk
        obtain ⟨arr1, hloop, b1, b2, b3, b4, b5, b6⟩ :=
          ih (k + 1) v s hP hs hc hsz hd (by omega)
        refine ⟨arr1, ?_, b1, b2, b3, b4, ?_, ?_⟩
        · simp only [vkl_bake_source_fill_loop, hpv, hpi, if_false, hloop]
        · intro k' q hk' hq hqi
          by_cases hkk : k' = k
          · subst hkk
            rw [hk] at hq
            cases hq
            exact absurd hqi hpi
          · exact b5 k' q (by omega) hq hqi
        · intro pos hpos hfree
          exact b6 pos hpos (fun k' q hk' hq hqi => hfree k' q (by omega) hq hqi)


/-- The count that `vkl_bake_max_prop_size` gives for a source whose props hold `N`
items each and are copied one to one. -/
theorem bake_max_prop_size_columns {visual : VklVisual} {i N S : Nat} (hN32 : N < 2 ^ 32)
    (hbound : ∃ p ∈ visual.props, p.source = some i)
    (hcol : ∀ p ∈ visual.props, p.source = some i → p.isColumn N S) :
    vkl_bake_max_prop_size visual i = N := by
  have hcount : ∀ p ∈ visual.props, p.source = some i → p.bakedCount % 2 ^ 32 = N := by
    intro p hp hpi
    obtain ⟨h1, _, h3, _, _⟩ := hcol p hp hpi
    have hM : MAX 1 p.reps = 1 := by
      unfold MAX
      rcases h3 with h | ⟨_, h⟩ <;> rw [h] <;> rfl
    unfold VklProp.bakedCount
    rw [hM, Nat.mul_one, h1, Nat.mod_eq_of_lt hN32]
  obtain ⟨_, h2, h3, _⟩ := bake_max_prop_size_loop_spec i visual.props 0
  obtain ⟨p, hp, hpi⟩ := hbound
  have hle := h2 p hp hpi
  rw [hcount p hp hpi] at hle
  unfold vkl_bake_max_prop_size
  rcases h3 with h3 | ⟨q, hq, hqi, he⟩
  · omega
  · rw [he, hcount q hq hqi]

/-- The computation of lines 819-824 returns a size that reaches the required size
when the latter is at most `2 ^ 63`. -/
theorem buffer_new_size_returns (C R : Nat) (hR : R ≤ 2 ^ 63) :
    ∃ size, buffer_new_size C R = some size ∧ R ≤ size := by
  by_cases h0 : (C * 2) % 2 ^ 64 = 0
  · refine ⟨R, ?_, le_refl _⟩
    unfold buffer_new_size
    simp only [h0]
    rfl
  · have hpos : 0 < (C * 2) % 2 ^ 64 := Nat.pos_of_ne_zero h0
    obtain ⟨k, hk, hk1, _, _⟩ := buffer_size_loop_spec_le R hR 64 ((C * 2) % 2 ^ 64) hpos
      (by
        calc R ≤ 2 ^ 64 := by omega
          _ = 1 * 2 ^ 64 := by ring
          _ ≤ (C * 2) % 2 ^ 64 * 2 ^ 64 := Nat.mul_le_mul_right _ hpos)
    refine ⟨_, ?_, hk1⟩
    unfold buffer_new_size
    simp only
    rw [if_pos hpos, hk]

/-- On a vertex source with items, of at most `2 ^ 63` bytes in all,
`vkl_visual_buffer_alloc` returns, and the source has a region that is not empty. -/
theorem buffer_alloc_vertex_returns {visual : VklVisual} {i : Nat} {source : VklSource}
    (hs : visual.sources[i]? = some source) (hkind : source.source_kind = .VERTEX)
    (hN : 0 < source.arr.item_count) (hS : 0 < source.arr.item_size)
    (hsize : source.arr.item_count * source.arr.item_size ≤ 2 ^ 63) :
    ∃ visual1 source1, vkl_visual_buffer_alloc visual i = .ok visual1 ∧
      visual1.sources[i]? = some source1 ∧ 0 < source1.u.br.size ∧
      source1.u.br.buffer ≠ 0 := by
  have hk : source.source_kind.toNat < VklSourceKind.TEXTURE_1D.toNat := by
    rw [hkind]
    decide
  have hreq : source.required_size = source.arr.item_count * source.arr.item_size :=
    Nat.mod_eq_of_lt (by omega)
  have hpos : 0 < source.required_size := by
    rw [hreq]
    exact Nat.mul_pos hN hS
  unfold vkl_visual_buffer_alloc
  simp only [hs, hk, hS, hN, not_true_eq_false, if_false]
  by_cases hn : source.needs_alloc
  · obtain ⟨size, hsz, hle⟩ := buffer_new_size_returns source.u.br.size source.required_size
      (by rw [hreq]; exact hsize)
    have hb : _set_source_bindings (buffer_alloc_visual visual i source size)
        (buffer_alloc_source visual i source size)
          = .ok (buffer_alloc_visual visual i source size) := by
      unfold _set_source_bindings
      have hk2 : (buffer_alloc_source visual i source size).source_kind = .VERTEX := hkind
      rw [hk2]
      rfl
    have hbuf : (buffer_alloc_source visual i source size).u.br.buffer ≠ 0 := by
      simp [buffer_alloc_source, vkl_ctx_buffers]
    simp only [if_pos hn, hsz, hle, not_true_eq_false, if_false, hb, if_neg hbuf]
    refine ⟨_, buffer_alloc_source visual i source size, rfl, ?_, ?_, hbuf⟩
    · exact set_self hs
    · show 0 < size
      omega
  · have hbuf : source.u.br.buffer ≠ 0 := fun hc => hn (Or.inl hc)
    have hcap : ¬ source.u.br.size < source.required_size := fun hc => hn (Or.inr hc)
    simp only [if_neg hn, if_neg hbuf]
    exact ⟨_, source, rfl, hs, by omega, hbuf⟩

/-- The pass of the upload loop on a vertex source that the library manages, flagged
NEED_UPDATE, with items, of at most `2 ^ 63` bytes in all: the pass returns and goes
on with the next source. -/
theorem update_vertex_returns {visual : VklVisual} {i : Nat} {source : VklSource}
    (hs : visual.sources[i]? = some source) (hkind : source.source_kind = .VERTEX)
    (ho : source.origin = .LIB) (hst : source.obj_status = .NEED_UPDATE)
    (hN : 0 < source.arr.item_count) (hS : 0 < source.arr.item_size)
    (hsize : source.arr.item_count * source.arr.item_size ≤ 2 ^ 63) :
    ∃ visual1, vkl_visual_update_source visual i source = .ok (visual1, false) := by
  obtain ⟨v1, s1, halloc, hs1, hpos, hbuf⟩ :=
    buffer_alloc_vertex_returns hs hkind hN hS hsize
  have hupload : ∃ v2, vkl_visual_update_buffer visual i source = .ok v2 := by
    unfold vkl_visual_update_buffer
    simp only [hN, hS, not_true_eq_false, if_false, halloc, hs1, hpos, if_neg hbuf]
    split
    · exact ⟨_, rfl⟩
    · exact ⟨_, rfl⟩
  obtain ⟨v2, h2⟩ := hupload
  refine ⟨v2, ?_⟩
  unfold vkl_visual_update_source
  rw [ho, hst, hkind]
  simp only [h2]
  rfl

/-- When the sources before the source `i` are set, the upload loop reaches the
source `i`; if the pass uploads it, the source ends, physical handle apart, as it
was, with the status CREATED. -/
theorem update_loop_reaches (i : Nat) :
    ∀ (n k : Nat) (visual visual1 : VklVisual) (source : VklSource),
      vkl_visual_update_loop n k visual = .ok visual1 → k ≤ i → i < k + n →
      (∀ (j : Nat) (s : VklSource), k ≤ j → j < i → visual.sources[j]? = some s →
        s.origin ≠ .NONE) →
      visual.sources[i]? = some source → source.uploads →
      ∃ s2, visual1.sources[i]? = some s2 ∧
        s2 = { source with u := s2.u, obj_status := .CREATED } := by
  intro n
  induction n with
  | zero =>
    intro k visual visual1 source _ h1 h2
    omega
  | succ n ih =>
    intro k visual visual1 source h hk hlt hset hs hu
    simp only [vkl_visual_update_loop] at h
    by_cases hki : k = i
    · subst hki
      simp only [hs] at h
      split at h
      · cases h
      · rename_i v1 ha
        obtain ⟨_, s1, hs1, he, _⟩ := update_source_uploaded hs hu ha
        cases h
        exact ⟨s1, hs1, he⟩
      · rename_i v1 ha
        obtain ⟨_, s1, hs1, he, _⟩ := update_source_uploaded hs hu ha
        obtain ⟨hsame, _⟩ := update_loop_past k n (k + 1) v1 visual1 h (by omega)
        exact ⟨s1, by rw [hsame]; exact hs1, he⟩
    · have hlen := getElem?_lt hs
      obtain ⟨s, hsk⟩ : ∃ s, visual.sources[k]? = some s :=
        ⟨_, List.getElem?_eq_getElem (by omega)⟩
      simp only [hsk] at h
      split at h
      · cases h
      · rename_i v1 ha
        have := update_source_continues (hset k s (le_refl _) (by omega) hsk) ha
        cases this
      · rename_i v1 ha
        obtain ⟨_, hother, _⟩ := update_source_touches hsk ha
        refine ih (k + 1) v1 visual1 source h (by omega) (by omega) ?_ ?_ hu
        · intro j t hj hji ht
          rw [hother j (by omega)] at ht
          exact hset j t (by omega) hji ht
        · rw [hother i (fun hc => hki hc.symm)]
          exact hs

/-- Claim C22, refuted on the examples.  On `exampleRepsVisual` the two props of the
vertex source lie at the byte offsets 0 and 1 and each was fed `N = 2` items by
`vkl_visual_data`, with `reps = 2`: `vkl_bake_max_prop_size` returns 4, and after
`vkl_bake_source_alloc`, `vkl_bake_source_fill` and the upload step the array of the
source has 4 items, not 2, and the byte 0 of its item 1 is the element 0 of the data
of the first prop (5), not the element 1 (6).  On `exampleUnsetFirstVisual` a source
declared before the vertex source is not set: the upload step leaves the loop before
the vertex source, which keeps the status NEED_UPDATE. -/
theorem repeated_props_bake_more_items :
    ((exampleRepsVisual.props.map fun p =>
        (p.source, p.offset, p.reps, p.arr_orig.item_count, p.arr_orig.data))
      = [(some 0, 0, 2, 2, some [5, 6]), (some 0, 1, 2, 2, some [7, 8])] ∧
      vkl_bake_max_prop_size exampleRepsVisual 0 = 4 ∧
      ∃ va vf v2,
        vkl_bake_source_alloc exampleRepsVisual 0 (vkl_bake_max_prop_size exampleRepsVisual 0)
          = .ok va ∧
        vkl_bake_source_fill va 0 = .ok vf ∧ vkl_visual_update_upload vf = .ok v2 ∧
        (v2.sources.map fun s => (s.arr.item_count, s.obj_status, s.arr.data))
          = [(4, .CREATED, some [5, 7, 5, 8, 6, 7, 6, 8])]) ∧
    ((exampleUnsetFirstVisual.sources.map fun s => (s.source_kind, s.origin))
        = [(.UNIFORM, .NONE), (.VERTEX, .LIB)] ∧
      ∃ va vf v2,
        vkl_bake_source_alloc exampleUnsetFirstVisual 1
          (vkl_bake_max_prop_size exampleUnsetFirstVisual 1) = .ok va ∧
        vkl_bake_source_fill va 1 = .ok vf ∧ vkl_visual_update_upload vf = .ok v2 ∧
        (v2.sources.map fun s => (s.arr.item_count, s.obj_status, s.arr.data))
          = [(0, .INIT, none), (2, .NEED_UPDATE, some [5, 6])]) :=
  ⟨⟨by decide, by decide, _, _, _, rfl, rfl, rfl, by decide⟩,
    ⟨by decide, _, _, _, rfl, rfl, rfl, by decide⟩⟩

/-- Claim C22, amended: take a vertex source of `S` bytes per item that the library
manages and that is flagged NEED_UPDATE (as `vkl_visual_data` leaves it), and props
bound to it, one at least, at byte ranges `[offset, offset + size)` that lie inside
the item and do not overlap pairwise, each holding `N` items and copied one to one
(`reps = 1`, or the copy type NONE with `reps = 0` of a prop just declared), with
`N < 2 ^ 32` and `N * S <= 2 ^ 63`.  Then `vkl_bake_max_prop_size` is `N`;
`vkl_bake_source_alloc` with this count and `vkl_bake_source_fill` return; the array
of the source has `N` items and, for every item `j < N` and every bound prop, the
bytes `[offset, offset + size)` of the item `j` are the element `j` of the data of
the prop; the pass of the upload loop on the source returns and leaves the source
with this array and the status CREATED; and when the sources declared before it are
set, every run of the upload step that returns leaves the source with this array and
the status CREATED. -/
theorem vertex_baking (visual : VklVisual) (i N : Nat) (source : VklSource)
    (hs : visual.sources[i]? = some source) (hkind : source.source_kind = .VERTEX)
    (harr : is_obj_created source.arr.obj_status = true)
    (ho : source.origin = .LIB) (hst : source.obj_status = .NEED_UPDATE)
    (hN : 0 < N) (hN32 : N < 2 ^ 32) (hsize : N * source.arr.item_size ≤ 2 ^ 63)
    (hbound : ∃ p ∈ visual.props, p.source = some i)
    (hcol : ∀ p ∈ visual.props, p.source = some i → p.isColumn N source.arr.item_size)
    (hdisj : visual.props.Pairwise fun p q =>
      p.source = some i → q.source = some i → columnsDisjoint p q) :
    vkl_bake_max_prop_size visual i = N ∧
    ∃ va vf sf,
      vkl_bake_source_alloc visual i (vkl_bake_max_prop_size visual i) = .ok va ∧
      vkl_bake_source_fill va i = .ok vf ∧ vf.sources[i]? = some sf ∧
      sf.arr.item_count = N ∧ sf.arr.item_size = source.arr.item_size ∧
      (∀ p ∈ visual.props, p.source = some i → columnHolds sf.arr p N) ∧
      (∃ v1 s1, vkl_visual_update_source vf i sf = .ok (v1, false) ∧
        v1.sources[i]? = some s1 ∧ s1.arr = sf.arr ∧ s1.obj_status = .CREATED) ∧
      ((∀ s ∈ visual.sources.take i, s.origin ≠ .NONE) →
        ∀ v2, vkl_visual_update_upload vf = .ok v2 →
          ∃ s2, v2.sources[i]? = some s2 ∧ s2.arr = sf.arr ∧ s2.obj_status = .CREATED) := by
  obtain ⟨p0, hp0, hp0i⟩ := hbound
  have hS : 0 < source.arr.item_size := by
    obtain ⟨_, _, _, h4, h5⟩ := hcol p0 hp0 hp0i
    omega
  have hmax := bake_max_prop_size_columns hN32 ⟨p0, hp0, hp0i⟩ hcol
  refine ⟨hmax, ?_⟩
  rw [hmax]
  have halloc : vkl_bake_source_alloc visual i N
      = .ok { visual with
              sources := visual.sources.set i
                { source with arr := vkl_array_resize source.arr N } } := by
    unfold vkl_bake_source_alloc
    simp only [hs, harr, not_true_eq_false, if_false]
  have hidx : ∀ (k k' : Nat) (p q : VklProp), k ≠ k' → visual.props[k]? = some p →
      visual.props[k']? = some q → p.source = some i → q.source = some i →
      columnsDisjoint p q := by
    intro k k' p q hne hp hq hpi hqi
    rw [List.pairwise_iff_getElem] at hdisj
    rcases List.getElem?_eq_some_iff.mp hp with ⟨hk, ep⟩
    rcases List.getElem?_eq_some_iff.mp hq with ⟨hk', eq⟩
    rcases Nat.lt_or_gt_of_ne hne with hlt | hgt
    · have := hdisj k k' hk hk' hlt (by rw [ep]; exact hpi) (by rw [eq]; exact hqi)
      rw [ep, eq] at this
      exact this
    · have := hdisj k' k hk' hk hgt (by rw [eq]; exact hqi) (by rw [ep]; exact hpi)
      rw [ep, eq] at this
      exact this.symm
  obtain ⟨s0, hs0⟩ : ∃ s0 : VklSource,
      s0 = { source with arr := vkl_array_resize source.arr N } := ⟨_, rfl⟩
  obtain ⟨va, hva⟩ : ∃ va : VklVisual,
      va = { visual with sources := visual.sources.set i s0 } := ⟨_, rfl⟩
  rw [← hs0, ← hva] at halloc
  have hsa : va.sources[i]? = some s0 := by
    rw [hva]
    exact set_self hs
  obtain ⟨arr1, hfill, a1, a2, a3, a4, a5, _⟩ :=
    fill_loop_columns i N source.arr.item_size visual.props hcol hidx visual.props.length 0
      va s0 (by rw [hva]) hsa (by rw [hs0]; rfl) (by rw [hs0]; rfl)
      (by rw [hs0]; simp [vkl_array_resize]) (by omega)
  obtain ⟨sf, hsfe⟩ : ∃ sf : VklSource, sf = { s0 with arr := arr1 } := ⟨_, rfl⟩
  obtain ⟨vf, hvf⟩ : ∃ vf : VklVisual,
      vf = { va with sources := va.sources.set i sf } := ⟨_, rfl⟩
  rw [← hsfe, ← hvf] at hfill
  have hfill1 : vkl_bake_source_fill va i = .ok vf := by
    unfold vkl_bake_source_fill
    have : va.props = visual.props := by rw [hva]
    rw [this]
    exact hfill
  have hsf : vf.sources[i]? = some sf := by
    rw [hvf]
    exact set_self hsa
  have hother : ∀ j, j ≠ i → vf.sources[j]? = visual.sources[j]? := by
    intro j hj
    rw [hvf]
    show (va.sources.set i sf)[j]? = _
    rw [set_other hj, hva]
    exact set_other hj
  have c1 : sf.arr = arr1 := by rw [hsfe]
  have c2 : sf.source_kind = .VERTEX := by rw [hsfe, hs0]; exact hkind
  have c3 : sf.origin = .LIB := by rw [hsfe, hs0]; exact ho
  have c4 : sf.obj_status = .NEED_UPDATE := by rw [hsfe, hs0]; exact hst
  have hu : sf.uploads := ⟨Or.inl c3, c4, Or.inl (by rw [c2]; rfl)⟩
  refine ⟨va, vf, sf, halloc, hfill1, hsf, by rw [c1]; exact a1, by rw [c1]; exact a2,
    ?_, ?_, ?_⟩
  · intro p hp hpi
    obtain ⟨k, hk⟩ := List.mem_iff_getElem?.mp hp
    rw [c1]
    exact a5 k p (Nat.zero_le _) hk hpi
  · obtain ⟨v1, hpass⟩ := update_vertex_returns hsf c2 c3 c4
      (by rw [c1, a1]; exact hN) (by rw [c1, a2]; exact hS) (by rw [c1, a1, a2]; exact hsize)
    obtain ⟨_, s1, hs1, he, _⟩ := update_source_uploaded hsf hu hpass
    exact ⟨v1, s1, hpass, hs1, by rw [he], by rw [he]⟩
  · intro hset v2 h
    have hlen := getElem?_lt hsf
    obtain ⟨s2, hs2, he⟩ := update_loop_reaches i vf.sources.length 0 vf v2 sf h
      (Nat.zero_le _) (by omega)
      (by
        intro j s _ hji hj
        rw [hother j (by omega)] at hj
        apply hset s
        apply List.mem_iff_getElem?.mpr
        exact ⟨j, by rw [List.getElem?_take_of_lt hji]; exact hj⟩)
      hsf hu
    exact ⟨s2, hs2, by rw [he], by rw [he]⟩

/-- Witness of `vertex_baking`: on `exampleScatterVisual` the vertex source has
`S = 28` bytes per item, the position prop (12 bytes) lies at the offset 0 and the color
prop (4 bytes) at the offset 12, and each holds `N = 6` items.  The three steps return;
the array of the source then has 6 items, the source has the status CREATED, and the
byte 12 of its item 5 is 120, the first byte (the red channel) of the element 5 of the
colors. -/
theorem vertex_baking_witness :
    exampleScatterVisual.sources = [exampleScatterSource] ∧
    exampleScatterSource.arr.item_size = 28 ∧
    (exampleScatterVisual.props.map fun p =>
        (p.source, p.offset, _get_dtype_size p.dtype, p.arr_orig.item_count, p.reps))
      = [(some 0, 0, 12, 6, 1), (some 0, 12, 4, 6, 1)] ∧
    (exampleScatterVisual.props.map fun p => p.arr_orig.byteAt (5 * 4)) = [20, 120] ∧
    (∃ va vf v2,
      vkl_bake_source_alloc exampleScatterVisual 0
        (vkl_bake_max_prop_size exampleScatterVisual 0) = .ok va ∧
      vkl_bake_source_fill va 0 = .ok vf ∧ vkl_visual_update_upload vf = .ok v2 ∧
      (v2.sources.map fun s => (s.arr.item_count, s.obj_status, s.arr.byteAt (5 * 28 + 12)))
        = [(6, .CREATED, 120)]) ∧
    (vkl_bake_max_prop_size exampleScatterVisual 0 = 6 ∧
      ∃ va vf sf,
        vkl_bake_source_alloc exampleScatterVisual 0
          (vkl_bake_max_prop_size exampleScatterVisual 0) = .ok va ∧
        vkl_bake_source_fill va 0 = .ok vf ∧ vf.sources[0]? = some sf ∧
        sf.arr.item_count = 6 ∧ sf.arr.item_size = exampleScatterSource.arr.item_size ∧
        (∀ p ∈ exampleScatterVisual.props, p.source = some 0 → columnHolds sf.arr p 6) ∧
        (∃ v1 s1, vkl_visual_update_source vf 0 sf = .ok (v1, false) ∧
          v1.sources[0]? = some s1 ∧ s1.arr = sf.arr ∧ s1.obj_status = .CREATED) ∧
        ((∀ s ∈ exampleScatterVisual.sources.take 0, s.origin ≠ .NONE) →
          ∀ v2, vkl_visual_update_upload vf = .ok v2 →
            ∃ s2, v2.sources[0]? = some s2 ∧ s2.arr = sf.arr ∧ s2.obj_status = .CREATED)) :=
  ⟨by decide, by decide, by decide, by decide, ⟨_, _, _, rfl, rfl, rfl, by decide⟩,
    vertex_baking exampleScatterVisual 0 6 exampleScatterSource (by decide) rfl rfl rfl rfl
      (by decide) (by decide) (by decide) (by decide) (by decide) (by decide)⟩

/-! ## A second update with the uniform baking of the library -/

end Visky
